import Mathlib

/-! DS epoch transition pipeline (libNode/DSBlockProcessing.cpp)

A shallow embedding of `Node::VerifyDSBlockCoSignature`,
`Node::StoreDSBlockToDisk`, `Node::UpdateDSCommitteeComposition`,
`Node::UpdateGovProposalRemainingVoteInfo`, `Node::LoadShardingStructure`,
`Node::StartFirstTxEpoch`, `Node::ResetConsensusId` and
`Node::ProcessVCDSBlocksMessage`.  The longer functions are cut into named
steps, each annotated with the source lines it embeds.

Conventions of the embedding.

* Keys, peers, hashes and signatures are natural numbers; byte strings are
  lists of natural numbers.  `Peer()` is `0`.
* Collaborators whose code lives outside `DSBlockProcessing.cpp` (messenger,
  storage, multi-signature library, guard list, block chain container, ...)
  are fields of `Env`.  Every statement is proved for all values of these
  fields unless it says otherwise.
* Calls into collaborators that return nothing are recorded, in program
  order, in the `events` trace of the node state.
* Behaviour that C++ leaves undefined (remainder by zero, `operator[]` past
  the end of a deque) is the result `none`; a run that returns is
  `some (b, st)` with `b` the returned boolean and `st` the state after it.
* Integer widths are modelled where the source file shows the type
  (`uint16_t`, `uint64_t`); container sizes are assumed to fit `unsigned int`.
-/

namespace Zilliqa

abbrev zbytes := List Nat
abbrev PubKey := Nat
abbrev Peer := Nat
abbrev Signature := Nat
abbrev BlockHash := Nat
abbrev ShardingHash := Nat
abbrev CommitteeHash := Nat

/-- A deque of (public key, network address) pairs: `DequeOfNode`. -/
abbrev DequeOfNode := List (PubKey × Peer)

/-- One shard member: public key, peer, reputation (`SHARD_NODE_PUBKEY`,
`SHARD_NODE_PEER`, `SHARD_NODE_REP`). -/
structure ShardNode where
  pubKey : PubKey
  peer : Peer
  rep : Nat
  deriving DecidableEq, Repr

abbrev Shard := List ShardNode
abbrev DequeOfShard := List Shard

structure DSBlockHeader where
  version : Nat
  blockNum : Nat
  epochNum : Nat
  dsDifficulty : Nat
  difficulty : Nat
  gasPrice : Nat
  leaderPubKey : PubKey
  shardingHash : ShardingHash
  committeeHash : CommitteeHash
  dsPoWWinners : List (PubKey × Peer)
  deriving DecidableEq, Repr

structure DSBlock where
  header : DSBlockHeader
  blockHash : BlockHash
  timestamp : Nat
  cs1 : Signature
  b1 : List Bool
  cs2 : Signature
  b2 : List Bool
  deriving DecidableEq, Repr

structure VCBlock where
  viewChangeCounter : Nat
  payload : Nat
  deriving DecidableEq, Repr

structure TxBlock where
  blockNum : Nat
  blockHash : zbytes
  timestamp : Nat
  deriving DecidableEq, Repr

/-- What `Messenger::GetNodeVCDSBlocksMessage` writes into its out-parameters. -/
structure VCDSBlocksMessage where
  shardId : Nat
  dsblock : DSBlock
  vcBlocks : List VCBlock
  shardingStructureVersion : Nat
  t_shards : DequeOfShard
  deriving DecidableEq, Repr

inductive SyncType
  | NO_SYNC
  | NEW_SYNC
  | NORMAL_SYNC
  | DS_SYNC
  | LOOKUP_SYNC
  | RECOVERY_ALL_SYNC
  | NEW_LOOKUP_SYNC
  | GUARD_DS_SYNC
  | DB_VERIF
  | SYNC_TYPE_COUNT
  deriving DecidableEq, Repr

/-- The `DirectoryService::Mode` values. -/
inductive Mode
  | IDLE
  | PRIMARY_DS
  | BACKUP_DS
  deriving DecidableEq, Repr

inductive BlockType
  | DS
  | Tx
  | VC
  deriving DecidableEq, Repr

structure BlockLink where
  index : Nat
  dsindex : Nat
  blocktype : BlockType
  blockhash : BlockHash
  deriving DecidableEq, Repr

structure GovProposalInfo where
  isGovProposalActive : Bool
  startDSEpoch : Nat
  endDSEpoch : Nat
  remainingVoteCount : Nat
  proposal : Nat × Nat
  dsVotes : List (Nat × Nat)
  minerVotes : List (Nat × Nat)
  deriving DecidableEq, Repr

structure MinerInfoDSComm where
  m_dsNodes : List PubKey
  m_dsNodesEjected : List PubKey
  deriving DecidableEq, Repr

structure MinerInfoShard where
  m_shardSize : Nat
  m_shardNodes : List PubKey
  deriving DecidableEq, Repr

/-- Calls into collaborators that return nothing (or whose result the caller
ignores), in the order the code issues them. -/
inductive Event
  | RejoinAsNewLookup (fromLookup : Bool)
  | cv_waitJoined_notify_all
  | PutShardStructure (shards : DequeOfShard) (myshardId : Nat)
  | RemoveIpMapping
  | UpdateDSBlockRand
  | PutDSBlock (blockNum : Nat) (body : zbytes)
  | PutMetadataLatestActiveDSBlockNum (blockNum : Nat)
  | ResetDBStateDelta
  | cv_waitDSBlock_notify_one
  | StopMining
  | DSStartFirstTxEpoch
  | StartSynchronization
  | SendDSBlockToOtherShardNodes (msg : zbytes)
  | ProcessEntireShardingStructure
  | BlacklistClear
  | ClearPeerConnectionCount
  | CleanWhitelistReqs
  | SenderTxnBatchThread (oldNumShards : Nat) (newDSEpoch : Bool)
  | PutDSCommittee (dsComm : DequeOfNode) (leaderID : Nat)
  | CleanLocalRawStores
  | cv_vcDsBlockProcessed_notify_all
  | PutMinerInfoDSComm (blockNum : Nat) (info : MinerInfoDSComm)
  | PutMinerInfoShards (blockNum : Nat) (info : List MinerInfoShard)
  | DeleteDiagnosticDataNodes (blockNum : Nat)
  | PutDiagnosticDataNodes (blockNum : Nat) (shards : DequeOfShard) (dsComm : DequeOfNode)
  | AddDSGuardToBlacklistExcludeList (dsComm : DequeOfNode)
  | RemoveSeedNodesFromBlackList
  | InitializeRumorManager
  | CleanMicroblockConsensusBuffer
  | RunConsensusOnMicroBlock
  deriving DecidableEq, Repr

/-- The part of the node (`Node`, `Mediator`, `DirectoryService`, `Lookup`)
that `DSBlockProcessing.cpp` reads or writes.  Fields of `m_mediator.m_ds`
carry the suffix `_ds`, fields of `m_mediator.m_lookup` the suffix `_lookup`. -/
structure NodeState where
  m_state : Nat
  m_selfKey : PubKey
  m_currentEpochNum : Nat
  m_consensusID : Nat
  m_dsBlockChain : List DSBlock
  m_txBlockChain : List TxBlock
  m_blocklinkchain : List BlockLink
  m_builtDSComm : DequeOfNode
  m_DSCommittee : DequeOfNode
  m_shards_ds : DequeOfShard
  m_mode_ds : Mode
  m_consensusLeaderID_ds : Nat
  m_consensusMyID_ds : Nat
  m_latestActiveDSBlockNum_ds : Nat
  m_publicKeyToshardIdMap_ds : List (PubKey × Nat)
  m_mapNodeReputation_ds : List (PubKey × Nat)
  m_dsEpochAfterUpgrade_ds : Bool
  syncType_lookup : SyncType
  m_startedPoW_lookup : Bool
  m_confirmedLatestDSBlock_lookup : Bool
  m_vcDsBlockProcessed_lookup : Bool
  m_fromNewProcess : Bool
  m_myshardId : Nat
  m_numShards : Nat
  m_proposedGasPrice : Nat
  m_stillMiningPrimary : Bool
  m_myShardMembers : DequeOfNode
  m_consensusMyID : Nat
  m_consensusLeaderID : Nat
  m_isPrimary : Bool
  m_requestedForDSGuardNetworkInfoUpdate : Bool
  m_versionChecked : Bool
  m_txn_distribute_window_open : Bool
  m_govProposalInfo : GovProposalInfo
  m_vcDSBlockStore : List (Nat × zbytes)
  m_pendingTxnListsThisEpoch : List Nat
  events : List Event
  deriving DecidableEq, Repr

/-- Configuration constants and collaborators that `DSBlockProcessing.cpp`
uses and does not define. -/
structure Env where
  LOOKUP_NODE_MODE : Bool
  ARCHIVAL_LOOKUP : Bool
  GUARD_MODE : Bool
  BROADCAST_TREEBASED_CLUSTER_MODE : Bool
  BROADCAST_GOSSIP_MODE : Bool
  MULTIPLIER_SYNC_MODE : Bool
  SHARDINGSTRUCTURE_VERSION : Nat
  DSBLOCK_VERSION : Nat
  CONSENSUS_OBJECT_TIMEOUT : Nat
  TX_DISTRIBUTE_TIME_IN_MS : Nat
  NUM_FINAL_BLOCK_PER_POW : Nat
  MAX_ENTRIES_FOR_DIAGNOSTIC_DATA : Nat
  WAITING_FINALBLOCK : Nat
  /-- The block `GetLastBlock` returns on an empty chain (a default-constructed block). -/
  dummyDSBlock : DSBlock
  dummyTxBlock : TxBlock
  /-- The call `Node::CheckState(PROCESS_DSBLOCK)`. -/
  CheckStateProcessDSBlock : NodeState → Bool
  GetNodeVCDSBlocksMessage : zbytes → Nat → Option VCDSBlocksMessage
  SetNodeVCDSBlocksMessage : Nat → DSBlock → List VCBlock → Nat → DequeOfShard → Option zbytes
  GetShardingStructureHash : Nat → DequeOfShard → Option ShardingHash
  GetDSCommitteeHash : DequeOfNode → Option CommitteeHash
  /-- The call `VerifyTimestamp(timestamp, delta)`; reads the local clock. -/
  VerifyTimestamp : Nat → Nat → Bool
  /-- The hash `DSBlockHeader::GetMyHash` recomputes from the header. -/
  GetMyHash : DSBlockHeader → BlockHash
  /-- The bytes `DSBlockHeader::GetHashForRandom().asBytes()`. -/
  GetHashForRandom : DSBlockHeader → zbytes
  charArrTo16Bits : zbytes → Nat
  /-- The freshness check `Mediator::CheckWhetherBlockIsLatest(dsblockNum, epochNum)`. -/
  CheckWhetherBlockIsLatest : NodeState → Nat → Nat → Bool
  /-- The call `Node::ProcessVCBlockCore`: result and the node state it leaves. -/
  ProcessVCBlockCore : NodeState → VCBlock → Bool × NodeState
  NumForConsensus : Nat → Nat
  /-- The call `MultiSig::AggregatePubKeys`; `none` is the null pointer. -/
  AggregatePubKeys : List PubKey → Option PubKey
  /-- The bytes `DSBlockHeader::Serialize` produces; `none` when it fails. -/
  SerializeHeader : DSBlockHeader → Option zbytes
  /-- The bytes `Signature::Serialize` produces. -/
  SerializeSignature : Signature → zbytes
  /-- The bytes `BitVector::SetBitVector` produces for a bit-vector. -/
  BitVectorBytes : List Bool → zbytes
  /-- The call `MultiSig::MultiSigVerify(message, offset, size, toverify, pubkey)`. -/
  MultiSigVerify : zbytes → Nat → Nat → Signature → PubKey → Bool
  /-- The call `BlockChain::AddBlock`; `none` is the return value `-1`. -/
  AddBlock : List DSBlock → DSBlock → Option (List DSBlock)
  SerializeDSBlock : DSBlock → zbytes
  GetLatestIndex : List BlockLink → Nat
  PutDSBlock : Nat → zbytes → Bool
  PutMetadataLatestActiveDSBlockNum : Nat → Bool
  PutShardStructure : DequeOfShard → Nat → Bool
  ResetDBStateDelta : Bool
  PutDSCommittee : DequeOfNode → Nat → Bool
  PutMinerInfoDSComm : Nat → MinerInfoDSComm → Bool
  PutMinerInfoShards : Nat → List MinerInfoShard → Bool
  GetDiagnosticDataNodesCount : Nat
  DeleteDiagnosticDataNodes : Nat → Bool
  /-- The call `UpdateDSCommitteeCompositionCore(selfKey, dsComm, dsblock, minerInfo, showLogs)`:
  the committee and miner info it leaves in its two reference parameters. -/
  UpdateDSCommitteeCompositionCore :
    PubKey → DequeOfNode → DSBlock → MinerInfoDSComm → Bool → DequeOfNode × MinerInfoDSComm
  GetNumOfDSGuard : Nat
  IsNodeInShardGuardList : PubKey → Bool
  /-- The call `DirectoryService::ProcessShardingStructure(shards, publicKeyToshardIdMap,
  mapNodeReputation)`: result and the two maps it leaves. -/
  ProcessShardingStructure :
    DequeOfShard → List (PubKey × Nat) → List (PubKey × Nat) →
      Bool × List (PubKey × Nat) × List (PubKey × Nat)
  CalculateShardLeaderFromDequeOfNode : Nat → Nat → DequeOfNode → Nat
  GetIsServer : Bool
  /-- The value `GovProposalInfo::reset` leaves. -/
  GovProposalInfoReset : GovProposalInfo → GovProposalInfo

/-- Bytes written by a `Serialize(dst, offset)` style member: `dst` keeps its
first `offset` bytes (zero-filled if shorter), then holds `body`, then whatever
of `dst` lay beyond the written range. -/
def writeAt (dst : zbytes) (offset : Nat) (body : zbytes) : zbytes :=
  dst.take offset ++ List.replicate (offset - dst.length) 0 ++ body ++
    dst.drop (offset + body.length)

namespace Node

/-- Loop state of the key-selection loop in `VerifyDSBlockCoSignature`. -/
structure CosigLoop where
  index : Nat
  count : Nat
  keys : List PubKey
  deriving DecidableEq, Repr

/-- One iteration of `for (auto const& kv : *m_mediator.m_DSCommittee)`. -/
def cosigLoopStep (B2 : List Bool) (acc : CosigLoop) (kv : PubKey × Peer) : CosigLoop :=
  if B2.getD acc.index false then
    { index := acc.index + 1, count := acc.count + 1, keys := acc.keys ++ [kv.1] }
  else
    { acc with index := acc.index + 1 }

/-- The whole key-selection loop, from `index = 0`, `count = 0`, no key. -/
def cosigLoop (dsComm : DequeOfNode) (B2 : List Bool) : CosigLoop :=
  dsComm.foldl (cosigLoopStep B2) { index := 0, count := 0, keys := [] }

/-- The message `VerifyDSBlockCoSignature` builds once the header has
serialised to `hdr`: CS1 is written at `message.size()`, then B1 at the new
`message.size()`. -/
def cosigMessage (env : Env) (hdr : zbytes) (dsblock : DSBlock) : zbytes :=
  let message := writeAt [] 0 hdr
  let message := writeAt message message.length (env.SerializeSignature dsblock.cs1)
  writeAt message message.length (env.BitVectorBytes dsblock.b1)

/-- The arguments of one call of `MultiSig::MultiSigVerify`. -/
structure MultiSigCall where
  message : zbytes
  offset : Nat
  size : Nat
  toverify : Signature
  pubkey : PubKey
  deriving DecidableEq, Repr

/-- The part of `VerifyDSBlockCoSignature` before the multi-signature check:
`none` when the function has already returned false, otherwise the call of
`MultiSigVerify` it is about to make. -/
def cosigPrepare (env : Env) (dsComm : DequeOfNode) (dsblock : DSBlock) :
    Option MultiSigCall :=
  let B2 := dsblock.b2
  if dsComm.length != B2.length then none
  else
    let acc := cosigLoop dsComm B2
    if acc.count != env.NumForConsensus B2.length then none
    else
      match env.AggregatePubKeys acc.keys with
      | none => none
      | some aggregatedKey =>
        match env.SerializeHeader dsblock.header with
        | none => none
        | some hdr =>
          let message := cosigMessage env hdr dsblock
          some { message := message, offset := 0, size := message.length,
                 toverify := dsblock.cs2, pubkey := aggregatedKey }

/-- The function `Node::VerifyDSBlockCoSignature`, on the DS committee `dsComm`. -/
def VerifyDSBlockCoSignature (env : Env) (dsComm : DequeOfNode) (dsblock : DSBlock) : Bool :=
  match cosigPrepare env dsComm dsblock with
  | none => false
  | some call =>
    env.MultiSigVerify call.message call.offset call.size call.toverify call.pubkey

/-- The number of set bits of a bit-vector. -/
def countSetBits (B : List Bool) : Nat := B.count true

/-- The public keys of the committee members at the positions where the
bit-vector is set, in committee order. -/
def selectedKeys (dsComm : DequeOfNode) (B : List Bool) : List PubKey :=
  ((dsComm.zip B).filter (fun p => p.2)).map (fun p => p.1.1)

/-- The block `BlockChain::GetLastBlock` returns: the last block, or the
default-constructed block `dummy` when the chain is empty. -/
def GetLastBlock {B : Type} (chain : List B) (dummy : B) : B := chain.getLastD dummy

/-- The count `BlockChain::GetBlockCount` returns. -/
def GetBlockCount {B : Type} (chain : List B) : Nat := chain.length

/-- Record a call into a collaborator. -/
def emit (st : NodeState) (e : Event) : NodeState :=
  { st with events := st.events ++ [e] }

/-- The remainder `a % n` of two unsigned integers; undefined for `n = 0`. -/
def umod (a n : Nat) : Option Nat := if n = 0 then none else some (a % n)

/-- The function `Node::StoreDSBlockToDisk`.  `AddBlockLink` is recorded by
appending the link to `m_blocklinkchain`. -/
def StoreDSBlockToDisk (env : Env) (st : NodeState) (dsblock : DSBlock) : NodeState :=
  match env.AddBlock st.m_dsBlockChain dsblock with
  | none => st
  | some chain =>
    let st := { st with m_dsBlockChain := chain }
    let st := emit st Event.UpdateDSBlockRand
    let serializedDSBlock := writeAt [] 0 (env.SerializeDSBlock dsblock)
    let st := emit st (Event.PutDSBlock dsblock.header.blockNum serializedDSBlock)
    if !env.PutDSBlock dsblock.header.blockNum serializedDSBlock then st
    else
      let st := { st with m_latestActiveDSBlockNum_ds := dsblock.header.blockNum }
      let st := emit st (Event.PutMetadataLatestActiveDSBlockNum st.m_latestActiveDSBlockNum_ds)
      if !env.PutMetadataLatestActiveDSBlockNum st.m_latestActiveDSBlockNum_ds then st
      else
        let latestInd := (env.GetLatestIndex st.m_blocklinkchain + 1) % 2 ^ 64
        { st with m_blocklinkchain := st.m_blocklinkchain ++
            [{ index := latestInd, dsindex := dsblock.header.blockNum,
               blocktype := BlockType.DS, blockhash := dsblock.blockHash }] }

/-- The overload `Node::UpdateDSCommitteeComposition(dsComm, dsblock, showLogs)`;
`dummy` is a default-constructed `MinerInfoDSComm`. -/
def UpdateDSCommitteeComposition (env : Env) (st : NodeState) (dsComm : DequeOfNode)
    (dsblock : DSBlock) (showLogs : Bool) : DequeOfNode :=
  let dummy : MinerInfoDSComm := { m_dsNodes := [], m_dsNodesEjected := [] }
  (env.UpdateDSCommitteeCompositionCore st.m_selfKey dsComm dsblock dummy showLogs).1

/-- The overload `Node::UpdateDSCommitteeComposition(dsComm, dsblock, minerInfo)`. -/
def UpdateDSCommitteeCompositionMinerInfo (env : Env) (st : NodeState) (dsComm : DequeOfNode)
    (dsblock : DSBlock) (minerInfo : MinerInfoDSComm) : DequeOfNode × MinerInfoDSComm :=
  env.UpdateDSCommitteeCompositionCore st.m_selfKey dsComm dsblock minerInfo true

/-- The function `Node::UpdateGovProposalRemainingVoteInfo`. -/
def UpdateGovProposalRemainingVoteInfo (env : Env) (st : NodeState) : NodeState :=
  if st.m_govProposalInfo.isGovProposalActive then
    let curDSEpochNo := (GetLastBlock st.m_dsBlockChain env.dummyDSBlock).header.blockNum
    if curDSEpochNo >= st.m_govProposalInfo.startDSEpoch &&
        curDSEpochNo <= st.m_govProposalInfo.endDSEpoch &&
        st.m_govProposalInfo.remainingVoteCount > 1 then
      { st with m_govProposalInfo :=
          { st.m_govProposalInfo with
            remainingVoteCount := st.m_govProposalInfo.remainingVoteCount - 1 } }
    else
      { st with m_govProposalInfo := env.GovProposalInfoReset st.m_govProposalInfo }
  else st

/-- Loop state of the member loop in `LoadShardingStructure`. -/
structure ShardLoop where
  index : Nat
  foundMe : Bool
  members : DequeOfNode
  consensusMyID : Nat
  deriving DecidableEq, Repr

/-- One iteration of `for (const auto& shardNode : my_shard)`. -/
def shardLoopStep (selfKey : PubKey) (acc : ShardLoop) (shardNode : ShardNode) : ShardLoop :=
  if selfKey == shardNode.pubKey then
    { index := acc.index + 1, foundMe := true,
      members := acc.members ++ [(shardNode.pubKey, 0)], consensusMyID := acc.index }
  else
    { acc with index := acc.index + 1,
               members := acc.members ++ [(shardNode.pubKey, shardNode.peer)] }

/-- The function `Node::LoadShardingStructure`. -/
def LoadShardingStructure (env : Env) (st : NodeState) (callByRetrieve : Bool) :
    Bool × NodeState :=
  if env.LOOKUP_NODE_MODE then (true, st)
  else
    let st := { st with m_numShards := st.m_shards_ds.length }
    if st.m_myshardId >= st.m_shards_ds.length then (false, st)
    else
      let my_shard := st.m_shards_ds.getD st.m_myshardId []
      let acc := my_shard.foldl (shardLoopStep st.m_selfKey)
        { index := 0, foundMe := false, members := [], consensusMyID := st.m_consensusMyID }
      let st := { st with m_myShardMembers := acc.members, m_consensusMyID := acc.consensusMyID }
      if !acc.foundMe && !callByRetrieve then
        let st := { st with syncType_lookup := SyncType.NORMAL_SYNC }
        let st := emit st Event.StartSynchronization
        (false, st)
      else (true, st)

/-- The function `Node::ResetConsensusId`. -/
def ResetConsensusId (st : NodeState) : NodeState :=
  { st with m_consensusID := if st.m_currentEpochNum == 1 then 1 else 0 }

/-- The shard leader index `Node::StartFirstTxEpoch` computes from the 16-bit
seed; undefined when the number of DS guards is the modulus and is zero. -/
def shardLeaderID (env : Env) (st : NodeState) (lastBlockHash : Nat) : Option Nat :=
  if st.m_mode_ds != Mode.IDLE && env.GUARD_MODE then
    umod lastBlockHash env.GetNumOfDSGuard
  else
    some (env.CalculateShardLeaderFromDequeOfNode lastBlockHash st.m_myShardMembers.length
      st.m_myShardMembers)

/-- Lines 269-283 of `StartFirstTxEpoch`: flags, consensus id, blacklist and
whitelist housekeeping. -/
def startFirstTxEpochReset (st : NodeState) : NodeState :=
  let st := { st with m_requestedForDSGuardNetworkInfoUpdate := false,
                      m_versionChecked := false }
  let st := ResetConsensusId st
  let st := emit st (Event.AddDSGuardToBlacklistExcludeList st.m_DSCommittee)
  let st := emit st Event.RemoveSeedNodesFromBlackList
  let st := emit st Event.BlacklistClear
  let st := emit st Event.ClearPeerConnectionCount
  let st := emit st Event.CleanWhitelistReqs
  { st with m_dsEpochAfterUpgrade_ds := false }

/-- The 16-bit seed `lastBlockHash` of the shard leader election (lines 285-289). -/
def shardLeaderSeed (env : Env) (st : NodeState) : Nat :=
  if st.m_currentEpochNum > 1 then
    env.charArrTo16Bits (GetLastBlock st.m_txBlockChain env.dummyTxBlock).blockHash % 2 ^ 16
  else 0

/-- Lines 340-357 of `StartFirstTxEpoch`: rumor manager, distribution window
and the hand-over to the microblock consensus. -/
def startFirstTxEpochKickoff (env : Env) (st : NodeState) (fbWaitState : Bool) : NodeState :=
  let st :=
    if env.BROADCAST_GOSSIP_MODE && !env.LOOKUP_NODE_MODE then
      emit st Event.InitializeRumorManager
    else st
  let st := { st with m_txn_distribute_window_open := true }
  if fbWaitState then
    emit { st with m_state := env.WAITING_FINALBLOCK } Event.CleanMicroblockConsensusBuffer
  else
    emit st Event.RunConsensusOnMicroBlock

/-- The function `Node::StartFirstTxEpoch`. -/
def StartFirstTxEpoch (env : Env) (st : NodeState) (fbWaitState : Bool) : Option NodeState :=
  if env.LOOKUP_NODE_MODE then some st
  else
    let st := startFirstTxEpochReset st
    match shardLeaderID env st (shardLeaderSeed env st) with
    | none => none
    | some leaderID =>
      match umod (GetBlockCount st.m_txBlockChain) env.NUM_FINAL_BLOCK_PER_POW with
      | none => none
      | some consensusID =>
        match st.m_myShardMembers.get? leaderID with
        | none => none
        | some leader =>
          some (startFirstTxEpochKickoff env
            { st with m_consensusLeaderID := leaderID, m_consensusID := consensusID,
                      m_isPrimary := (st.m_selfKey == leader.1) } fbWaitState)

/-- Lines 374-458 of `ProcessVCDSBlocksMessage`: the checks that read the
message and the node and write nothing.  The result `none` is `return false`;
otherwise the deserialised message. -/
def validateMessage (env : Env) (st : NodeState) (message : zbytes) (cur_offset : Nat) :
    Option VCDSBlocksMessage :=
  if !env.LOOKUP_NODE_MODE && !env.CheckStateProcessDSBlock st then none
  else
    match env.GetNodeVCDSBlocksMessage message cur_offset with
    | none => none
    | some m =>
      if m.shardingStructureVersion != env.SHARDINGSTRUCTURE_VERSION then none
      else
        match env.GetShardingStructureHash env.SHARDINGSTRUCTURE_VERSION m.t_shards with
        | none => none
        | some shardingHash =>
          if m.dsblock.header.version != env.DSBLOCK_VERSION then none
          else if GetBlockCount st.m_txBlockChain > 0 &&
              m.dsblock.timestamp <= (GetLastBlock st.m_txBlockChain env.dummyTxBlock).timestamp
            then none
          else if !env.VerifyTimestamp m.dsblock.timestamp
              (env.CONSENSUS_OBJECT_TIMEOUT + env.TX_DISTRIBUTE_TIME_IN_MS / 1000) then none
          else if shardingHash != m.dsblock.header.shardingHash then none
          else if env.GetMyHash m.dsblock.header != m.dsblock.blockHash then none
          else some m

/-- The state `ProcessVCDSBlocksMessage` returns false with when the freshness
check has failed (lines 464-474). -/
def onStaleBlock (env : Env) (st : NodeState) (dsblock : DSBlock) : NodeState :=
  if dsblock.header.blockNum >
      ((GetLastBlock st.m_dsBlockChain env.dummyDSBlock).header.blockNum + 1) % 2 ^ 64 then
    if env.LOOKUP_NODE_MODE && env.ARCHIVAL_LOOKUP then
      emit st (Event.RejoinAsNewLookup false)
    else st
  else st

/-- The loop over `vcBlocks` (lines 477-488).  `expectedViewChangeCounter` is
carried along and incremented as in the source; nothing reads it. -/
def processVCBlocks (env : Env) :
    NodeState → List VCBlock → Nat → Bool × NodeState
  | st, [], _ => (true, st)
  | st, vcBlock :: rest, expectedViewChangeCounter =>
    match env.ProcessVCBlockCore st vcBlock with
    | (false, st1) => (false, st1)
    | (true, st1) => processVCBlocks env st1 rest ((expectedViewChangeCounter + 1) % 2 ^ 32)

/-- The miner info a lookup node collects from the new shards (lines 538-549). -/
def collectMinerInfoShards (env : Env) (shards : DequeOfShard) : List MinerInfoShard :=
  shards.map (fun shard =>
    { m_shardSize := shard.length,
      m_shardNodes :=
        (shard.filter (fun node => !env.IsNodeInShardGuardList node.pubKey)).map
          (fun node => node.pubKey) })

/-- The search for the node's own key in the DS committee (lines 633-645):
the distance from `begin()` of the first member carrying `selfKey`. -/
def findMyIndex (selfKey : PubKey) : DequeOfNode → Nat → Option Nat
  | [], _ => none
  | kv :: rest, dist => if selfKey == kv.1 then some dist else findMyIndex selfKey rest (dist + 1)

/-- The 16-bit seed `lastBlockHash` of the DS leader election (lines 603-610). -/
def dsLeaderSeed (env : Env) (st : NodeState) : Nat :=
  if st.m_currentEpochNum > 1 then
    env.charArrTo16Bits
      (env.GetHashForRandom (GetLastBlock st.m_dsBlockChain env.dummyDSBlock).header) % 2 ^ 16
  else 0

/-- The modulus of the DS leader election (lines 612-618). -/
def dsLeaderModulus (env : Env) (st : NodeState) : Nat :=
  if !env.GUARD_MODE then st.m_DSCommittee.length else env.GetNumOfDSGuard

/-- The DS leader election (lines 603-618); undefined when the modulus is zero. -/
def electDSLeader (env : Env) (st : NodeState) : Option NodeState :=
  match umod (dsLeaderSeed env st) (dsLeaderModulus env st) with
  | none => none
  | some leaderID => some { st with m_consensusLeaderID_ds := leaderID }

/-- The assignment `store[key] = value` on `m_vcDSBlockStore`. -/
def mapAssign (store : List (Nat × zbytes)) (key : Nat) (value : zbytes) : List (Nat × zbytes) :=
  (key, value) :: store.filter (fun kv => kv.1 != key)

/-- Lines 648-690 of `ProcessVCDSBlocksMessage`: the node found its key in
the DS committee at distance `dist` from `begin()`.  The boolean is false
when the function returns false inside. -/
def becomeDSMember (env : Env) (st : NodeState) (dist : Nat) : Bool × NodeState :=
  let consensusIndex := dist % 2 ^ 16
  let st := { st with m_consensusMyID_ds := consensusIndex }
  match env.ProcessShardingStructure st.m_shards_ds st.m_publicKeyToshardIdMap_ds
      st.m_mapNodeReputation_ds with
  | (false, idMap, repMap) =>
    (false, { st with m_publicKeyToshardIdMap_ds := idMap, m_mapNodeReputation_ds := repMap })
  | (true, idMap, repMap) =>
    let st := { st with m_publicKeyToshardIdMap_ds := idMap, m_mapNodeReputation_ds := repMap }
    let st :=
      { st with m_mode_ds :=
          if st.m_consensusLeaderID_ds == st.m_consensusMyID_ds then Mode.PRIMARY_DS
          else Mode.BACKUP_DS }
    let st := UpdateGovProposalRemainingVoteInfo env st
    (true, emit st Event.DSStartFirstTxEpoch)

/-- Lines 701-713 of `ProcessVCDSBlocksMessage`: the DS block is forwarded to
the other shard nodes. -/
def forwardDSBlock (env : Env) (st : NodeState) (m : VCDSBlocksMessage) : NodeState :=
  if env.BROADCAST_TREEBASED_CLUSTER_MODE then
    match env.SetNodeVCDSBlocksMessage m.shardId m.dsblock m.vcBlocks
        m.shardingStructureVersion st.m_shards_ds with
    | none => st
    | some message2 => emit st (Event.SendDSBlockToOtherShardNodes message2)
  else st

/-- Lines 691-719 of `ProcessVCDSBlocksMessage`: the node is not in the DS
committee.  The boolean is false when the function returns false inside;
`LoadShardingStructure()` and `StartFirstTxEpoch()` take their default
argument `false`. -/
def becomeShardNode (env : Env) (st : NodeState) (m : VCDSBlocksMessage) :
    Option (Bool × NodeState) :=
  match LoadShardingStructure env st false with
  | (false, st) => some (false, st)
  | (true, st) =>
    let st := forwardDSBlock env st m
    let st := UpdateGovProposalRemainingVoteInfo env st
    match StartFirstTxEpoch env st false with
    | none => none
    | some st => some (true, st)

/-- Lines 625-626 of `ProcessVCDSBlocksMessage`: mining is stopped. -/
def stopMining (st : NodeState) : NodeState :=
  let st := emit st Event.StopMining
  { st with m_stillMiningPrimary := false }

/-- The role branch of a node that is not a lookup node (lines 625-719).
The boolean is false when the function returns false inside. -/
def assignRole (env : Env) (st : NodeState) (m : VCDSBlocksMessage) : Option (Bool × NodeState) :=
  let st := stopMining st
  match findMyIndex st.m_selfKey st.m_DSCommittee 0 with
  | some dist => some (becomeDSMember env st dist)
  | none => becomeShardNode env st m

/-- The branch of a lookup node (lines 721-733). -/
def lookupBranch (env : Env) (st : NodeState) (oldNumShards : Nat) : NodeState :=
  let st := emit st Event.ProcessEntireShardingStructure
  let st := ResetConsensusId st
  let st := emit st Event.BlacklistClear
  let st := emit st Event.ClearPeerConnectionCount
  let st := emit st Event.CleanWhitelistReqs
  if env.GetIsServer && !env.ARCHIVAL_LOOKUP then
    emit st (Event.SenderTxnBatchThread oldNumShards true)
  else st

/-- The diagnostic-data bookkeeping of a lookup node (lines 789-825). -/
def putDiagnosticData (env : Env) (st : NodeState) : NodeState :=
  let lastBlockNum := (GetLastBlock st.m_dsBlockChain env.dummyDSBlock).header.blockNum
  let limitReached :=
    decide (env.MAX_ENTRIES_FOR_DIAGNOSTIC_DATA > 0) &&
    decide (env.GetDiagnosticDataNodesCount >= env.MAX_ENTRIES_FOR_DIAGNOSTIC_DATA) &&
    decide (lastBlockNum >= env.MAX_ENTRIES_FOR_DIAGNOSTIC_DATA)
  let oldBlockNum := lastBlockNum - env.MAX_ENTRIES_FOR_DIAGNOSTIC_DATA
  let st := if limitReached then emit st (Event.DeleteDiagnosticDataNodes oldBlockNum) else st
  let canPutNewEntry := if limitReached then env.DeleteDiagnosticDataNodes oldBlockNum else true
  if canPutNewEntry then
    emit st (Event.PutDiagnosticDataNodes lastBlockNum st.m_shards_ds st.m_DSCommittee)
  else st

/-- Lines 744-769 of `ProcessVCDSBlocksMessage`: the bookkeeping of an
archival lookup node. -/
def archivalLookupStep (env : Env) (st : NodeState) (m : VCDSBlocksMessage) : NodeState :=
  if env.LOOKUP_NODE_MODE && env.ARCHIVAL_LOOKUP then
    if env.MULTIPLIER_SYNC_MODE then
      let st :=
        match env.SetNodeVCDSBlocksMessage m.shardId m.dsblock m.vcBlocks
            m.shardingStructureVersion st.m_shards_ds with
        | none => st
        | some message2 =>
          { st with m_vcDSBlockStore :=
              mapAssign st.m_vcDSBlockStore m.dsblock.header.blockNum message2 }
      emit st Event.CleanLocalRawStores
    else
      emit { st with m_vcDsBlockProcessed_lookup := true } Event.cv_vcDsBlockProcessed_notify_all
  else st

/-- Lines 771-828 of `ProcessVCDSBlocksMessage`: the bookkeeping of a lookup
node, and `return true`. -/
def lookupBookkeeping (env : Env) (st : NodeState) (m : VCDSBlocksMessage)
    (minerInfoDSComm : MinerInfoDSComm) (minerInfoShards : List MinerInfoShard) :
    Bool × NodeState :=
  if env.LOOKUP_NODE_MODE then
    let st := { st with m_pendingTxnListsThisEpoch := [] }
    let st := emit st (Event.PutMinerInfoDSComm m.dsblock.header.blockNum minerInfoDSComm)
    if !env.PutMinerInfoDSComm m.dsblock.header.blockNum minerInfoDSComm then (false, st)
    else
      let st := emit st (Event.PutMinerInfoShards m.dsblock.header.blockNum minerInfoShards)
      if !env.PutMinerInfoShards m.dsblock.header.blockNum minerInfoShards then (false, st)
      else (true, putDiagnosticData env st)
  else (true, st)

/-- Lines 736-828 of `ProcessVCDSBlocksMessage`: persisting the committee and
the lookup-only bookkeeping. -/
def persistCommittee (env : Env) (st : NodeState) (m : VCDSBlocksMessage)
    (minerInfoDSComm : MinerInfoDSComm) (minerInfoShards : List MinerInfoShard) :
    Bool × NodeState :=
  let st := emit st (Event.PutDSCommittee st.m_DSCommittee st.m_consensusLeaderID_ds)
  if !env.PutDSCommittee st.m_DSCommittee st.m_consensusLeaderID_ds then (false, st)
  else
    let st := { st with m_builtDSComm := st.m_DSCommittee }
    let st := archivalLookupStep env st m
    lookupBookkeeping env st m minerInfoDSComm minerInfoShards

/-- Lines 514-529 of `ProcessVCDSBlocksMessage` ("for running from genesis"):
`none` is `return false`. -/
def syncTypeStep (st : NodeState) : Option NodeState :=
  if st.syncType_lookup != SyncType.NO_SYNC then
    if !st.m_startedPoW_lookup then none
    else
      let st := { st with syncType_lookup := SyncType.NO_SYNC }
      let st := emit st Event.cv_waitJoined_notify_all
      some (if st.m_fromNewProcess then { st with m_fromNewProcess := false } else st)
  else if st.m_startedPoW_lookup then some (emit st Event.cv_waitJoined_notify_all)
  else some st

/-- Lines 596-618 of `ProcessVCDSBlocksMessage`: the PoW winners of the last
DS block are composed into the committee, then the DS leader is elected.
The result carries the miner info the composition produced. -/
def composeAndElect (env : Env) (st : NodeState) : Option (NodeState × MinerInfoDSComm) :=
  let composed := UpdateDSCommitteeCompositionMinerInfo env st st.m_DSCommittee
    (GetLastBlock st.m_dsBlockChain env.dummyDSBlock)
    { m_dsNodes := [], m_dsNodesEjected := [] }
  let st := { st with m_DSCommittee := composed.1 }
  match electDSLeader env st with
  | none => none
  | some st => some (st, composed.2)

/-- Lines 531-553 of `ProcessVCDSBlocksMessage`: the shards of the message
and the shard id are installed and `PutShardStructure` is called. -/
def installShards (st : NodeState) (m : VCDSBlocksMessage) : NodeState :=
  let st := { st with m_shards_ds := m.t_shards }
  let st := { st with m_myshardId := m.shardId }
  emit st (Event.PutShardStructure st.m_shards_ds st.m_myshardId)

/-- Lines 562-571 of `ProcessVCDSBlocksMessage`: the block is added to the
chain and stored, and `ResetDB(STATE_DELTA)` is called. -/
def storeBlock (env : Env) (st : NodeState) (m : VCDSBlocksMessage) : NodeState :=
  let st := emit st Event.RemoveIpMapping
  let st := StoreDSBlockToDisk env st m.dsblock
  let st := { st with m_confirmedLatestDSBlock_lookup := false }
  emit st Event.ResetDBStateDelta

/-- Lines 576-594 of `ProcessVCDSBlocksMessage`: gas price, the waiters on
`cv_waitDSBlock`, the PoW randomness. -/
def announceBlock (st : NodeState) (m : VCDSBlocksMessage) : NodeState :=
  let st := { st with
    m_proposedGasPrice := Nat.max st.m_proposedGasPrice m.dsblock.header.gasPrice }
  let st := emit st Event.cv_waitDSBlock_notify_one
  emit st Event.UpdateDSBlockRand

/-- Lines 620-828 of `ProcessVCDSBlocksMessage`: role assignment (or the
lookup branch), then persisting the committee. -/
def assignAndPersist (env : Env) (st : NodeState) (m : VCDSBlocksMessage) (oldNumShards : Nat)
    (minerInfoDSComm : MinerInfoDSComm) (minerInfoShards : List MinerInfoShard) :
    Option (Bool × NodeState) :=
  if !env.LOOKUP_NODE_MODE then
    match assignRole env st m with
    | none => none
    | some (false, st) => some (false, st)
    | some (true, st) => some (persistCommittee env st m minerInfoDSComm minerInfoShards)
  else
    some (persistCommittee env (lookupBranch env st oldNumShards) m
      minerInfoDSComm minerInfoShards)

/-- Lines 514-828 of `ProcessVCDSBlocksMessage`: everything after the
cosignature has been verified. -/
def applyDSBlock (env : Env) (st : NodeState) (m : VCDSBlocksMessage) (oldNumShards : Nat) :
    Option (Bool × NodeState) :=
  match syncTypeStep st with
  | none => some (false, st)
  | some st =>
    let st := installShards st m
    let minerInfoShards :=
      if env.LOOKUP_NODE_MODE then collectMinerInfoShards env st.m_shards_ds else []
    if !env.PutShardStructure st.m_shards_ds st.m_myshardId then some (false, st)
    else
      let st := storeBlock env st m
      if !env.ResetDBStateDelta then some (false, st)
      else
        match composeAndElect env (announceBlock st m) with
        | none => none
        | some (st, minerInfoDSComm) =>
          assignAndPersist env st m oldNumShards minerInfoDSComm minerInfoShards

/-- The function `Node::ProcessVCDSBlocksMessage`.  `oldNumShards` is
`m_mediator.m_ds->GetNumShards()`, the size of `m_shards`, on entry. -/
def ProcessVCDSBlocksMessage (env : Env) (st : NodeState) (message : zbytes)
    (cur_offset : Nat) : Option (Bool × NodeState) :=
  let oldNumShards := st.m_shards_ds.length
  match validateMessage env st message cur_offset with
  | none => some (false, st)
  | some m =>
    if !env.CheckWhetherBlockIsLatest st m.dsblock.header.blockNum m.dsblock.header.epochNum
    then some (false, onStaleBlock env st m.dsblock)
    else
      match processVCBlocks env st m.vcBlocks 1 with
      | (false, st) => some (false, st)
      | (true, st) =>
        match env.GetDSCommitteeHash st.m_DSCommittee with
        | none => some (false, st)
        | some committeeHash =>
          if committeeHash != m.dsblock.header.committeeHash then some (false, st)
          else if !VerifyDSBlockCoSignature env st.m_DSCommittee m.dsblock then some (false, st)
          else applyDSBlock env st m oldNumShards


/-! ### A sample configuration

A concrete environment, node and wire format on which the definitions above
can be evaluated. -/

/-- Modelled from the spec: `ConsensusCommon::NumForConsensus` is not in the
source files; the spec (4.1, 8) gives `ConsensusThreshold(n) = floor(2n/3) + 1`. -/
def ConsensusThreshold (n : Nat) : Nat := 2 * n / 3 + 1

/-- Sample shard structure carried by every sample message. -/
def sampleShards : DequeOfShard :=
  [[{ pubKey := 98, peer := 908, rep := 0 }, { pubKey := 99, peer := 909, rep := 0 }]]

/-- Sample positional hash of a committee. -/
def sampleCommitteeHash (dsComm : DequeOfNode) : Nat :=
  dsComm.foldl (fun h kv => 3 * h + kv.1) 0

/-- Sample hash of a DS block header. -/
def sampleHeaderHash (h : DSBlockHeader) : Nat := 1000 * h.blockNum + h.epochNum

/-- Sample wire format: `blockNum, epochNum, timestamp, difficulty,
committeeHash, cs2, k, c1, ..., ck, b2 bits`, read from `cur_offset`; the
`k` view-change blocks carry the counters `c1 .. ck`. -/
def sampleDecode (message : zbytes) (cur_offset : Nat) : Option VCDSBlocksMessage :=
  match message.drop cur_offset with
  | blockNum :: epochNum :: timestamp :: difficulty :: committeeHash :: cs2 :: k :: rest =>
    if rest.length < k then none
    else
      let header : DSBlockHeader :=
        { version := 1, blockNum := blockNum, epochNum := epochNum, dsDifficulty := 0,
          difficulty := difficulty, gasPrice := 2, leaderPubKey := 11,
          shardingHash := 2, committeeHash := committeeHash,
          dsPoWWinners := [(21, 201)] }
      some
        { shardId := 0,
          dsblock :=
            { header := header, blockHash := sampleHeaderHash header, timestamp := timestamp,
              cs1 := 7, b1 := (rest.drop k).map (fun x => x != 0), cs2 := cs2,
              b2 := (rest.drop k).map (fun x => x != 0) },
          vcBlocks := (rest.take k).map (fun c => { viewChangeCounter := c, payload := 0 }),
          shardingStructureVersion := 1,
          t_shards := sampleShards }
  | _ => none

/-- Sample default-constructed DS block. -/
def sampleDummyDSBlock : DSBlock :=
  { header :=
      { version := 0, blockNum := 2 ^ 64 - 1, epochNum := 0, dsDifficulty := 0,
        difficulty := 0, gasPrice := 0, leaderPubKey := 0, shardingHash := 0,
        committeeHash := 0, dsPoWWinners := [] },
    blockHash := 0, timestamp := 0, cs1 := 0, b1 := [], cs2 := 0, b2 := [] }

/-- Sample environment: a shard node outside guard mode whose collaborators
are small total functions and whose storage never fails. -/
def sampleEnv : Env where
  LOOKUP_NODE_MODE := false
  ARCHIVAL_LOOKUP := false
  GUARD_MODE := false
  BROADCAST_TREEBASED_CLUSTER_MODE := false
  BROADCAST_GOSSIP_MODE := false
  MULTIPLIER_SYNC_MODE := false
  SHARDINGSTRUCTURE_VERSION := 1
  DSBLOCK_VERSION := 1
  CONSENSUS_OBJECT_TIMEOUT := 60
  TX_DISTRIBUTE_TIME_IN_MS := 10000
  NUM_FINAL_BLOCK_PER_POW := 100
  MAX_ENTRIES_FOR_DIAGNOSTIC_DATA := 0
  WAITING_FINALBLOCK := 3
  dummyDSBlock := sampleDummyDSBlock
  dummyTxBlock := { blockNum := 2 ^ 64 - 1, blockHash := [], timestamp := 0 }
  CheckStateProcessDSBlock := fun _ => true
  GetNodeVCDSBlocksMessage := sampleDecode
  SetNodeVCDSBlocksMessage := fun _ dsblock _ _ _ => some [1, 2, dsblock.header.blockNum]
  GetShardingStructureHash := fun _ shards => some (shards.map List.length).sum
  GetDSCommitteeHash := fun dsComm => some (sampleCommitteeHash dsComm)
  VerifyTimestamp := fun timestamp delta => decide (timestamp ≤ 5000 + delta)
  GetMyHash := sampleHeaderHash
  GetHashForRandom := fun h => [0, h.difficulty]
  charArrTo16Bits := fun hex_arr =>
    match hex_arr.reverse with
    | lo :: hi :: _ => 256 * hi + lo
    | _ => 0
  CheckWhetherBlockIsLatest := fun st dsblockNum epochNum =>
    dsblockNum == (GetLastBlock st.m_dsBlockChain sampleDummyDSBlock).header.blockNum + 1
      && epochNum == st.m_currentEpochNum
  ProcessVCBlockCore := fun st vcBlock =>
    if vcBlock.payload == 0 then (true, { st with m_DSCommittee := st.m_DSCommittee.rotate 1 })
    else (false, st)
  NumForConsensus := ConsensusThreshold
  AggregatePubKeys := fun keys => if keys.isEmpty then none else some keys.sum
  SerializeHeader := fun h => some [h.blockNum, h.epochNum]
  SerializeSignature := fun s => [s]
  BitVectorBytes := fun B => B.map (fun b => if b then 1 else 0)
  MultiSigVerify := fun message offset size toverify pubkey =>
    toverify == pubkey + ((message.drop offset).take size).sum
  AddBlock := fun chain block =>
    if chain.any (fun b => b.header.blockNum == block.header.blockNum) then none
    else some (chain ++ [block])
  SerializeDSBlock := fun block => [block.header.blockNum, block.blockHash]
  GetLatestIndex := fun links => links.length
  PutDSBlock := fun _ _ => true
  PutMetadataLatestActiveDSBlockNum := fun _ => true
  PutShardStructure := fun _ _ => true
  ResetDBStateDelta := true
  PutDSCommittee := fun _ _ => true
  PutMinerInfoDSComm := fun _ _ => true
  PutMinerInfoShards := fun _ _ => true
  GetDiagnosticDataNodesCount := 0
  DeleteDiagnosticDataNodes := fun _ => true
  UpdateDSCommitteeCompositionCore := fun _ dsComm dsblock minerInfo _ =>
    ((dsblock.header.dsPoWWinners ++ dsComm).take dsComm.length, minerInfo)
  GetNumOfDSGuard := 3
  IsNodeInShardGuardList := fun _ => false
  ProcessShardingStructure := fun _ idMap repMap => (true, idMap, repMap)
  CalculateShardLeaderFromDequeOfNode := fun lastBlockHash sizeOfShard _ =>
    lastBlockHash % sizeOfShard
  GetIsServer := false
  GovProposalInfoReset := fun _ =>
    { isGovProposalActive := false, startDSEpoch := 0, endDSEpoch := 0,
      remainingVoteCount := 0, proposal := (0, 0), dsVotes := [], minerVotes := [] }

/-- Sample DS block at the tip of the sample chain (block number 0). -/
def sampleTip : DSBlock :=
  { header :=
      { version := 1, blockNum := 0, epochNum := 1, dsDifficulty := 0, difficulty := 10,
        gasPrice := 1, leaderPubKey := 11, shardingHash := 2, committeeHash := 0,
        dsPoWWinners := [(14, 104)] },
    blockHash := 1, timestamp := 500, cs1 := 0, b1 := [], cs2 := 0, b2 := [] }

/-- Sample DS committee of four members. -/
def sampleCommittee : DequeOfNode := [(11, 101), (12, 102), (13, 103), (14, 104)]

/-- Sample node: member 98 of shard 0, at epoch 5, with one DS block and one
tx block (timestamp 1000) in its chains. -/
def sampleState : NodeState where
  m_state := 0
  m_selfKey := 98
  m_currentEpochNum := 5
  m_consensusID := 0
  m_dsBlockChain := [sampleTip]
  m_txBlockChain := [{ blockNum := 4, blockHash := [0, 9], timestamp := 1000 }]
  m_blocklinkchain := []
  m_builtDSComm := []
  m_DSCommittee := sampleCommittee
  m_shards_ds := []
  m_mode_ds := Mode.IDLE
  m_consensusLeaderID_ds := 0
  m_consensusMyID_ds := 0
  m_latestActiveDSBlockNum_ds := 0
  m_publicKeyToshardIdMap_ds := []
  m_mapNodeReputation_ds := []
  m_dsEpochAfterUpgrade_ds := false
  syncType_lookup := SyncType.NO_SYNC
  m_startedPoW_lookup := true
  m_confirmedLatestDSBlock_lookup := true
  m_vcDsBlockProcessed_lookup := false
  m_fromNewProcess := false
  m_myshardId := 0
  m_numShards := 0
  m_proposedGasPrice := 1
  m_stillMiningPrimary := true
  m_myShardMembers := []
  m_consensusMyID := 0
  m_consensusLeaderID := 0
  m_isPrimary := false
  m_requestedForDSGuardNetworkInfoUpdate := false
  m_versionChecked := false
  m_txn_distribute_window_open := false
  m_govProposalInfo :=
    { isGovProposalActive := false, startDSEpoch := 0, endDSEpoch := 0,
      remainingVoteCount := 0, proposal := (0, 0), dsVotes := [], minerVotes := [] }
  m_vcDSBlockStore := []
  m_pendingTxnListsThisEpoch := []
  events := []

/-- Every view-change block of the list was processed successfully, in list
order, each one starting from the state the previous one left. -/
inductive VCBlocksApplied (env : Env) : NodeState → List VCBlock → NodeState → Prop
  | nil (st : NodeState) : VCBlocksApplied env st [] st
  | cons {st st1 st2 : NodeState} {vcBlock : VCBlock} {rest : List VCBlock} :
      env.ProcessVCBlockCore st vcBlock = (true, st1) →
      VCBlocksApplied env st1 rest st2 →
      VCBlocksApplied env st (vcBlock :: rest) st2

/-- The DS committee, DS leader index, DS chain and epoch number of a node:
what the leader election reads and writes. -/
def dsView (st : NodeState) : DequeOfNode × Nat × List DSBlock × Nat :=
  (st.m_DSCommittee, st.m_consensusLeaderID_ds, st.m_dsBlockChain, st.m_currentEpochNum)

/-- The leader index as the spec's `ElectLeader` gives it: the 16-bit value of
the random-hash of the DS chain tip, modulo the size of the DS committee. -/
def claimedDSLeader (env : Env) (st : NodeState) : Nat :=
  (env.charArrTo16Bits
      (env.GetHashForRandom (GetLastBlock st.m_dsBlockChain env.dummyDSBlock).header) % 2 ^ 16)
    % st.m_DSCommittee.length

/-- The sample environment in guard mode, with three DS guards. -/
def sampleGuardEnv : Env := { sampleEnv with GUARD_MODE := true }

/-- The sample environment in guard mode, with five DS guards. -/
def sampleFiveGuardsEnv : Env := { sampleEnv with GUARD_MODE := true, GetNumOfDSGuard := 5 }

/-- The sample environment with a freshness check that accepts every block. -/
def sampleNoFreshnessEnv : Env :=
  { sampleEnv with CheckWhetherBlockIsLatest := fun _ _ _ => true }

/-- The sample node at epoch 1. -/
def sampleStateEpochOne : NodeState := { sampleState with m_currentEpochNum := 1 }

/-- The sample node with a DS committee of three members. -/
def sampleStateThree : NodeState :=
  { sampleState with m_DSCommittee := [(11, 101), (12, 102), (13, 103)] }


/-! ### Definitions for the statements on role assignment and composition -/

/-- The node's own key, its DS consensus index and its DS mode: what the DS
role assignment writes and the steps after it leave alone. -/
def memberView (st : NodeState) : PubKey × Nat × Mode :=
  (st.m_selfKey, st.m_consensusMyID_ds, st.m_mode_ds)

/-- The node's own key, its shard member list, its shard consensus index, the
shard leader index and the shard leader flag. -/
def shardView (st : NodeState) : PubKey × DequeOfNode × Nat × Nat × Bool :=
  (st.m_selfKey, st.m_myShardMembers, st.m_consensusMyID, st.m_consensusLeaderID,
    st.m_isPrimary)

/-- The public keys of a committee, in committee order. -/
def committeeKeys (dsComm : DequeOfNode) : List PubKey := dsComm.map Prod.fst

/-- The public keys of a shard, in shard order. -/
def shardKeys (shard : Shard) : List PubKey := shard.map (fun node => node.pubKey)

/-- Modelled from the spec: `UpdateDSCommitteeCompositionCore` is not among the
source files.  Spec 4.3: the PoW winners are appended to the DS committee as
new members, evicting the lowest-ranked incumbents beyond the fixed committee
capacity, oldest first. -/
def specCompose (capacity : Nat) (dsComm : DequeOfNode) (winners : List (PubKey × Peer)) :
    DequeOfNode :=
  dsComm.drop (dsComm.length + winners.length - capacity) ++ winners

/-- Modelled from the spec: `UpdateDSCommitteeCompositionCore` with the
composition of spec 4.3 on the committee; the spec says nothing on the miner
info, which is returned as received. -/
def specCompositionCore (capacity : Nat) (_selfKey : PubKey) (dsComm : DequeOfNode)
    (dsblock : DSBlock) (minerInfo : MinerInfoDSComm) (_showLogs : Bool) :
    DequeOfNode × MinerInfoDSComm :=
  (specCompose capacity dsComm dsblock.header.dsPoWWinners, minerInfo)

/-- An environment whose composition core is the one modelled from the spec. -/
def withSpecComposition (env : Env) (capacity : Nat) : Env :=
  { env with UpdateDSCommitteeCompositionCore := specCompositionCore capacity }

/-- The sample node with the key 12 (a DS committee member) and an active
governance proposal: window 0 to 10, five votes remaining. -/
def sampleStateMember : NodeState :=
  { sampleState with
    m_selfKey := 12
    m_govProposalInfo :=
      { isGovProposalActive := true, startDSEpoch := 0, endDSEpoch := 10,
        remainingVoteCount := 5, proposal := (1, 1), dsVotes := [], minerVotes := [] } }

/-- The sample node left in DS backup mode by an earlier epoch. -/
def sampleStateFormerBackup : NodeState := { sampleState with m_mode_ds := Mode.BACKUP_DS }

/-- The sample environment with a storage that refuses every DS block. -/
def samplePutDSBlockFailsEnv : Env := { sampleEnv with PutDSBlock := fun _ _ => false }

/-- The sample environment with a storage that refuses the metadata write. -/
def samplePutMetadataFailsEnv : Env :=
  { sampleEnv with PutMetadataLatestActiveDSBlockNum := fun _ => false }

/-- The sample environment with the storage of the DS committee failing. -/
def samplePutDSCommitteeFailsEnv : Env := { sampleEnv with PutDSCommittee := fun _ _ => false }

/-- A sample DS block with three PoW winners. -/
def sampleThreeWinnersBlock : DSBlock :=
  { sampleTip with
    header := { sampleTip.header with dsPoWWinners := [(21, 201), (22, 202), (23, 203)] } }

end Node

/-! ## The base account store (libData/AccountData/AccountStoreBase.cpp) -/

namespace AccountStoreBase

abbrev Address := Nat

/-- The values of `TxnStatus` that `UpdateBaseAccounts` assigns to `error_code`. -/
inductive TxnStatus
  | NOT_PRESENT
  | INVALID_FROM_ACCOUNT
  | INSUFFICIENT_GAS_LIMIT
  | INSUFFICIENT_BALANCE
  | MATH_ERROR
  deriving DecidableEq, Repr

/-- An account as far as `UpdateBaseAccounts` sees it: the `uint128_t` balance
and the `uint64_t` nonce. -/
structure Account where
  balance : Nat
  nonce : Nat
  deriving DecidableEq, Repr

/-- The map `m_addressToAccount`. -/
abbrev AccountMap := Address → Option Account

/-- The fields of a `Transaction` the function reads. -/
structure Transaction where
  senderPubKey : PubKey
  toAddr : Address
  amount : Nat
  gasPrice : Nat
  gasLimit : Nat
  deriving DecidableEq, Repr

/-- What the calls `SetResult`, `SetCumGas` and `update` leave on a
`TransactionReceipt`. -/
structure TransactionReceipt where
  result : Bool
  cumGas : Nat
  updated : Bool
  deriving DecidableEq, Repr

/-- The constant and the collaborators of `AccountStoreBase` that are declared
outside the source file: `NORMAL_TRAN_GAS`, `Account::GetAddressFromPublicKey`,
`SafeMath<uint128_t>::mul` and `sub` (`none` is a false return), and the member
functions `DecreaseBalance`, `IncreaseBalance`, `TransferBalance` and
`IncreaseNonce`, each returning its boolean and the map it leaves. -/
structure AccountEnv where
  NORMAL_TRAN_GAS : Nat
  GetAddressFromPublicKey : PubKey → Address
  SafeMath_mul : Nat → Nat → Option Nat
  SafeMath_sub : Nat → Nat → Option Nat
  DecreaseBalance : AccountMap → Address → Nat → Bool × AccountMap
  IncreaseBalance : AccountMap → Address → Nat → Bool × AccountMap
  TransferBalance : AccountMap → Address → Address → Nat → Bool × AccountMap
  IncreaseNonce : AccountMap → Address → Bool × AccountMap

/-- The lookup `AccountStoreBase::GetAccount`: the entry of the map, or
`none` for the null pointer. -/
def GetAccount (store : AccountMap) (address : Address) : Option Account := store address

/-- The test `AccountStoreBase::IsAccountExist`. -/
def IsAccountExist (store : AccountMap) (address : Address) : Bool :=
  (GetAccount store address).isSome

/-- The assignment `m_addressToAccount[address] = account`; also a write
through the pointer `GetAccount` returned. -/
def putAccount (store : AccountMap) (address : Address) (account : Account) : AccountMap :=
  fun x => if x = address then some account else store x

/-- The insertion `AccountStoreBase::AddAccount(address, account, toReplace)`. -/
def AddAccount (store : AccountMap) (address : Address) (account : Account)
    (toReplace : Bool) : Bool × AccountMap :=
  if toReplace || !IsAccountExist store address then (true, putAccount store address account)
  else (false, store)

/-- The removal `AccountStoreBase::RemoveAccount`. -/
def RemoveAccount (store : AccountMap) (address : Address) : AccountMap :=
  fun x => if x = address then none else store x

/-- The refund `AccountStoreBase::CalculateGasRefund`: `none` is a false
return, `some gasRefund` a true return with the out-parameter. -/
def CalculateGasRefund (env : AccountEnv) (gasDeposit gasUnit gasPrice : Nat) : Option Nat :=
  match env.SafeMath_mul gasUnit gasPrice with
  | none => none
  | some gasFee =>
    match env.SafeMath_sub gasDeposit gasFee with
    | none => none
    | some gasRefund => some gasRefund

/-- What a returning `UpdateBaseAccounts` leaves: its boolean, the account map,
the receipt and `error_code`. -/
structure UpdateResult where
  ret : Bool
  store : AccountMap
  receipt : TransactionReceipt
  error_code : TxnStatus

/-- The function `AccountStoreBase::UpdateBaseAccounts`. The sum
`transaction.GetAmount() + gasDeposit` is a plain 128-bit addition. `none` is
the abort of `LOG_GENERAL(FATAL, ...)`. -/
def UpdateBaseAccounts (env : AccountEnv) (store : AccountMap) (transaction : Transaction)
    (receipt : TransactionReceipt) : Option UpdateResult :=
  let fromAddr := env.GetAddressFromPublicKey transaction.senderPubKey
  let toAddr := transaction.toAddr
  let amount := transaction.amount
  match GetAccount store fromAddr with
  | none =>
    some { ret := false, store := store, receipt := receipt,
           error_code := TxnStatus.INVALID_FROM_ACCOUNT }
  | some fromAccount =>
    if transaction.gasLimit < env.NORMAL_TRAN_GAS then
      some { ret := false, store := store, receipt := receipt,
             error_code := TxnStatus.INSUFFICIENT_GAS_LIMIT }
    else
      match env.SafeMath_mul transaction.gasLimit transaction.gasPrice with
      | none =>
        some { ret := false, store := store, receipt := receipt,
               error_code := TxnStatus.MATH_ERROR }
      | some gasDeposit =>
        if fromAccount.balance < (transaction.amount + gasDeposit) % 2 ^ 128 then
          some { ret := false, store := store, receipt := receipt,
                 error_code := TxnStatus.INSUFFICIENT_BALANCE }
        else
          match env.DecreaseBalance store fromAddr gasDeposit with
          | (false, store) =>
            some { ret := false, store := store, receipt := receipt,
                   error_code := TxnStatus.MATH_ERROR }
          | (true, store) =>
            match env.TransferBalance store fromAddr toAddr amount with
            | (false, store) =>
              match env.IncreaseBalance store fromAddr gasDeposit with
              | (false, _) => none
              | (true, store) =>
                some { ret := false, store := store, receipt := receipt,
                       error_code := TxnStatus.MATH_ERROR }
            | (true, store) =>
              match CalculateGasRefund env gasDeposit env.NORMAL_TRAN_GAS
                  transaction.gasPrice with
              | none =>
                some { ret := false, store := store, receipt := receipt,
                       error_code := TxnStatus.MATH_ERROR }
              | some gasRefund =>
                match env.IncreaseBalance store fromAddr gasRefund with
                | (false, _) => none
                | (true, store) =>
                  match env.IncreaseNonce store fromAddr with
                  | (false, store) =>
                    some { ret := false, store := store, receipt := receipt,
                           error_code := TxnStatus.MATH_ERROR }
                  | (true, store) =>
                    some { ret := true, store := store,
                           receipt := { receipt with result := true,
                                                     cumGas := env.NORMAL_TRAN_GAS,
                                                     updated := true },
                           error_code := TxnStatus.NOT_PRESENT }

/-- The balance at an address, zero where there is no account. -/
def balanceOf (store : AccountMap) (address : Address) : Nat :=
  match store address with
  | some account => account.balance
  | none => 0

/-- The nonce at an address, zero where there is no account. -/
def nonceOf (store : AccountMap) (address : Address) : Nat :=
  match store address with
  | some account => account.nonce
  | none => 0

/-- The contract of `SafeMath<uint128_t>`: `mul` and `sub` return false exactly
on a product of 2^128 or more and on a subtrahend above the minuend, and the
exact result otherwise. -/
structure CheckedMath (env : AccountEnv) : Prop where
  mul_eq : ∀ a b, env.SafeMath_mul a b = if a * b < 2 ^ 128 then some (a * b) else none
  sub_eq : ∀ a b, env.SafeMath_sub a b = if b ≤ a then some (a - b) else none

/-- The contract of the balance and nonce helpers: a failed `DecreaseBalance`
or `TransferBalance` leaves the map as it was; a successful `DecreaseBalance`
had the funds and took them; a successful `IncreaseBalance` added the amount
(creating the account where there was none); a successful `TransferBalance` is
a successful decrease followed by a successful increase; `IncreaseNonce`
succeeds on an existing account and adds one to its nonce. -/
structure BalanceContract (env : AccountEnv) : Prop where
  decrease_fail : ∀ s a d s1, env.DecreaseBalance s a d = (false, s1) → s1 = s
  decrease_ok : ∀ s a d s1 acc, s a = some acc → env.DecreaseBalance s a d = (true, s1) →
    d ≤ acc.balance ∧ s1 = putAccount s a { acc with balance := acc.balance - d }
  increase_ok : ∀ s a d s1 acc, s a = some acc → env.IncreaseBalance s a d = (true, s1) →
    s1 = putAccount s a { acc with balance := acc.balance + d }
  increase_new : ∀ s a d s1, s a = none → env.IncreaseBalance s a d = (true, s1) →
    (∀ x, x ≠ a → s1 x = s x) ∧ balanceOf s1 a = d ∧ nonceOf s1 a = 0
  transfer_fail : ∀ s f t d s1, env.TransferBalance s f t d = (false, s1) → s1 = s
  transfer_ok : ∀ s f t d s2, env.TransferBalance s f t d = (true, s2) →
    ∃ s1, env.DecreaseBalance s f d = (true, s1) ∧ env.IncreaseBalance s1 t d = (true, s2)
  nonce_ok : ∀ s a acc, s a = some acc →
    env.IncreaseNonce s a = (true, putAccount s a { acc with nonce := acc.nonce + 1 })

/-- Sample `DecreaseBalance`: nothing to do for a zero amount, false for a
missing account or a balance below the amount. -/
def sampleDecreaseBalance (s : AccountMap) (a : Address) (d : Nat) : Bool × AccountMap :=
  if d = 0 then (true, s)
  else
    match s a with
    | none => (false, s)
    | some acc =>
      if acc.balance < d then (false, s)
      else (true, putAccount s a { acc with balance := acc.balance - d })

/-- Sample `IncreaseBalance`: nothing to do for a zero amount, false when the
128-bit balance would overflow, a new account where there was none. -/
def sampleIncreaseBalance (s : AccountMap) (a : Address) (d : Nat) : Bool × AccountMap :=
  if d = 0 then (true, s)
  else
    match s a with
    | some acc =>
      if acc.balance + d < 2 ^ 128 then
        (true, putAccount s a { acc with balance := acc.balance + d })
      else (false, s)
    | none => AddAccount s a { balance := d, nonce := 0 } false

/-- Sample `TransferBalance`: decrease, then increase, restoring the map when
the increase fails. -/
def sampleTransferBalance (s : AccountMap) (f t : Address) (d : Nat) : Bool × AccountMap :=
  match sampleDecreaseBalance s f d with
  | (false, _) => (false, s)
  | (true, s1) =>
    match sampleIncreaseBalance s1 t d with
    | (false, _) => (false, s)
    | (true, s2) => (true, s2)

/-- Sample `IncreaseNonce`. -/
def sampleIncreaseNonce (s : AccountMap) (a : Address) : Bool × AccountMap :=
  match s a with
  | none => (false, s)
  | some acc => (true, putAccount s a { acc with nonce := acc.nonce + 1 })

/-- A sample environment: `NORMAL_TRAN_GAS` 50, addresses equal to keys,
checked 128-bit arithmetic and the sample helpers. -/
def sampleAccountEnv : AccountEnv where
  NORMAL_TRAN_GAS := 50
  GetAddressFromPublicKey := fun k => k
  SafeMath_mul := fun a b => if a * b < 2 ^ 128 then some (a * b) else none
  SafeMath_sub := fun a b => if b ≤ a then some (a - b) else none
  DecreaseBalance := sampleDecreaseBalance
  IncreaseBalance := sampleIncreaseBalance
  TransferBalance := sampleTransferBalance
  IncreaseNonce := sampleIncreaseNonce

/-- Sample accounts: address 1 holds 1000 with nonce 7, address 2 holds 5. -/
def sampleAccounts : AccountMap :=
  fun x => if x = 1 then some { balance := 1000, nonce := 7 }
    else if x = 2 then some { balance := 5, nonce := 0 } else none

/-- A sample transfer of 100 from address 1 to address 2 with gas limit 60 at
gas price 2. -/
def sampleTransfer : Transaction :=
  { senderPubKey := 1, toAddr := 2, amount := 100, gasPrice := 2, gasLimit := 60 }

/-- A sample transfer whose amount plus gas deposit passes 2^128. -/
def sampleWrappingTransfer : Transaction :=
  { senderPubKey := 1, toAddr := 2, amount := 2 ^ 128 - 1, gasPrice := 1, gasLimit := 50 }

/-- A fresh receipt. -/
def sampleReceipt : TransactionReceipt := { result := false, cumGas := 0, updated := false }

/-- The observable part of a result at the two sample addresses. -/
def UpdateResult.view (r : UpdateResult) :
    Bool × Option Account × Option Account × TransactionReceipt × TxnStatus :=
  (r.ret, r.store 1, r.store 2, r.receipt, r.error_code)

end AccountStoreBase

/-! ## The CPS view of the account store (libData/AccountData/AccountStoreCpsInterface.h) -/

namespace AccountStoreCpsInterface

open AccountStoreBase

/-- The write `SetNonceForAccountAtomic(address, nonce)`: the account that
`mAccountStore.GetAccountAtomic` finds gets the nonce, through the pointer;
nothing happens for the null pointer. `GetAccountAtomic` is declared outside
the source files and is a parameter. -/
def SetNonceForAccountAtomic (GetAccountAtomic : AccountMap → Address → Option Account)
    (atomic : AccountMap) (address : Address) (nonce : Nat) : AccountMap :=
  match GetAccountAtomic atomic address with
  | some account => putAccount atomic address { account with nonce := nonce }
  | none => atomic

/-- The read `GetNonceForAccountAtomic(address)`: the statement
`account->GetNonce();` computes the nonce of a found account and drops it; the
function then returns 0. -/
def GetNonceForAccountAtomic (GetAccountAtomic : AccountMap → Address → Option Account)
    (atomic : AccountMap) (address : Address) : Nat :=
  let _dropped : Option Nat :=
    match GetAccountAtomic atomic address with
    | some account => some account.nonce
    | none => none
  0

/-- Sample atomic lookup: the entry of the map. -/
def sampleGetAccountAtomic (atomic : AccountMap) (address : Address) : Option Account :=
  atomic address

end AccountStoreCpsInterface

/-! ## Raw Ethereum transactions (libEth/Eth.cpp) -/

namespace Eth

/-- The fields of `EthFields` that `parseRawTxFields` writes. -/
structure EthFields where
  version : Nat
  nonce : Nat
  toAddr : zbytes
  amount : Nat
  gasPrice : Nat
  gasLimit : Nat
  data : zbytes
  signature : zbytes
  deriving DecidableEq, Repr

/-- The RLP library as `parseRawTxFields` uses it, over a type `Item` of RLP
items: the items of the list that `dev::RLP` iterates over for a hex message,
the conversion `operator bytes()`, and the integer conversions `uint32_t(..)`,
`uint64_t(..)` and `uint128_t(..)`. -/
structure RLPOps (Item : Type) where
  items : String → List Item
  toBytes : Item → zbytes
  toUint32 : Item → Nat
  toUint64 : Item → Nat
  toUint128 : Item → Nat

/-- One iteration of the loop over the RLP items: the `switch (i)` on the item
counter, then `i++`. `signature.insert(signature.begin(), ..)` puts the bytes in
front of what the signature holds. -/
def parseStep {Item : Type} (rlp : RLPOps Item) (acc : Nat × EthFields) (it : Item) :
    Nat × EthFields :=
  let byteIt := rlp.toBytes it
  let ret := acc.2
  let ret :=
    match acc.1 with
    | 0 => { ret with nonce := rlp.toUint32 it }
    | 1 => { ret with gasPrice := rlp.toUint128 it }
    | 2 => { ret with gasLimit := rlp.toUint64 it }
    | 3 => { ret with toAddr := byteIt }
    | 4 => { ret with amount := rlp.toUint128 it }
    | 5 => { ret with data := byteIt }
    | 6 => ret
    | 7 => { ret with signature := byteIt ++ ret.signature }
    | 8 => { ret with signature := byteIt ++ ret.signature }
    | _ => ret
  (acc.1 + 1, ret)

/-- The function `parseRawTxFields`; `ret0` is the default-constructed
`EthFields ret`. -/
def parseRawTxFields {Item : Type} (rlp : RLPOps Item) (ret0 : EthFields) (message : String) :
    EthFields :=
  let ret := { ret0 with version := 65538 }
  ((rlp.items message).foldl (parseStep rlp) (0, ret)).2

/-- A default-constructed `EthFields` with zeroed integers and empty byte
vectors. -/
def sampleDefaultFields : EthFields :=
  { version := 0, nonce := 0, toAddr := [], amount := 0, gasPrice := 0, gasLimit := 0,
    data := [], signature := [] }

/-- Sample RLP: an item is its byte string, an integer is its big-endian value,
and every message decodes to the given items. -/
def sampleRLP (items : List zbytes) : RLPOps zbytes where
  items := fun _ => items
  toBytes := fun b => b
  toUint32 := fun b => b.foldl (fun n x => 256 * n + x) 0
  toUint64 := fun b => b.foldl (fun n x => 256 * n + x) 0
  toUint128 := fun b => b.foldl (fun n x => 256 * n + x) 0

/-- A sample transaction list: nonce 3, gas price 2, gas limit 60, recipient
[170, 187], value 100, data [9], V 27, R [1, 2], S [3, 4]. -/
def sampleRawTx : List zbytes := [[3], [2], [60], [170, 187], [100], [9], [27], [1, 2], [3, 4]]

end Eth

/-! ## Blockchain queries of the Scilla IPC server (libScilla/ScillaIPCServer.cpp) -/

namespace ScillaIPCServer

/-- What `fetchBlockchainInfo` reads from outside the source file: the current
block number of `m_BCInfo`, the constant `CHAIN_ID`, the conversion `stoull`
(`none` when it throws), the lookup `BlockStorage::GetTxBlock` (`none` for a
false return) and the rendering `BlockHash::hex`. -/
structure IPCEnv where
  getCurBlockNum : Nat
  CHAIN_ID : Nat
  stoull : String → Option Nat
  GetTxBlock : Nat → Option TxBlock
  hex : zbytes → String

/-- The query `ScillaIPCServer::fetchBlockchainInfo`: the boolean it returns
and the content of `value` afterwards. `std::to_string` of an unsigned integer
is its decimal representation. -/
def fetchBlockchainInfo (env : IPCEnv) (query_name query_args value : String) :
    Bool × String :=
  if query_name = "BLOCKNUMBER" then (true, toString env.getCurBlockNum)
  else if query_name = "TIMESTAMP" ∨ query_name = "BLOCKHASH" then
    match env.stoull query_args with
    | none => (false, value)
    | some blockNum =>
      match env.GetTxBlock blockNum with
      | none => (false, value)
      | some txBlock =>
        if query_name = "TIMESTAMP" then (true, toString txBlock.timestamp)
        else (true, env.hex txBlock.blockHash)
  else if query_name = "CHAINID" then (true, toString env.CHAIN_ID)
  else (true, value)

/-- Sample `stoull` in the manner of the C++ library: leading white space is
skipped, a sign is accepted, the longest run of decimal digits is read; there is
no value without a digit or for 2^64 and more; a minus sign negates modulo
2^64. -/
def sampleStoull (s : String) : Option Nat :=
  let cs := s.data.dropWhile (fun c => c.isWhitespace || c.toNat = 11 || c.toNat = 12)
  let neg := cs.head? = some (Char.ofNat 45)
  let cs := if cs.head? = some (Char.ofNat 45) ∨ cs.head? = some (Char.ofNat 43) then cs.tail
    else cs
  let ds := cs.takeWhile Char.isDigit
  let v := ds.foldl (fun n c => 10 * n + (c.toNat - 48)) 0
  if ds = [] ∨ 2 ^ 64 ≤ v then none
  else if neg then some ((2 ^ 64 - v) % 2 ^ 64) else some v

/-- A sample server: current block 7, chain id 1, tx block 4 in storage. -/
def sampleIPCEnv : IPCEnv where
  getCurBlockNum := 7
  CHAIN_ID := 1
  stoull := sampleStoull
  GetTxBlock := fun n => if n = 4 then some { blockNum := 4, blockHash := [0, 9], timestamp := 1000 }
    else none
  hex := fun b => String.join (b.map (fun x => toString x))

end ScillaIPCServer

namespace Node
/-! ### Lemmas on the cosignature check and the validation prefix -/
theorem getD_drop_of_drop_nil (B : List Bool) (i : Nat) (h : B.drop i = []) :
    B.getD i false = false ∧ B.drop (i + 1) = [] := by
  have hlen : B.length ≤ i := List.drop_eq_nil_iff.mp h
  constructor
  · simp [List.getD_eq_getElem?_getD, List.getElem?_eq_none hlen]
  · exact List.drop_eq_nil_iff.mpr (by omega)

theorem getD_drop_of_drop_cons (B : List Bool) (i : Nat) (b : Bool) (tl : List Bool)
    (h : B.drop i = b :: tl) : B.getD i false = b ∧ B.drop (i + 1) = tl := by
  constructor
  · have h1 := congrArg List.head? h
    simp [List.head?_drop] at h1
    simp [List.getD_eq_getElem?_getD, h1]
  · have h2 := congrArg List.tail h
    simpa [List.tail_drop] using h2

theorem cosigLoop_foldl (B2 : List Bool) (dsComm : DequeOfNode) :
    ∀ acc : CosigLoop,
      dsComm.foldl (cosigLoopStep B2) acc =
        { index := acc.index + dsComm.length,
          count := acc.count + countSetBits ((B2.drop acc.index).take dsComm.length),
          keys := acc.keys ++ selectedKeys dsComm (B2.drop acc.index) } := by
  induction dsComm with
  | nil => intro acc; simp [selectedKeys, countSetBits]
  | cons kv rest ih =>
    intro acc
    rw [List.foldl_cons, ih]
    rcases h : B2.drop acc.index with _ | ⟨b, tl⟩
    · obtain ⟨h1, h2⟩ := getD_drop_of_drop_nil B2 acc.index h
      have hstep : cosigLoopStep B2 acc kv = { acc with index := acc.index + 1 } := by
        unfold cosigLoopStep; rw [h1]; simp
      rw [hstep]
      simp [h2, selectedKeys, countSetBits]
      omega
    · obtain ⟨h1, h2⟩ := getD_drop_of_drop_cons B2 acc.index b tl h
      cases b
      · have hstep : cosigLoopStep B2 acc kv = { acc with index := acc.index + 1 } := by
          unfold cosigLoopStep; rw [h1]; simp
        rw [hstep]
        simp [h2, selectedKeys, countSetBits]
        omega
      · have hstep : cosigLoopStep B2 acc kv =
            { index := acc.index + 1, count := acc.count + 1, keys := acc.keys ++ [kv.1] } := by
          unfold cosigLoopStep; rw [h1]; simp
        rw [hstep]
        simp [h2, selectedKeys, countSetBits]
        omega

theorem cosigLoop_eq (dsComm : DequeOfNode) (B2 : List Bool) (hlen : dsComm.length = B2.length) :
    cosigLoop dsComm B2 =
      { index := dsComm.length, count := countSetBits B2, keys := selectedKeys dsComm B2 } := by
  unfold cosigLoop
  rw [cosigLoop_foldl]
  simp [hlen]

theorem writeAt_end (dst body : zbytes) : writeAt dst dst.length body = dst ++ body := by
  simp [writeAt]

theorem cosigMessage_eq (env : Env) (hdr : zbytes) (dsblock : DSBlock) :
    cosigMessage env hdr dsblock =
      hdr ++ env.SerializeSignature dsblock.cs1 ++ env.BitVectorBytes dsblock.b1 := by
  have h0 : writeAt [] 0 hdr = hdr := by simp [writeAt]
  simp only [cosigMessage, h0, writeAt_end]



theorem validateMessage_some (env : Env) (st : NodeState) (message : zbytes) (cur_offset : Nat)
    (m : VCDSBlocksMessage) (h : validateMessage env st message cur_offset = some m) :
    env.GetNodeVCDSBlocksMessage message cur_offset = some m ∧
    m.shardingStructureVersion = env.SHARDINGSTRUCTURE_VERSION ∧
    env.GetShardingStructureHash env.SHARDINGSTRUCTURE_VERSION m.t_shards =
      some m.dsblock.header.shardingHash ∧
    m.dsblock.header.version = env.DSBLOCK_VERSION ∧
    (st.m_txBlockChain ≠ [] →
      (GetLastBlock st.m_txBlockChain env.dummyTxBlock).timestamp < m.dsblock.timestamp) ∧
    env.VerifyTimestamp m.dsblock.timestamp
      (env.CONSENSUS_OBJECT_TIMEOUT + env.TX_DISTRIBUTE_TIME_IN_MS / 1000) = true ∧
    env.GetMyHash m.dsblock.header = m.dsblock.blockHash := by
  unfold validateMessage at h
  by_cases h1 : (!env.LOOKUP_NODE_MODE && !env.CheckStateProcessDSBlock st) = true
  · rw [if_pos h1] at h; cases h
  rw [if_neg h1] at h
  cases hdec : env.GetNodeVCDSBlocksMessage message cur_offset with
  | none => rw [hdec] at h; cases h
  | some m1 =>
    rw [hdec] at h
    dsimp only at h
    by_cases h2 : (m1.shardingStructureVersion != env.SHARDINGSTRUCTURE_VERSION) = true
    · rw [if_pos h2] at h; cases h
    rw [if_neg h2] at h
    cases hsh : env.GetShardingStructureHash env.SHARDINGSTRUCTURE_VERSION m1.t_shards with
    | none => rw [hsh] at h; cases h
    | some shardingHash =>
      rw [hsh] at h
      dsimp only at h
      by_cases h3 : (m1.dsblock.header.version != env.DSBLOCK_VERSION) = true
      · rw [if_pos h3] at h; cases h
      rw [if_neg h3] at h
      by_cases h4 : (decide (GetBlockCount st.m_txBlockChain > 0) &&
          decide (m1.dsblock.timestamp ≤
            (GetLastBlock st.m_txBlockChain env.dummyTxBlock).timestamp)) = true
      · rw [if_pos h4] at h; cases h
      rw [if_neg h4] at h
      by_cases h5 : (!env.VerifyTimestamp m1.dsblock.timestamp
          (env.CONSENSUS_OBJECT_TIMEOUT + env.TX_DISTRIBUTE_TIME_IN_MS / 1000)) = true
      · rw [if_pos h5] at h; cases h
      rw [if_neg h5] at h
      by_cases h6 : (shardingHash != m1.dsblock.header.shardingHash) = true
      · rw [if_pos h6] at h; cases h
      rw [if_neg h6] at h
      by_cases h7 : (env.GetMyHash m1.dsblock.header != m1.dsblock.blockHash) = true
      · rw [if_pos h7] at h; cases h
      rw [if_neg h7] at h
      injection h with h
      subst h
      simp only [bne_iff_ne, ne_eq, Decidable.not_not, Bool.not_eq_true', Bool.not_eq_false,
        Bool.and_eq_true, decide_eq_true_eq, not_and, not_le, Bool.not_eq_true] at h2 h3 h4 h5 h6 h7
      refine ⟨rfl, h2, ?_, h3, ?_, ?_, h7⟩
      · rw [hsh, h6]
      · intro hne
        apply h4
        unfold GetBlockCount
        exact List.length_pos.mpr hne
      · exact h5

theorem processVCBlocks_true (env : Env) :
    ∀ (vcBlocks : List VCBlock) (st st1 : NodeState) (c : Nat),
      processVCBlocks env st vcBlocks c = (true, st1) → VCBlocksApplied env st vcBlocks st1 := by
  intro vcBlocks
  induction vcBlocks with
  | nil =>
    intro st st1 c h
    simp only [processVCBlocks, Prod.mk.injEq, true_and] at h
    subst h
    exact VCBlocksApplied.nil st
  | cons vcBlock rest ih =>
    intro st st1 c h
    unfold processVCBlocks at h
    rcases hcore : env.ProcessVCBlockCore st vcBlock with ⟨b, st2⟩
    rw [hcore] at h
    cases b with
    | false => simp at h
    | true => exact VCBlocksApplied.cons hcore (ih st2 st1 _ h)

theorem ProcessVCDSBlocksMessage_true (env : Env) (st st' : NodeState) (message : zbytes)
    (cur_offset : Nat)
    (h : ProcessVCDSBlocksMessage env st message cur_offset = some (true, st')) :
    ∃ m stVC,
      validateMessage env st message cur_offset = some m ∧
      env.CheckWhetherBlockIsLatest st m.dsblock.header.blockNum m.dsblock.header.epochNum
        = true ∧
      processVCBlocks env st m.vcBlocks 1 = (true, stVC) ∧
      env.GetDSCommitteeHash stVC.m_DSCommittee = some m.dsblock.header.committeeHash ∧
      VerifyDSBlockCoSignature env stVC.m_DSCommittee m.dsblock = true ∧
      applyDSBlock env stVC m st.m_shards_ds.length = some (true, st') := by
  unfold ProcessVCDSBlocksMessage at h
  dsimp only at h
  cases hval : validateMessage env st message cur_offset with
  | none => rw [hval] at h; simp at h
  | some m =>
    rw [hval] at h
    dsimp only at h
    by_cases hfresh : (!env.CheckWhetherBlockIsLatest st m.dsblock.header.blockNum
        m.dsblock.header.epochNum) = true
    · rw [if_pos hfresh] at h; simp at h
    rw [if_neg hfresh] at h
    rcases hvc : processVCBlocks env st m.vcBlocks 1 with ⟨b, stVC⟩
    rw [hvc] at h
    cases b with
    | false => simp at h
    | true =>
      dsimp only at h
      cases hch : env.GetDSCommitteeHash stVC.m_DSCommittee with
      | none => rw [hch] at h; simp at h
      | some committeeHash =>
        rw [hch] at h
        dsimp only at h
        by_cases hne : (committeeHash != m.dsblock.header.committeeHash) = true
        · rw [if_pos hne] at h; simp at h
        rw [if_neg hne] at h
        by_cases hsig : (!VerifyDSBlockCoSignature env stVC.m_DSCommittee m.dsblock) = true
        · rw [if_pos hsig] at h; simp at h
        rw [if_neg hsig] at h
        simp only [bne_iff_ne, ne_eq, Decidable.not_not, Bool.not_eq_true', Bool.not_eq_false,
          Bool.not_eq_true] at hfresh hne hsig
        exact ⟨m, stVC, rfl, hfresh, hvc, by rw [hch, hne], hsig, h⟩

/-- C1. Acceptance soundness of `ProcessVCDSBlocksMessage`: a run that returns
true deserialised the message, found both versions as expected, found the
timestamp newer than the last tx block (when there is one) and inside the
`VerifyTimestamp` window, found the sharding hash and the block hash as
recomputed, passed the freshness check, processed every view-change block
successfully, found the hash of the committee left by the view-change blocks
(before composition, which only `applyDSBlock` performs) equal to the
header's committee hash, and verified the cosignature on that committee. -/
theorem C1_acceptance_soundness (env : Env) (st st' : NodeState) (message : zbytes)
    (cur_offset : Nat)
    (h : ProcessVCDSBlocksMessage env st message cur_offset = some (true, st')) :
    ∃ m stVC,
      env.GetNodeVCDSBlocksMessage message cur_offset = some m ∧
      m.shardingStructureVersion = env.SHARDINGSTRUCTURE_VERSION ∧
      m.dsblock.header.version = env.DSBLOCK_VERSION ∧
      (st.m_txBlockChain ≠ [] →
        (GetLastBlock st.m_txBlockChain env.dummyTxBlock).timestamp < m.dsblock.timestamp) ∧
      env.VerifyTimestamp m.dsblock.timestamp
        (env.CONSENSUS_OBJECT_TIMEOUT + env.TX_DISTRIBUTE_TIME_IN_MS / 1000) = true ∧
      env.GetShardingStructureHash env.SHARDINGSTRUCTURE_VERSION m.t_shards =
        some m.dsblock.header.shardingHash ∧
      env.GetMyHash m.dsblock.header = m.dsblock.blockHash ∧
      env.CheckWhetherBlockIsLatest st m.dsblock.header.blockNum m.dsblock.header.epochNum
        = true ∧
      VCBlocksApplied env st m.vcBlocks stVC ∧
      env.GetDSCommitteeHash stVC.m_DSCommittee = some m.dsblock.header.committeeHash ∧
      VerifyDSBlockCoSignature env stVC.m_DSCommittee m.dsblock = true ∧
      applyDSBlock env stVC m st.m_shards_ds.length = some (true, st') := by
  obtain ⟨m, stVC, hval, hfresh, hvc, hch, hsig, happly⟩ :=
    ProcessVCDSBlocksMessage_true env st st' message cur_offset h
  obtain ⟨hdec, hsv, hsh, hver, hts, hwin, hbh⟩ :=
    validateMessage_some env st message cur_offset m hval
  exact ⟨m, stVC, hdec, hsv, hver, hts, hwin, hsh, hbh, hfresh,
    processVCBlocks_true env m.vcBlocks st stVC 1 hvc, hch, hsig, happly⟩

/-- The sample node accepts the sample message `[1,5,2000,10,458,52,0,1,1,1,0]`,
so the conclusion of C1 holds of it. -/
theorem C1_acceptance_soundness_witness :
    ∃ st' m stVC,
      ProcessVCDSBlocksMessage sampleEnv sampleState [1, 5, 2000, 10, 458, 52, 0, 1, 1, 1, 0] 0
        = some (true, st') ∧
      sampleEnv.GetNodeVCDSBlocksMessage [1, 5, 2000, 10, 458, 52, 0, 1, 1, 1, 0] 0 = some m ∧
      VCBlocksApplied sampleEnv sampleState m.vcBlocks stVC ∧
      VerifyDSBlockCoSignature sampleEnv stVC.m_DSCommittee m.dsblock = true := by
  have hrun : ∃ st', ProcessVCDSBlocksMessage sampleEnv sampleState
      [1, 5, 2000, 10, 458, 52, 0, 1, 1, 1, 0] 0 = some (true, st') :=
    ⟨_, rfl⟩
  obtain ⟨st', hst'⟩ := hrun
  obtain ⟨m, stVC, h1, _, _, _, _, _, _, _, h9, _, h11, _⟩ :=
    C1_acceptance_soundness sampleEnv sampleState st' _ 0 hst'
  exact ⟨st', m, stVC, hst', h1, h9, h11⟩

/-! ### Frame lemmas: what the steps after the leader election leave alone -/

theorem dsView_emit (st : NodeState) (e : Event) : dsView (emit st e) = dsView st := rfl

theorem dsView_ite (c : Prop) [Decidable c] (a b st : NodeState)
    (ha : dsView a = dsView st) (hb : dsView b = dsView st) :
    dsView (if c then a else b) = dsView st := by
  split <;> assumption

theorem dsView_UpdateGov (env : Env) (st : NodeState) :
    dsView (UpdateGovProposalRemainingVoteInfo env st) = dsView st := by
  unfold UpdateGovProposalRemainingVoteInfo
  refine dsView_ite _ _ _ _ ?_ rfl
  exact dsView_ite _ _ _ _ rfl rfl

theorem dsView_LoadShardingStructure (env : Env) (st : NodeState) (callByRetrieve : Bool) :
    dsView (LoadShardingStructure env st callByRetrieve).2 = dsView st := by
  unfold LoadShardingStructure
  by_cases h1 : env.LOOKUP_NODE_MODE = true
  · rw [if_pos h1]
  rw [if_neg h1]
  dsimp only
  by_cases h2 : st.m_myshardId ≥ st.m_shards_ds.length
  · rw [if_pos h2]; rfl
  rw [if_neg h2]
  split <;> rfl

theorem dsView_startFirstTxEpochReset (st : NodeState) :
    dsView (startFirstTxEpochReset st) = dsView st := by
  cases st; rfl

theorem dsView_startFirstTxEpochKickoff (env : Env) (st : NodeState) (fbWaitState : Bool) :
    dsView (startFirstTxEpochKickoff env st fbWaitState) = dsView st := by
  unfold startFirstTxEpochKickoff
  dsimp only
  refine dsView_ite _ _ _ _ ?_ ?_
  · show dsView (if _ then _ else _) = dsView st
    exact dsView_ite _ _ _ _ rfl rfl
  · show dsView (if _ then _ else _) = dsView st
    exact dsView_ite _ _ _ _ rfl rfl

theorem dsView_StartFirstTxEpoch (env : Env) (st st' : NodeState) (fbWaitState : Bool)
    (h : StartFirstTxEpoch env st fbWaitState = some st') : dsView st' = dsView st := by
  unfold StartFirstTxEpoch at h
  by_cases h1 : env.LOOKUP_NODE_MODE = true
  · rw [if_pos h1] at h; cases h; rfl
  rw [if_neg h1] at h
  dsimp only at h
  split at h
  · cases h
  · split at h
    · cases h
    · split at h
      · cases h
      · cases h
        rw [dsView_startFirstTxEpochKickoff, ← dsView_startFirstTxEpochReset st]
        generalize startFirstTxEpochReset st = st1
        cases st1; rfl

theorem dsView_becomeDSMember (env : Env) (st : NodeState) (dist : Nat) :
    dsView (becomeDSMember env st dist).2 = dsView st := by
  unfold becomeDSMember
  dsimp only
  split
  · cases st; rfl
  · dsimp only
    rw [dsView_emit, dsView_UpdateGov]
    cases st; rfl

theorem dsView_forwardDSBlock (env : Env) (st : NodeState) (m : VCDSBlocksMessage) :
    dsView (forwardDSBlock env st m) = dsView st := by
  unfold forwardDSBlock
  refine dsView_ite _ _ _ _ ?_ rfl
  split
  · rfl
  · rfl

theorem dsView_becomeShardNode (env : Env) (st st' : NodeState) (m : VCDSBlocksMessage)
    (b : Bool) (h : becomeShardNode env st m = some (b, st')) : dsView st' = dsView st := by
  unfold becomeShardNode at h
  have hload := dsView_LoadShardingStructure env st false
  rcases hl : LoadShardingStructure env st false with ⟨ok, st1⟩
  rw [hl] at h hload
  cases ok with
  | false =>
    dsimp only at h
    cases h
    exact hload
  | true =>
    dsimp only at h hload
    split at h
    · cases h
    · rename_i st2 hstart
      cases h
      rw [dsView_StartFirstTxEpoch env _ _ false hstart, dsView_UpdateGov,
        dsView_forwardDSBlock, hload]

theorem dsView_stopMining (st : NodeState) : dsView (stopMining st) = dsView st := by
  cases st; rfl

theorem dsView_assignRole (env : Env) (st st' : NodeState) (m : VCDSBlocksMessage)
    (b : Bool) (h : assignRole env st m = some (b, st')) : dsView st' = dsView st := by
  unfold assignRole at h
  dsimp only at h
  split at h
  · rename_i dist _
    injection h with h
    have hd := dsView_becomeDSMember env (stopMining st) dist
    rw [h] at hd
    rw [hd, dsView_stopMining]
  · rw [dsView_becomeShardNode env _ _ m b h, dsView_stopMining]

theorem dsView_lookupBranch (env : Env) (st : NodeState) (oldNumShards : Nat) :
    dsView (lookupBranch env st oldNumShards) = dsView st := by
  unfold lookupBranch
  dsimp only
  refine dsView_ite _ _ _ _ ?_ ?_
  · cases st; rfl
  · cases st; rfl

theorem dsView_putDiagnosticData (env : Env) (st : NodeState) :
    dsView (putDiagnosticData env st) = dsView st := by
  unfold putDiagnosticData
  dsimp only
  refine dsView_ite _ _ _ _ ?_ ?_
  · rw [dsView_emit]; exact dsView_ite _ _ _ _ rfl rfl
  · exact dsView_ite _ _ _ _ rfl rfl

theorem dsView_archivalLookupStep (env : Env) (st : NodeState) (m : VCDSBlocksMessage) :
    dsView (archivalLookupStep env st m) = dsView st := by
  unfold archivalLookupStep
  refine dsView_ite _ _ _ _ ?_ rfl
  refine dsView_ite _ _ _ _ ?_ rfl
  dsimp only
  rw [dsView_emit]
  split <;> rfl

theorem dsView_lookupBookkeeping (env : Env) (st : NodeState) (m : VCDSBlocksMessage)
    (minerInfoDSComm : MinerInfoDSComm) (minerInfoShards : List MinerInfoShard) :
    dsView (lookupBookkeeping env st m minerInfoDSComm minerInfoShards).2 = dsView st := by
  unfold lookupBookkeeping
  split
  · dsimp only
    split
    · rfl
    · split
      · rfl
      · dsimp only
        rw [dsView_putDiagnosticData]
        rfl
  · rfl

theorem dsView_persistCommittee (env : Env) (st : NodeState) (m : VCDSBlocksMessage)
    (minerInfoDSComm : MinerInfoDSComm) (minerInfoShards : List MinerInfoShard) :
    dsView (persistCommittee env st m minerInfoDSComm minerInfoShards).2 = dsView st := by
  unfold persistCommittee
  dsimp only
  split
  · rfl
  · rw [dsView_lookupBookkeeping, dsView_archivalLookupStep]
    rfl

theorem dsView_assignAndPersist (env : Env) (st st' : NodeState) (m : VCDSBlocksMessage)
    (oldNumShards : Nat) (minerInfoDSComm : MinerInfoDSComm)
    (minerInfoShards : List MinerInfoShard) (b : Bool)
    (h : assignAndPersist env st m oldNumShards minerInfoDSComm minerInfoShards = some (b, st')) :
    dsView st' = dsView st := by
  unfold assignAndPersist at h
  split at h
  · split at h
    · cases h
    · rename_i st1 hrole
      cases h
      exact dsView_assignRole env st _ m false hrole
    · rename_i st1 hrole
      injection h with h
      have hp := dsView_persistCommittee env st1 m minerInfoDSComm minerInfoShards
      rw [h] at hp
      rw [hp]
      exact dsView_assignRole env st _ m true hrole
  · injection h with h
    have hp := dsView_persistCommittee env (lookupBranch env st oldNumShards) m
      minerInfoDSComm minerInfoShards
    rw [h] at hp
    rw [hp, dsView_lookupBranch]

/-- C2. A DS block whose timestamp does not exceed the last tx block's is
rejected in the validation prefix (lines 374-458), before the freshness check
and before any view-change block is processed: the call returns false and the
node state, trace of collaborator calls included, is the state on entry.  The
cosignature plays no part: the statement holds for every block and every
multi-signature library. -/
theorem C2_stale_timestamp_rejected (env : Env) (st : NodeState) (message : zbytes)
    (cur_offset : Nat) (m : VCDSBlocksMessage)
    (hne : st.m_txBlockChain ≠ [])
    (hdec : env.GetNodeVCDSBlocksMessage message cur_offset = some m)
    (hts : m.dsblock.timestamp ≤ (GetLastBlock st.m_txBlockChain env.dummyTxBlock).timestamp) :
    validateMessage env st message cur_offset = none ∧
    ProcessVCDSBlocksMessage env st message cur_offset = some (false, st) := by
  have hval : validateMessage env st message cur_offset = none := by
    have hcond : (decide (GetBlockCount st.m_txBlockChain > 0) &&
        decide (m.dsblock.timestamp ≤
          (GetLastBlock st.m_txBlockChain env.dummyTxBlock).timestamp)) = true := by
      have hpos : GetBlockCount st.m_txBlockChain > 0 := List.length_pos.mpr hne
      simp [hpos, hts]
    unfold validateMessage
    by_cases h1 : (!env.LOOKUP_NODE_MODE && !env.CheckStateProcessDSBlock st) = true
    · rw [if_pos h1]
    rw [if_neg h1, hdec]
    dsimp only
    by_cases h2 : (m.shardingStructureVersion != env.SHARDINGSTRUCTURE_VERSION) = true
    · rw [if_pos h2]
    rw [if_neg h2]
    cases hsh : env.GetShardingStructureHash env.SHARDINGSTRUCTURE_VERSION m.t_shards with
    | none => rfl
    | some shardingHash =>
      dsimp only
      by_cases h3 : (m.dsblock.header.version != env.DSBLOCK_VERSION) = true
      · rw [if_pos h3]
      rw [if_neg h3, if_pos hcond]
  refine ⟨hval, ?_⟩
  unfold ProcessVCDSBlocksMessage
  rw [hval]

/-- The sample node (last tx block at timestamp 1000) rejects the sample
message re-stamped 900, whose cosignature is the valid one. -/
theorem C2_stale_timestamp_rejected_witness :
    sampleState.m_txBlockChain ≠ [] ∧
    sampleEnv.GetNodeVCDSBlocksMessage [1, 5, 900, 10, 458, 52, 0, 1, 1, 1, 0] 0 ≠ none ∧
    validateMessage sampleEnv sampleState [1, 5, 900, 10, 458, 52, 0, 1, 1, 1, 0] 0 = none ∧
    ProcessVCDSBlocksMessage sampleEnv sampleState [1, 5, 900, 10, 458, 52, 0, 1, 1, 1, 0] 0
      = some (false, sampleState) := by
  have hdec : ∃ m, sampleEnv.GetNodeVCDSBlocksMessage [1, 5, 900, 10, 458, 52, 0, 1, 1, 1, 0] 0
      = some m ∧ m.dsblock.timestamp = 900 := ⟨_, rfl, rfl⟩
  obtain ⟨m, hm, hts⟩ := hdec
  have hne : sampleState.m_txBlockChain ≠ [] := by decide
  have h := C2_stale_timestamp_rejected sampleEnv sampleState _ 0 m hne hm
    (by rw [hts]; decide)
  exact ⟨hne, by rw [hm]; exact Option.some_ne_none m, h.1, h.2⟩

/-- C3. For a DS committee of any size (so of every size n >= 1), when B2 has
fewer set bits than the consensus threshold for the committee size,
`VerifyDSBlockCoSignature` returns false, whatever CS1, CS2 and the rest of
the block are and whatever threshold function `NumForConsensus` is (the
spec's `floor(2n/3) + 1` included). -/
theorem C3_insufficient_cosigners_rejected (env : Env) (dsComm : DequeOfNode)
    (dsblock : DSBlock)
    (hcount : countSetBits dsblock.b2 < env.NumForConsensus dsComm.length) :
    VerifyDSBlockCoSignature env dsComm dsblock = false := by
  unfold VerifyDSBlockCoSignature cosigPrepare
  dsimp only
  by_cases hlen : (dsComm.length != dsblock.b2.length) = true
  · rw [if_pos hlen]
  rw [if_neg hlen]
  have hlen' : dsComm.length = dsblock.b2.length := by simpa using hlen
  rw [cosigLoop_eq dsComm dsblock.b2 hlen']
  dsimp only
  have hne : (countSetBits dsblock.b2 != env.NumForConsensus dsblock.b2.length) = true := by
    rw [← hlen']
    simp only [bne_iff_ne, ne_eq]
    omega
  rw [if_pos hne]

/-- With the spec's threshold (3 of 4), the sample committee rejects a block
whose B2 has two set bits. -/
theorem C3_insufficient_cosigners_rejected_witness :
    1 ≤ sampleCommittee.length ∧
    countSetBits [true, true, false, false] < ConsensusThreshold sampleCommittee.length ∧
    VerifyDSBlockCoSignature sampleEnv sampleCommittee
      { sampleTip with b2 := [true, true, false, false] } = false :=
  ⟨by decide, by decide,
    C3_insufficient_cosigners_rejected sampleEnv sampleCommittee
      { sampleTip with b2 := [true, true, false, false] } (by decide)⟩

/-- C4: with all four members of the sample committee cosigning (threshold 3),
a key that aggregates, a header that serialises and a CS2 that verifies under
the aggregated key over the cosigned message, `VerifyDSBlockCoSignature`
returns false, on the branch that logs "Cosig was not generated by enough
nodes". -/
theorem C4_supermajority_rejected :
    sampleCommittee.length = [true, true, true, true].length ∧
    sampleEnv.NumForConsensus sampleCommittee.length ≤ countSetBits [true, true, true, true] ∧
    sampleEnv.AggregatePubKeys (selectedKeys sampleCommittee [true, true, true, true])
      = some 50 ∧
    sampleEnv.SerializeHeader sampleTip.header = some [0, 1] ∧
    sampleEnv.MultiSigVerify ([0, 1] ++ sampleEnv.SerializeSignature 7 ++
        sampleEnv.BitVectorBytes [true, true, true, false]) 0 7 61 50 = true ∧
    VerifyDSBlockCoSignature sampleEnv sampleCommittee
      { sampleTip with cs1 := 7, b1 := [true, true, true, false], cs2 := 61,
                       b2 := [true, true, true, true] } = false := by
  decide

/-- Every B2 whose number of set bits differs from `NumForConsensus`, above
as well as below, is rejected by the test `count != NumForConsensus`. -/
theorem count_off_threshold_rejected (env : Env) (dsComm : DequeOfNode) (dsblock : DSBlock)
    (hcount : countSetBits dsblock.b2 ≠ env.NumForConsensus dsComm.length) :
    VerifyDSBlockCoSignature env dsComm dsblock = false := by
  unfold VerifyDSBlockCoSignature cosigPrepare
  dsimp only
  by_cases hlen : (dsComm.length != dsblock.b2.length) = true
  · rw [if_pos hlen]
  rw [if_neg hlen]
  have hlen' : dsComm.length = dsblock.b2.length := by simpa using hlen
  rw [cosigLoop_eq dsComm dsblock.b2 hlen']
  dsimp only
  have hne : (countSetBits dsblock.b2 != env.NumForConsensus dsblock.b2.length) = true := by
    rw [← hlen']
    simp only [bne_iff_ne, ne_eq]
    exact hcount
  rw [if_pos hne]

/-- When B2 has the length of the committee and exactly `NumForConsensus` set
bits, the selected keys aggregate to `key`, the header serialises to `hdr`, and
CS2 verifies under `key` over `hdr`, CS1 and B1, from offset 0 over the whole
length, `VerifyDSBlockCoSignature` returns true. -/
theorem exact_threshold_accepted (env : Env) (dsComm : DequeOfNode) (dsblock : DSBlock)
    (key : PubKey) (hdr : zbytes)
    (hlen : dsComm.length = dsblock.b2.length)
    (hcount : countSetBits dsblock.b2 = env.NumForConsensus dsComm.length)
    (hagg : env.AggregatePubKeys (selectedKeys dsComm dsblock.b2) = some key)
    (hser : env.SerializeHeader dsblock.header = some hdr)
    (hver : env.MultiSigVerify
      (hdr ++ env.SerializeSignature dsblock.cs1 ++ env.BitVectorBytes dsblock.b1) 0
      (hdr ++ env.SerializeSignature dsblock.cs1 ++ env.BitVectorBytes dsblock.b1).length
      dsblock.cs2 key = true) :
    VerifyDSBlockCoSignature env dsComm dsblock = true := by
  unfold VerifyDSBlockCoSignature cosigPrepare
  dsimp only
  have h1 : ¬ (dsComm.length != dsblock.b2.length) = true := by simp [hlen]
  rw [if_neg h1, cosigLoop_eq dsComm dsblock.b2 hlen]
  dsimp only
  have h2 : ¬ (countSetBits dsblock.b2 != env.NumForConsensus dsblock.b2.length) = true := by
    rw [← hlen]; simp [hcount]
  rw [if_neg h2, hagg]
  dsimp only
  rw [hser]
  dsimp only
  rw [cosigMessage_eq]
  exact hver

/-- Three of the four sample members cosign (threshold 3) and CS2 verifies:
the block is accepted. -/
theorem exact_threshold_accepted_sample :
    sampleCommittee.length = [true, true, true, false].length ∧
    countSetBits [true, true, true, false] = sampleEnv.NumForConsensus sampleCommittee.length ∧
    VerifyDSBlockCoSignature sampleEnv sampleCommittee
      { sampleTip with cs1 := 7, b1 := [true, true, true, false], cs2 := 47,
                       b2 := [true, true, true, false] } = true :=
  ⟨by decide, by decide,
    exact_threshold_accepted sampleEnv sampleCommittee
      { sampleTip with cs1 := 7, b1 := [true, true, true, false], cs2 := 47,
                       b2 := [true, true, true, false] } 36 [0, 1]
      (by decide) (by decide) (by decide) (by decide) (by decide)⟩

/-- C5. Whenever `VerifyDSBlockCoSignature` reaches the multi-signature check,
the call has: as key, the aggregate of exactly the keys of the members at the
set positions of B2, in committee order; as message, the serialised header
followed by the serialised CS1 followed by the bit-vector bytes of B1; offset
0; the whole message length; and CS2 as the signature.  The function returns
true only if that call succeeds, and returns false when the length of B2
differs from the committee size. -/
theorem C5_multisig_call_arguments (env : Env) (dsComm : DequeOfNode) (dsblock : DSBlock) :
    (∀ call, cosigPrepare env dsComm dsblock = some call →
      env.AggregatePubKeys (selectedKeys dsComm dsblock.b2) = some call.pubkey ∧
      (∃ hdr, env.SerializeHeader dsblock.header = some hdr ∧
        call.message = hdr ++ env.SerializeSignature dsblock.cs1 ++
          env.BitVectorBytes dsblock.b1) ∧
      call.offset = 0 ∧ call.size = call.message.length ∧ call.toverify = dsblock.cs2) ∧
    (VerifyDSBlockCoSignature env dsComm dsblock = true →
      ∃ call, cosigPrepare env dsComm dsblock = some call ∧
        env.MultiSigVerify call.message call.offset call.size call.toverify call.pubkey
          = true) ∧
    (dsComm.length ≠ dsblock.b2.length →
      VerifyDSBlockCoSignature env dsComm dsblock = false) := by
  refine ⟨?_, ?_, ?_⟩
  · intro call hcall
    unfold cosigPrepare at hcall
    dsimp only at hcall
    by_cases hlen : (dsComm.length != dsblock.b2.length) = true
    · rw [if_pos hlen] at hcall; cases hcall
    rw [if_neg hlen] at hcall
    have hlen' : dsComm.length = dsblock.b2.length := by simpa using hlen
    rw [cosigLoop_eq dsComm dsblock.b2 hlen'] at hcall
    dsimp only at hcall
    by_cases hcnt : (countSetBits dsblock.b2 != env.NumForConsensus dsblock.b2.length) = true
    · rw [if_pos hcnt] at hcall; cases hcall
    rw [if_neg hcnt] at hcall
    cases hagg : env.AggregatePubKeys (selectedKeys dsComm dsblock.b2) with
    | none => rw [hagg] at hcall; cases hcall
    | some key =>
      rw [hagg] at hcall
      dsimp only at hcall
      cases hser : env.SerializeHeader dsblock.header with
      | none => rw [hser] at hcall; cases hcall
      | some hdr =>
        rw [hser] at hcall
        dsimp only at hcall
        injection hcall with hcall
        subst hcall
        exact ⟨rfl, ⟨hdr, rfl, cosigMessage_eq env hdr dsblock⟩, rfl, rfl, rfl⟩
  · intro h
    unfold VerifyDSBlockCoSignature at h
    cases hp : cosigPrepare env dsComm dsblock with
    | none => rw [hp] at h; cases h
    | some call => rw [hp] at h; exact ⟨call, rfl, h⟩
  · intro hne
    unfold VerifyDSBlockCoSignature cosigPrepare
    dsimp only
    have hlen : (dsComm.length != dsblock.b2.length) = true := by simpa using hne
    rw [if_pos hlen]

/-- On the sample committee with B2 = 1110 the check is reached, with the
aggregate of the keys 11, 12, 13 and the message `[0,1] ++ [7] ++ [1,1,1,0]`. -/
theorem C5_multisig_call_arguments_witness :
    cosigPrepare sampleEnv sampleCommittee
      { sampleTip with cs1 := 7, b1 := [true, true, true, false], cs2 := 47,
                       b2 := [true, true, true, false] }
      = some { message := [0, 1, 7, 1, 1, 1, 0], offset := 0, size := 7, toverify := 47,
               pubkey := 36 } ∧
    sampleEnv.AggregatePubKeys (selectedKeys sampleCommittee [true, true, true, false])
      = some 36 :=
  ⟨by decide,
   ((C5_multisig_call_arguments sampleEnv sampleCommittee
      { sampleTip with cs1 := 7, b1 := [true, true, true, false], cs2 := 47,
                       b2 := [true, true, true, false] }).1
      { message := [0, 1, 7, 1, 1, 1, 0], offset := 0, size := 7, toverify := 47,
        pubkey := 36 } (by decide)).1⟩

theorem processVCBlocks_counter_irrelevant (env : Env) :
    ∀ (vcBlocks : List VCBlock) (st : NodeState) (c c' : Nat),
      processVCBlocks env st vcBlocks c = processVCBlocks env st vcBlocks c' := by
  intro vcBlocks
  induction vcBlocks with
  | nil => intro st c c'; rfl
  | cons vcBlock rest ih =>
    intro st c c'
    unfold processVCBlocks
    rcases env.ProcessVCBlockCore st vcBlock with ⟨b, st1⟩
    cases b with
    | false => rfl
    | true => exact ih st1 _ _

/-- C6, the code at the failing inputs.  The value of
`expectedViewChangeCounter` never influences the loop over the view-change
blocks, and the sample node accepts a message whose two view-change blocks
carry the counters 1, 3 and one whose blocks carry 2, 1: both calls return
true and leave the committee changed by both view changes and the
composition. -/
theorem C6_counter_sequence_not_checked :
    (∀ (env : Env) (st : NodeState) (vcBlocks : List VCBlock) (c c' : Nat),
      processVCBlocks env st vcBlocks c = processVCBlocks env st vcBlocks c') ∧
    (sampleEnv.GetNodeVCDSBlocksMessage [1, 5, 2000, 10, 522, 54, 2, 1, 3, 1, 1, 1, 0] 0).map
      (fun m => m.vcBlocks.map (fun vc => vc.viewChangeCounter)) = some [1, 3] ∧
    (ProcessVCDSBlocksMessage sampleEnv sampleState
        [1, 5, 2000, 10, 522, 54, 2, 1, 3, 1, 1, 1, 0] 0).map
      (fun r => (r.1, r.2.m_DSCommittee))
      = some (true, [(21, 201), (13, 103), (14, 104), (11, 101)]) ∧
    (sampleEnv.GetNodeVCDSBlocksMessage [1, 5, 2000, 10, 522, 54, 2, 2, 1, 1, 1, 1, 0] 0).map
      (fun m => m.vcBlocks.map (fun vc => vc.viewChangeCounter)) = some [2, 1] ∧
    (ProcessVCDSBlocksMessage sampleEnv sampleState
        [1, 5, 2000, 10, 522, 54, 2, 2, 1, 1, 1, 1, 0] 0).map
      (fun r => (r.1, r.2.m_DSCommittee))
      = some (true, [(21, 201), (13, 103), (14, 104), (11, 101)]) ∧
    sampleState.m_DSCommittee = [(11, 101), (12, 102), (13, 103), (14, 104)] :=
  ⟨fun env st vcBlocks c c' => processVCBlocks_counter_irrelevant env vcBlocks st c c',
    by decide, by decide, by decide, by decide, by decide⟩

theorem umod_some (a n r : Nat) (h : umod a n = some r) : n ≠ 0 ∧ r = a % n := by
  unfold umod at h
  split at h
  · cases h
  · rename_i hn
    injection h with h
    exact ⟨hn, h.symm⟩

theorem dsLeaderSeed_congr (env : Env) (a b : NodeState) (h : dsView a = dsView b) :
    dsLeaderSeed env a = dsLeaderSeed env b := by
  unfold dsView at h
  simp only [Prod.mk.injEq] at h
  obtain ⟨_, _, h3, h4⟩ := h
  unfold dsLeaderSeed
  rw [h3, h4]

theorem dsLeaderModulus_congr (env : Env) (a b : NodeState) (h : dsView a = dsView b) :
    dsLeaderModulus env a = dsLeaderModulus env b := by
  unfold dsView at h
  simp only [Prod.mk.injEq] at h
  obtain ⟨h1, _, _, _⟩ := h
  unfold dsLeaderModulus
  rw [h1]

theorem electDSLeader_some (env : Env) (st st' : NodeState)
    (h : electDSLeader env st = some st') :
    umod (dsLeaderSeed env st') (dsLeaderModulus env st') = some st'.m_consensusLeaderID_ds := by
  unfold electDSLeader at h
  split at h
  · cases h
  · rename_i leaderID hmod
    injection h with h
    subst h
    exact hmod

theorem composeAndElect_some (env : Env) (st st' : NodeState) (info : MinerInfoDSComm)
    (h : composeAndElect env st = some (st', info)) :
    umod (dsLeaderSeed env st') (dsLeaderModulus env st') = some st'.m_consensusLeaderID_ds := by
  unfold composeAndElect at h
  dsimp only at h
  split at h
  · cases h
  · rename_i st1 helect
    injection h with h
    injection h with h1 h2
    subst h1
    exact electDSLeader_some env _ _ helect

theorem applyDSBlock_some (env : Env) (st st' : NodeState) (m : VCDSBlocksMessage)
    (oldNumShards : Nat) (h : applyDSBlock env st m oldNumShards = some (true, st')) :
    ∃ stE minerInfoDSComm minerInfoShards,
      umod (dsLeaderSeed env stE) (dsLeaderModulus env stE) = some stE.m_consensusLeaderID_ds ∧
      assignAndPersist env stE m oldNumShards minerInfoDSComm minerInfoShards
        = some (true, st') := by
  unfold applyDSBlock at h
  split at h
  · cases h
  · dsimp only at h
    split at h
    · cases h
    · split at h
      · cases h
      · split at h
        · cases h
        · rename_i stE info hce
          exact ⟨stE, info, _, composeAndElect_some env _ _ _ hce, h⟩

theorem leader_after_run (env : Env) (st st' : NodeState) (message : zbytes) (cur_offset : Nat)
    (h : ProcessVCDSBlocksMessage env st message cur_offset = some (true, st')) :
    umod (dsLeaderSeed env st') (dsLeaderModulus env st') = some st'.m_consensusLeaderID_ds := by
  obtain ⟨m, stVC, _, _, _, _, _, happly⟩ :=
    ProcessVCDSBlocksMessage_true env st st' message cur_offset h
  obtain ⟨stE, info, shardsInfo, hmod, hrest⟩ := applyDSBlock_some env stVC st' m _ happly
  have hview := dsView_assignAndPersist env stE st' m _ info shardsInfo true hrest
  rw [dsLeaderSeed_congr env st' stE hview, dsLeaderModulus_congr env st' stE hview]
  have hl : st'.m_consensusLeaderID_ds = stE.m_consensusLeaderID_ds := by
    have := congrArg (fun v => v.2.1) hview
    exact this
  rw [hl]
  exact hmod

theorem mem_events_emit (st : NodeState) (e e' : Event) (h : e ∈ st.events) :
    e ∈ (emit st e').events := by
  unfold emit
  exact List.mem_append_left _ h

theorem mem_events_emit_self (st : NodeState) (e : Event) : e ∈ (emit st e).events := by
  unfold emit
  exact List.mem_append_right _ (List.mem_singleton.mpr rfl)

theorem mem_events_ite (c : Prop) [Decidable c] (a b : NodeState) (e : Event)
    (ha : e ∈ a.events) (hb : e ∈ b.events) : e ∈ (if c then a else b).events := by
  split <;> assumption

theorem mem_events_archivalLookupStep (env : Env) (st : NodeState) (m : VCDSBlocksMessage)
    (e : Event) (h : e ∈ st.events) : e ∈ (archivalLookupStep env st m).events := by
  unfold archivalLookupStep
  refine mem_events_ite _ _ _ _ ?_ h
  refine mem_events_ite _ _ _ _ ?_ ?_
  · dsimp only
    apply mem_events_emit
    split
    · exact h
    · exact h
  · apply mem_events_emit
    exact h

theorem mem_events_putDiagnosticData (env : Env) (st : NodeState) (e : Event)
    (h : e ∈ st.events) : e ∈ (putDiagnosticData env st).events := by
  unfold putDiagnosticData
  dsimp only
  have h1 : e ∈ (if (decide (env.MAX_ENTRIES_FOR_DIAGNOSTIC_DATA > 0) &&
      decide (env.GetDiagnosticDataNodesCount ≥ env.MAX_ENTRIES_FOR_DIAGNOSTIC_DATA) &&
      decide ((GetLastBlock st.m_dsBlockChain env.dummyDSBlock).header.blockNum ≥
        env.MAX_ENTRIES_FOR_DIAGNOSTIC_DATA)) = true
      then emit st (Event.DeleteDiagnosticDataNodes
        ((GetLastBlock st.m_dsBlockChain env.dummyDSBlock).header.blockNum -
          env.MAX_ENTRIES_FOR_DIAGNOSTIC_DATA))
      else st).events :=
    mem_events_ite _ _ _ _ (mem_events_emit _ _ _ h) h
  exact mem_events_ite _ _ _ _ (mem_events_emit _ _ _ h1) h1

theorem mem_events_lookupBookkeeping (env : Env) (st : NodeState) (m : VCDSBlocksMessage)
    (minerInfoDSComm : MinerInfoDSComm) (minerInfoShards : List MinerInfoShard)
    (e : Event) (h : e ∈ st.events) :
    e ∈ (lookupBookkeeping env st m minerInfoDSComm minerInfoShards).2.events := by
  unfold lookupBookkeeping
  split
  · dsimp only
    split
    · exact mem_events_emit _ _ _ h
    · split
      · exact mem_events_emit _ _ _ (mem_events_emit _ _ _ h)
      · exact mem_events_putDiagnosticData env _ e
          (mem_events_emit _ _ _ (mem_events_emit _ _ _ h))
  · exact h

theorem mem_events_persistCommittee (env : Env) (st : NodeState) (m : VCDSBlocksMessage)
    (minerInfoDSComm : MinerInfoDSComm) (minerInfoShards : List MinerInfoShard) :
    Event.PutDSCommittee st.m_DSCommittee st.m_consensusLeaderID_ds ∈
      (persistCommittee env st m minerInfoDSComm minerInfoShards).2.events := by
  unfold persistCommittee
  dsimp only
  split
  · exact mem_events_emit_self _ _
  · apply mem_events_lookupBookkeeping
    apply mem_events_archivalLookupStep
    exact mem_events_emit_self _ _

theorem persisted_after_assignAndPersist (env : Env) (st st' : NodeState)
    (m : VCDSBlocksMessage) (oldNumShards : Nat) (minerInfoDSComm : MinerInfoDSComm)
    (minerInfoShards : List MinerInfoShard)
    (h : assignAndPersist env st m oldNumShards minerInfoDSComm minerInfoShards
      = some (true, st')) :
    Event.PutDSCommittee st'.m_DSCommittee st'.m_consensusLeaderID_ds ∈ st'.events := by
  have key : ∀ stP : NodeState,
      persistCommittee env stP m minerInfoDSComm minerInfoShards = (true, st') →
      Event.PutDSCommittee st'.m_DSCommittee st'.m_consensusLeaderID_ds ∈ st'.events := by
    intro stP hp
    have hmem := mem_events_persistCommittee env stP m minerInfoDSComm minerInfoShards
    have hview := dsView_persistCommittee env stP m minerInfoDSComm minerInfoShards
    rw [hp] at hmem hview
    have h1 : st'.m_DSCommittee = stP.m_DSCommittee := congrArg (fun v => v.1) hview
    have h2 : st'.m_consensusLeaderID_ds = stP.m_consensusLeaderID_ds :=
      congrArg (fun v => v.2.1) hview
    rw [h1, h2]
    exact hmem
  unfold assignAndPersist at h
  split at h
  · split at h
    · cases h
    · cases h
    · injection h with h
      exact key _ h
  · injection h with h
    exact key _ h

/-- C7, as stated, fails.  In guard mode (three DS guards) the sample node
accepts the sample block, whose random-hash gives the seed 10, and ends with a
committee of four and the leader index 1, not 10 mod 4 = 2; at epoch 1 it
accepts the same block and ends with the leader index 0. -/
theorem C7_leader_not_seed_mod_size :
    (ProcessVCDSBlocksMessage sampleGuardEnv sampleState
        [1, 5, 2000, 10, 458, 52, 0, 1, 1, 1, 0] 0).map
      (fun r => (r.1, r.2.m_DSCommittee.length, r.2.m_consensusLeaderID_ds,
        claimedDSLeader sampleGuardEnv r.2)) = some (true, 4, 1, 2) ∧
    (ProcessVCDSBlocksMessage sampleEnv sampleStateEpochOne
        [1, 1, 2000, 10, 458, 48, 0, 1, 1, 1, 0] 0).map
      (fun r => (r.1, r.2.m_DSCommittee.length, r.2.m_consensusLeaderID_ds,
        claimedDSLeader sampleEnv r.2)) = some (true, 4, 0, 2) := by
  decide

/-- C7, amended.  After a run that returns true the DS leader index is
`s mod m`, where `s` is 0 when the epoch number is at most 1 and otherwise the
16-bit value of the random-hash of the last block of the DS chain, and `m`
is the size of the composed DS committee outside guard mode and the number
of DS guards in guard mode.  So outside guard mode and past epoch 1 it is the
claimed index; and 10 mod 4 is 2, 0 mod 5 is 0. -/
theorem C7_leader_index (env : Env) (st st' : NodeState) (message : zbytes) (cur_offset : Nat)
    (h : ProcessVCDSBlocksMessage env st message cur_offset = some (true, st')) :
    st'.m_consensusLeaderID_ds = dsLeaderSeed env st' % dsLeaderModulus env st' ∧
    dsLeaderSeed env st' =
      (if st'.m_currentEpochNum > 1 then
        env.charArrTo16Bits
          (env.GetHashForRandom (GetLastBlock st'.m_dsBlockChain env.dummyDSBlock).header)
          % 2 ^ 16
      else 0) ∧
    dsLeaderModulus env st' =
      (if env.GUARD_MODE then env.GetNumOfDSGuard else st'.m_DSCommittee.length) ∧
    (env.GUARD_MODE = false → 1 < st'.m_currentEpochNum →
      st'.m_consensusLeaderID_ds = claimedDSLeader env st') ∧
    umod 10 4 = some 2 ∧ umod 0 5 = some 0 := by
  have hmod := (umod_some _ _ _ (leader_after_run env st st' message cur_offset h)).2
  have hm : dsLeaderModulus env st' =
      (if env.GUARD_MODE then env.GetNumOfDSGuard else st'.m_DSCommittee.length) := by
    unfold dsLeaderModulus
    cases env.GUARD_MODE <;> rfl
  refine ⟨hmod, rfl, hm, ?_, by decide, by decide⟩
  intro hg he
  rw [hmod, hm, hg]
  unfold dsLeaderSeed claimedDSLeader
  rw [if_pos he]
  rfl

/-- The sample node, outside guard mode at epoch 5, accepts the sample block
(seed 10) and elects member 2 of its four-member committee. -/
theorem C7_leader_index_witness :
    (ProcessVCDSBlocksMessage sampleEnv sampleState
        [1, 5, 2000, 10, 458, 52, 0, 1, 1, 1, 0] 0).map
      (fun r => (r.1, r.2.m_consensusLeaderID_ds)) = some (true, 2) ∧
    ∃ st', ProcessVCDSBlocksMessage sampleEnv sampleState
        [1, 5, 2000, 10, 458, 52, 0, 1, 1, 1, 0] 0 = some (true, st') ∧
      st'.m_consensusLeaderID_ds = claimedDSLeader sampleEnv st' := by
  refine ⟨by decide, ?_⟩
  have hrun : ∃ st', ProcessVCDSBlocksMessage sampleEnv sampleState
      [1, 5, 2000, 10, 458, 52, 0, 1, 1, 1, 0] 0 = some (true, st') ∧
      1 < st'.m_currentEpochNum := ⟨_, rfl, by decide⟩
  obtain ⟨st', hst', hep⟩ := hrun
  exact ⟨st', hst', (C7_leader_index sampleEnv sampleState st' _ 0 hst').2.2.2.1 rfl hep⟩

/-- C8, as stated, fails in guard mode.  With five DS guards the sample node
with a three-member committee accepts a block whose seed is 4 and persists
the leader index 4 with a committee of three. -/
theorem C8_guard_leader_out_of_range :
    (ProcessVCDSBlocksMessage sampleFiveGuardsEnv sampleStateThree
        [1, 5, 2000, 4, 148, 52, 0, 1, 1, 1] 0).map
      (fun r => (r.1, r.2.m_DSCommittee.length, r.2.m_consensusLeaderID_ds,
        r.2.events.getLast?))
      = some (true, 3, 4,
          some (Event.PutDSCommittee [(21, 201), (11, 101), (12, 102)] 4)) := by
  decide

/-- C8, amended.  After a run that returns true the modulus of the leader
election was not zero, the DS leader index is below it, and that index is the
one passed to `PutDSCommittee` together with the composed committee.  Outside
guard mode the modulus is the size of the composed committee, so the index
is a valid committee index; in guard mode the modulus is the number of DS
guards, so the index is below the number of DS guards. -/
theorem C8_leader_below_modulus (env : Env) (st st' : NodeState) (message : zbytes)
    (cur_offset : Nat)
    (h : ProcessVCDSBlocksMessage env st message cur_offset = some (true, st')) :
    dsLeaderModulus env st' ≠ 0 ∧
    st'.m_consensusLeaderID_ds < dsLeaderModulus env st' ∧
    (env.GUARD_MODE = false → st'.m_consensusLeaderID_ds < st'.m_DSCommittee.length) ∧
    (env.GUARD_MODE = true → st'.m_consensusLeaderID_ds < env.GetNumOfDSGuard) ∧
    Event.PutDSCommittee st'.m_DSCommittee st'.m_consensusLeaderID_ds ∈ st'.events := by
  obtain ⟨hne, hmod⟩ := umod_some _ _ _ (leader_after_run env st st' message cur_offset h)
  have hlt : st'.m_consensusLeaderID_ds < dsLeaderModulus env st' := by
    rw [hmod]
    exact Nat.mod_lt _ (Nat.pos_of_ne_zero hne)
  have hpersist : Event.PutDSCommittee st'.m_DSCommittee st'.m_consensusLeaderID_ds ∈
      st'.events := by
    obtain ⟨m, stVC, _, _, _, _, _, happly⟩ :=
      ProcessVCDSBlocksMessage_true env st st' message cur_offset h
    obtain ⟨stE, info, shardsInfo, _, hrest⟩ := applyDSBlock_some env stVC st' m _ happly
    exact persisted_after_assignAndPersist env stE st' m _ info shardsInfo hrest
  refine ⟨hne, hlt, ?_, ?_, hpersist⟩
  · intro hg
    have hm : dsLeaderModulus env st' = st'.m_DSCommittee.length := by
      unfold dsLeaderModulus; rw [hg]; rfl
    rw [← hm]; exact hlt
  · intro hg
    have hm : dsLeaderModulus env st' = env.GetNumOfDSGuard := by
      unfold dsLeaderModulus; rw [hg]; rfl
    rw [← hm]; exact hlt

/-- The sample node accepts the sample block; its leader index 2 is below the
size 4 of its composed committee. -/
theorem C8_leader_below_modulus_witness :
    ∃ st', ProcessVCDSBlocksMessage sampleEnv sampleState
        [1, 5, 2000, 10, 458, 52, 0, 1, 1, 1, 0] 0 = some (true, st') ∧
      st'.m_consensusLeaderID_ds < st'.m_DSCommittee.length ∧
      Event.PutDSCommittee st'.m_DSCommittee st'.m_consensusLeaderID_ds ∈ st'.events := by
  have hrun : ∃ st', ProcessVCDSBlocksMessage sampleEnv sampleState
      [1, 5, 2000, 10, 458, 52, 0, 1, 1, 1, 0] 0 = some (true, st') := ⟨_, rfl⟩
  obtain ⟨st', hst'⟩ := hrun
  have h := C8_leader_below_modulus sampleEnv sampleState st' _ 0 hst'
  exact ⟨st', hst', h.2.2.1 rfl, h.2.2.2.2⟩

theorem ProcessVCDSBlocksMessage_stale (env : Env) (st : NodeState) (message : zbytes)
    (cur_offset : Nat) (m : VCDSBlocksMessage)
    (hval : validateMessage env st message cur_offset = some m)
    (hfresh : env.CheckWhetherBlockIsLatest st m.dsblock.header.blockNum
      m.dsblock.header.epochNum = false) :
    ProcessVCDSBlocksMessage env st message cur_offset
      = some (false, onStaleBlock env st m.dsblock) := by
  unfold ProcessVCDSBlocksMessage
  dsimp only
  rw [hval]
  dsimp only
  have hc : (!env.CheckWhetherBlockIsLatest st m.dsblock.header.blockNum
      m.dsblock.header.epochNum) = true := by rw [hfresh]; rfl
  rw [if_pos hc]

theorem validateMessage_decoded (env : Env) (st : NodeState) (message : zbytes)
    (cur_offset : Nat) (m : VCDSBlocksMessage)
    (hdec : env.GetNodeVCDSBlocksMessage message cur_offset = some m) :
    validateMessage env st message cur_offset = none ∨
    validateMessage env st message cur_offset = some m := by
  cases hval : validateMessage env st message cur_offset with
  | none => exact Or.inl rfl
  | some m1 =>
    have h := (validateMessage_some env st message cur_offset m1 hval).1
    rw [hdec] at h
    injection h with h
    subst h
    exact Or.inr rfl

/-- C9, as stated, fails.  A block that replays the tip number 0 of the
sample chain, otherwise valid and validly cosigned, is rejected by the sample
node (the call returns false).  If the freshness check is made to accept
every block, the call returns true and is not a no-op: the committee is
composed again from the tip's PoW winners and differs from the one on entry. -/
theorem C9_replay_not_a_successful_noop :
    (sampleEnv.GetNodeVCDSBlocksMessage [0, 5, 2000, 10, 458, 51, 0, 1, 1, 1, 0] 0).map
      (fun m => m.dsblock.header.blockNum)
      = some (GetLastBlock sampleState.m_dsBlockChain sampleEnv.dummyDSBlock).header.blockNum ∧
    ProcessVCDSBlocksMessage sampleEnv sampleState [0, 5, 2000, 10, 458, 51, 0, 1, 1, 1, 0] 0
      = some (false, sampleState) ∧
    (ProcessVCDSBlocksMessage sampleNoFreshnessEnv sampleState
        [0, 5, 2000, 10, 458, 51, 0, 1, 1, 1, 0] 0).map
      (fun r => (r.1, r.2.m_DSCommittee, decide (r.2.m_DSCommittee = sampleState.m_DSCommittee)))
      = some (true, [(14, 104), (11, 101), (12, 102), (13, 103)], false) := by
  decide

/-- C9, amended.  When the freshness check accepts only the block number one
above the chain tip (spec, section 3), a message whose DS block carries the
number of the current tip is rejected without effect: the call returns false
and the node state (DS chain, DS committee, DS mode, shard-leader flag and
trace of collaborator calls included) is the state on entry. -/
theorem C9_replay_rejected (env : Env) (st : NodeState) (message : zbytes) (cur_offset : Nat)
    (m : VCDSBlocksMessage)
    (hfresh : ∀ n e, env.CheckWhetherBlockIsLatest st n e = true →
      n = (GetLastBlock st.m_dsBlockChain env.dummyDSBlock).header.blockNum + 1)
    (hdec : env.GetNodeVCDSBlocksMessage message cur_offset = some m)
    (hreplay : m.dsblock.header.blockNum =
      (GetLastBlock st.m_dsBlockChain env.dummyDSBlock).header.blockNum)
    (htip : (GetLastBlock st.m_dsBlockChain env.dummyDSBlock).header.blockNum + 1 < 2 ^ 64) :
    ProcessVCDSBlocksMessage env st message cur_offset = some (false, st) := by
  rcases validateMessage_decoded env st message cur_offset m hdec with hval | hval
  · unfold ProcessVCDSBlocksMessage
    rw [hval]
  · have hf : env.CheckWhetherBlockIsLatest st m.dsblock.header.blockNum
        m.dsblock.header.epochNum = false := by
      cases hc : env.CheckWhetherBlockIsLatest st m.dsblock.header.blockNum
          m.dsblock.header.epochNum with
      | false => rfl
      | true =>
        have := hfresh _ _ hc
        omega
    rw [ProcessVCDSBlocksMessage_stale env st message cur_offset m hval hf]
    have hstale : onStaleBlock env st m.dsblock = st := by
      unfold onStaleBlock
      have hle : ¬ m.dsblock.header.blockNum >
          ((GetLastBlock st.m_dsBlockChain env.dummyDSBlock).header.blockNum + 1) % 2 ^ 64 := by
        rw [Nat.mod_eq_of_lt htip]
        omega
      rw [if_neg hle]
    rw [hstale]

/-- The sample node rejects the replay of its tip block number 0 and is left
as it was. -/
theorem C9_replay_rejected_witness :
    ProcessVCDSBlocksMessage sampleEnv sampleState [0, 5, 2000, 10, 458, 51, 0, 1, 1, 1, 0] 0
      = some (false, sampleState) := by
  have hdec : ∃ m, sampleEnv.GetNodeVCDSBlocksMessage
      [0, 5, 2000, 10, 458, 51, 0, 1, 1, 1, 0] 0 = some m ∧
      m.dsblock.header.blockNum =
        (GetLastBlock sampleState.m_dsBlockChain sampleEnv.dummyDSBlock).header.blockNum :=
    ⟨_, rfl, rfl⟩
  obtain ⟨m, hm, hnum⟩ := hdec
  refine C9_replay_rejected sampleEnv sampleState _ 0 m ?_ hm hnum (by decide)
  intro n e hc
  have hc' : (n == 0 + 1 && e == 5) = true := hc
  simp only [Bool.and_eq_true, beq_iff_eq] at hc'
  exact hc'.1

/-- C10, as stated, fails on a node that is not an archival lookup node.  The
sample node (a shard node) receives an otherwise valid block numbered 7 while
its tip is 0; the freshness check fails, the call returns false, and no
collaborator is called: no rejoin is initiated. -/
theorem C10_no_rejoin_on_normal_node :
    sampleEnv.LOOKUP_NODE_MODE = false ∧
    (validateMessage sampleEnv sampleState [7, 5, 2000, 10, 458, 58, 0, 1, 1, 1, 0] 0).map
      (fun m => (m.dsblock.header.blockNum,
        sampleEnv.CheckWhetherBlockIsLatest sampleState m.dsblock.header.blockNum
          m.dsblock.header.epochNum)) = some (7, false) ∧
    (GetLastBlock sampleState.m_dsBlockChain sampleEnv.dummyDSBlock).header.blockNum + 1 < 7 ∧
    ProcessVCDSBlocksMessage sampleEnv sampleState [7, 5, 2000, 10, 458, 58, 0, 1, 1, 1, 0] 0
      = some (false, sampleState) ∧
    sampleState.events = [] := by
  decide

/-- C10, amended.  When a DS block that passed the validation prefix fails
the freshness check and its number exceeds the chain tip by more than one, the
call returns false and leaves the node as on entry (the block is not added to
the chain), except that an archival lookup node (`LOOKUP_NODE_MODE` and
`ARCHIVAL_LOOKUP`), and only such a node, first calls
`RejoinAsNewLookup(false)`. -/
theorem C10_gap_rejected_rejoin_only_archival (env : Env) (st : NodeState) (message : zbytes)
    (cur_offset : Nat) (m : VCDSBlocksMessage)
    (hval : validateMessage env st message cur_offset = some m)
    (hfresh : env.CheckWhetherBlockIsLatest st m.dsblock.header.blockNum
      m.dsblock.header.epochNum = false)
    (hgap : (GetLastBlock st.m_dsBlockChain env.dummyDSBlock).header.blockNum + 1
      < m.dsblock.header.blockNum)
    (hnum : m.dsblock.header.blockNum < 2 ^ 64) :
    ProcessVCDSBlocksMessage env st message cur_offset =
      some (false,
        if env.LOOKUP_NODE_MODE && env.ARCHIVAL_LOOKUP then
          emit st (Event.RejoinAsNewLookup false)
        else st) ∧
    (∀ st', ProcessVCDSBlocksMessage env st message cur_offset = some (false, st') →
      st'.m_dsBlockChain = st.m_dsBlockChain ∧ st'.m_DSCommittee = st.m_DSCommittee ∧
      (Event.RejoinAsNewLookup false ∈ st'.events ↔
        (Event.RejoinAsNewLookup false ∈ st.events ∨
          (env.LOOKUP_NODE_MODE = true ∧ env.ARCHIVAL_LOOKUP = true)))) := by
  have hrun : ProcessVCDSBlocksMessage env st message cur_offset =
      some (false,
        if env.LOOKUP_NODE_MODE && env.ARCHIVAL_LOOKUP then
          emit st (Event.RejoinAsNewLookup false)
        else st) := by
    rw [ProcessVCDSBlocksMessage_stale env st message cur_offset m hval hfresh]
    unfold onStaleBlock
    have hgt : m.dsblock.header.blockNum >
        ((GetLastBlock st.m_dsBlockChain env.dummyDSBlock).header.blockNum + 1) % 2 ^ 64 := by
      rw [Nat.mod_eq_of_lt (by omega)]
      exact hgap
    rw [if_pos hgt]
  refine ⟨hrun, ?_⟩
  intro st' hst'
  rw [hrun] at hst'
  injection hst' with hst'
  injection hst' with _ hst'
  subst hst'
  by_cases hc : (env.LOOKUP_NODE_MODE && env.ARCHIVAL_LOOKUP) = true
  · rw [if_pos hc]
    have hc' : env.LOOKUP_NODE_MODE = true ∧ env.ARCHIVAL_LOOKUP = true := by
      simpa using hc
    refine ⟨rfl, rfl, ?_⟩
    constructor
    · intro _; exact Or.inr hc'
    · intro _; exact mem_events_emit_self _ _
  · rw [if_neg hc]
    have hc' : ¬ (env.LOOKUP_NODE_MODE = true ∧ env.ARCHIVAL_LOOKUP = true) := by
      simpa using hc
    refine ⟨rfl, rfl, ?_⟩
    constructor
    · intro hmem; exact Or.inl hmem
    · intro hor
      rcases hor with hmem | habs
      · exact hmem
      · exact absurd habs hc'

/-- An archival lookup node with the sample configuration receives block 7
at tip 0: the call returns false after `RejoinAsNewLookup(false)`. -/
theorem C10_gap_rejected_rejoin_only_archival_witness :
    ProcessVCDSBlocksMessage
        { sampleEnv with LOOKUP_NODE_MODE := true, ARCHIVAL_LOOKUP := true } sampleState
        [7, 5, 2000, 10, 458, 58, 0, 1, 1, 1, 0] 0
      = some (false, emit sampleState (Event.RejoinAsNewLookup false)) := by
  have hval : ∃ m, validateMessage
      { sampleEnv with LOOKUP_NODE_MODE := true, ARCHIVAL_LOOKUP := true } sampleState
      [7, 5, 2000, 10, 458, 58, 0, 1, 1, 1, 0] 0 = some m ∧
      m.dsblock.header.blockNum = 7 ∧ m.dsblock.header.epochNum = 5 := ⟨_, rfl, rfl, rfl⟩
  obtain ⟨m, hm, hnum, hep⟩ := hval
  have h := (C10_gap_rejected_rejoin_only_archival
    { sampleEnv with LOOKUP_NODE_MODE := true, ARCHIVAL_LOOKUP := true } sampleState _ 0 m hm
    (by rw [hnum, hep]; decide) (by rw [hnum]; decide) (by rw [hnum]; decide)).1
  exact h


/-! ### Frame lemmas for the role assignment -/

theorem memberView_emit (st : NodeState) (e : Event) : memberView (emit st e) = memberView st :=
  rfl

theorem memberView_ite (c : Prop) [Decidable c] (a b st : NodeState)
    (ha : memberView a = memberView st) (hb : memberView b = memberView st) :
    memberView (if c then a else b) = memberView st := by
  split <;> assumption

theorem memberView_UpdateGov (env : Env) (st : NodeState) :
    memberView (UpdateGovProposalRemainingVoteInfo env st) = memberView st := by
  unfold UpdateGovProposalRemainingVoteInfo
  refine memberView_ite _ _ _ _ ?_ rfl
  exact memberView_ite _ _ _ _ rfl rfl

theorem memberView_LoadShardingStructure (env : Env) (st : NodeState) (callByRetrieve : Bool) :
    memberView (LoadShardingStructure env st callByRetrieve).2 = memberView st := by
  unfold LoadShardingStructure
  by_cases h1 : env.LOOKUP_NODE_MODE = true
  · rw [if_pos h1]
  rw [if_neg h1]
  dsimp only
  by_cases h2 : st.m_myshardId ≥ st.m_shards_ds.length
  · rw [if_pos h2]; rfl
  rw [if_neg h2]
  split <;> rfl

theorem memberView_startFirstTxEpochReset (st : NodeState) :
    memberView (startFirstTxEpochReset st) = memberView st := by
  cases st; rfl

theorem memberView_startFirstTxEpochKickoff (env : Env) (st : NodeState) (fbWaitState : Bool) :
    memberView (startFirstTxEpochKickoff env st fbWaitState) = memberView st := by
  unfold startFirstTxEpochKickoff
  dsimp only
  refine memberView_ite _ _ _ _ ?_ ?_
  · show memberView (if _ then _ else _) = memberView st
    exact memberView_ite _ _ _ _ rfl rfl
  · show memberView (if _ then _ else _) = memberView st
    exact memberView_ite _ _ _ _ rfl rfl

theorem memberView_StartFirstTxEpoch (env : Env) (st st' : NodeState) (fbWaitState : Bool)
    (h : StartFirstTxEpoch env st fbWaitState = some st') : memberView st' = memberView st := by
  unfold StartFirstTxEpoch at h
  by_cases h1 : env.LOOKUP_NODE_MODE = true
  · rw [if_pos h1] at h; cases h; rfl
  rw [if_neg h1] at h
  dsimp only at h
  split at h
  · cases h
  · split at h
    · cases h
    · split at h
      · cases h
      · cases h
        rw [memberView_startFirstTxEpochKickoff, ← memberView_startFirstTxEpochReset st]
        generalize startFirstTxEpochReset st = st1
        cases st1; rfl

theorem memberView_forwardDSBlock (env : Env) (st : NodeState) (m : VCDSBlocksMessage) :
    memberView (forwardDSBlock env st m) = memberView st := by
  unfold forwardDSBlock
  refine memberView_ite _ _ _ _ ?_ rfl
  split
  · rfl
  · rfl

theorem memberView_becomeShardNode (env : Env) (st st' : NodeState) (m : VCDSBlocksMessage)
    (b : Bool) (h : becomeShardNode env st m = some (b, st')) :
    memberView st' = memberView st := by
  unfold becomeShardNode at h
  have hload := memberView_LoadShardingStructure env st false
  rcases hl : LoadShardingStructure env st false with ⟨ok, st1⟩
  rw [hl] at h hload
  cases ok with
  | false =>
    dsimp only at h
    cases h
    exact hload
  | true =>
    dsimp only at h hload
    split at h
    · cases h
    · rename_i st2 hstart
      cases h
      rw [memberView_StartFirstTxEpoch env _ _ false hstart, memberView_UpdateGov,
        memberView_forwardDSBlock, hload]

theorem memberView_stopMining (st : NodeState) : memberView (stopMining st) = memberView st := by
  cases st; rfl

theorem memberView_putDiagnosticData (env : Env) (st : NodeState) :
    memberView (putDiagnosticData env st) = memberView st := by
  unfold putDiagnosticData
  dsimp only
  refine memberView_ite _ _ _ _ ?_ ?_
  · rw [memberView_emit]; exact memberView_ite _ _ _ _ rfl rfl
  · exact memberView_ite _ _ _ _ rfl rfl

theorem memberView_archivalLookupStep (env : Env) (st : NodeState) (m : VCDSBlocksMessage) :
    memberView (archivalLookupStep env st m) = memberView st := by
  unfold archivalLookupStep
  refine memberView_ite _ _ _ _ ?_ rfl
  refine memberView_ite _ _ _ _ ?_ rfl
  dsimp only
  rw [memberView_emit]
  split <;> rfl

theorem memberView_lookupBookkeeping (env : Env) (st : NodeState) (m : VCDSBlocksMessage)
    (minerInfoDSComm : MinerInfoDSComm) (minerInfoShards : List MinerInfoShard) :
    memberView (lookupBookkeeping env st m minerInfoDSComm minerInfoShards).2
      = memberView st := by
  unfold lookupBookkeeping
  split
  · dsimp only
    split
    · rfl
    · split
      · rfl
      · dsimp only
        rw [memberView_putDiagnosticData]
        rfl
  · rfl

theorem memberView_persistCommittee (env : Env) (st : NodeState) (m : VCDSBlocksMessage)
    (minerInfoDSComm : MinerInfoDSComm) (minerInfoShards : List MinerInfoShard) :
    memberView (persistCommittee env st m minerInfoDSComm minerInfoShards).2
      = memberView st := by
  unfold persistCommittee
  dsimp only
  split
  · rfl
  · rw [memberView_lookupBookkeeping, memberView_archivalLookupStep]
    rfl

theorem shardView_startFirstTxEpochReset (st : NodeState) :
    shardView (startFirstTxEpochReset st) = shardView st := by
  cases st; rfl

theorem shardView_startFirstTxEpochKickoff (env : Env) (st : NodeState) (fbWaitState : Bool) :
    shardView (startFirstTxEpochKickoff env st fbWaitState) = shardView st := by
  unfold startFirstTxEpochKickoff
  dsimp only
  split
  · split <;> rfl
  · split <;> rfl

theorem findMyIndex_eq (selfKey : PubKey) :
    ∀ (dsComm : DequeOfNode) (dist : Nat),
      findMyIndex selfKey dsComm dist =
        if selfKey ∈ committeeKeys dsComm then
          some (dist + (committeeKeys dsComm).indexOf selfKey)
        else none := by
  intro dsComm
  induction dsComm with
  | nil => intro dist; simp [findMyIndex, committeeKeys]
  | cons kv rest ih =>
    intro dist
    unfold findMyIndex
    by_cases hkv : selfKey = kv.1
    · have hb : (selfKey == kv.1) = true := by simp [hkv]
      rw [if_pos hb]
      have hmem : selfKey ∈ committeeKeys (kv :: rest) := by
        simp [committeeKeys, hkv]
      rw [if_pos hmem]
      have hidx : (committeeKeys (kv :: rest)).indexOf selfKey = 0 := by
        unfold committeeKeys
        rw [List.map_cons]
        exact List.indexOf_cons_eq _ hkv.symm
      rw [hidx]
      rfl
    · have hb : ¬ (selfKey == kv.1) = true := by simp [hkv]
      rw [if_neg hb, ih]
      have hidx : (committeeKeys (kv :: rest)).indexOf selfKey =
          (committeeKeys rest).indexOf selfKey + 1 := by
        unfold committeeKeys
        rw [List.map_cons]
        exact List.indexOf_cons_ne _ (fun h => hkv h.symm)
      have hmem : selfKey ∈ committeeKeys (kv :: rest) ↔ selfKey ∈ committeeKeys rest := by
        unfold committeeKeys
        rw [List.map_cons, List.mem_cons]
        constructor
        · intro h
          rcases h with h | h
          · exact absurd h hkv
          · exact h
        · intro h; exact Or.inr h
      by_cases hm : selfKey ∈ committeeKeys rest
      · rw [if_pos hm, if_pos (hmem.mpr hm), hidx]
        congr 1
        omega
      · rw [if_neg hm, if_neg (fun h => hm (hmem.mp h))]

theorem becomeDSMember_accepted (env : Env) (st : NodeState) (dist : Nat)
    (hshard : (env.ProcessShardingStructure st.m_shards_ds st.m_publicKeyToshardIdMap_ds
      st.m_mapNodeReputation_ds).1 = true) :
    (becomeDSMember env st dist).1 = true ∧
    (becomeDSMember env st dist).2.m_mode_ds =
      (if st.m_consensusLeaderID_ds = dist % 2 ^ 16 then Mode.PRIMARY_DS else Mode.BACKUP_DS) ∧
    (becomeDSMember env st dist).2.m_consensusMyID_ds = dist % 2 ^ 16 ∧
    (becomeDSMember env st dist).2.m_selfKey = st.m_selfKey := by
  rcases hps : env.ProcessShardingStructure st.m_shards_ds st.m_publicKeyToshardIdMap_ds
      st.m_mapNodeReputation_ds with ⟨ok, idMap, repMap⟩
  rw [hps] at hshard
  dsimp only at hshard
  subst hshard
  have hb : becomeDSMember env st dist =
      (true, emit (UpdateGovProposalRemainingVoteInfo env
        { st with
          m_consensusMyID_ds := dist % 2 ^ 16
          m_publicKeyToshardIdMap_ds := idMap
          m_mapNodeReputation_ds := repMap
          m_mode_ds :=
            if st.m_consensusLeaderID_ds == dist % 2 ^ 16 then Mode.PRIMARY_DS
            else Mode.BACKUP_DS }) Event.DSStartFirstTxEpoch) := by
    unfold becomeDSMember
    dsimp only
    rw [hps]
  rw [hb]
  have hview := memberView_UpdateGov env
    { st with
      m_consensusMyID_ds := dist % 2 ^ 16
      m_publicKeyToshardIdMap_ds := idMap
      m_mapNodeReputation_ds := repMap
      m_mode_ds :=
        if st.m_consensusLeaderID_ds == dist % 2 ^ 16 then Mode.PRIMARY_DS
        else Mode.BACKUP_DS }
  unfold memberView at hview
  simp only [Prod.mk.injEq] at hview
  obtain ⟨h1, h2, h3⟩ := hview
  refine ⟨rfl, ?_, ?_, ?_⟩
  · show (UpdateGovProposalRemainingVoteInfo env _).m_mode_ds = _
    rw [h3]
    by_cases hc : st.m_consensusLeaderID_ds = dist % 2 ^ 16
    · simp [hc]
    · simp [hc]
  · show (UpdateGovProposalRemainingVoteInfo env _).m_consensusMyID_ds = _
    rw [h2]
  · show (UpdateGovProposalRemainingVoteInfo env _).m_selfKey = _
    rw [h1]

theorem becomeDSMember_rejected (env : Env) (st : NodeState) (dist : Nat)
    (hshard : (env.ProcessShardingStructure st.m_shards_ds st.m_publicKeyToshardIdMap_ds
      st.m_mapNodeReputation_ds).1 = false) :
    (becomeDSMember env st dist).1 = false := by
  rcases hps : env.ProcessShardingStructure st.m_shards_ds st.m_publicKeyToshardIdMap_ds
      st.m_mapNodeReputation_ds with ⟨ok, idMap, repMap⟩
  rw [hps] at hshard
  dsimp only at hshard
  subst hshard
  unfold becomeDSMember
  dsimp only
  rw [hps]

theorem mode_iff_of_eq (mode : Mode) (leader myID : Nat)
    (h : mode = if leader = myID then Mode.PRIMARY_DS else Mode.BACKUP_DS) :
    (mode = Mode.PRIMARY_DS ↔ leader = myID) ∧ (mode = Mode.BACKUP_DS ↔ leader ≠ myID) := by
  by_cases hc : leader = myID
  · rw [if_pos hc] at h
    subst h
    exact ⟨⟨fun _ => hc, fun _ => rfl⟩, ⟨fun h => (by cases h), fun h => absurd hc h⟩⟩
  · rw [if_neg hc] at h
    subst h
    exact ⟨⟨fun h => (by cases h), fun h => absurd h hc⟩, ⟨fun _ => hc, fun _ => rfl⟩⟩

theorem assignRole_member (env : Env) (st : NodeState) (m : VCDSBlocksMessage)
    (hmem : st.m_selfKey ∈ committeeKeys st.m_DSCommittee) :
    assignRole env st m =
      some (becomeDSMember env (stopMining st)
        ((committeeKeys st.m_DSCommittee).indexOf st.m_selfKey)) := by
  unfold assignRole
  dsimp only
  have h1 : (stopMining st).m_selfKey = st.m_selfKey := by cases st; rfl
  have h2 : (stopMining st).m_DSCommittee = st.m_DSCommittee := by cases st; rfl
  rw [h1, h2, findMyIndex_eq, if_pos hmem, Nat.zero_add]

theorem assignRole_not_member (env : Env) (st : NodeState) (m : VCDSBlocksMessage)
    (hmem : st.m_selfKey ∉ committeeKeys st.m_DSCommittee) :
    assignRole env st m = becomeShardNode env (stopMining st) m := by
  unfold assignRole
  dsimp only
  have h1 : (stopMining st).m_selfKey = st.m_selfKey := by cases st; rfl
  have h2 : (stopMining st).m_DSCommittee = st.m_DSCommittee := by cases st; rfl
  rw [h1, h2, findMyIndex_eq, if_neg hmem]

/-- The state after `assignRole` took the DS-member path with sharding
structure processing accepted: mode, own index and leader index. -/
theorem assignRole_member_accepted (env : Env) (st : NodeState) (m : VCDSBlocksMessage)
    (hmem : st.m_selfKey ∈ committeeKeys st.m_DSCommittee)
    (hshard : (env.ProcessShardingStructure st.m_shards_ds st.m_publicKeyToshardIdMap_ds
      st.m_mapNodeReputation_ds).1 = true) :
    ∃ stR, assignRole env st m = some (true, stR) ∧
      stR.m_mode_ds = (if stR.m_consensusLeaderID_ds = stR.m_consensusMyID_ds
        then Mode.PRIMARY_DS else Mode.BACKUP_DS) ∧
      stR.m_consensusMyID_ds = (committeeKeys st.m_DSCommittee).indexOf st.m_selfKey % 2 ^ 16 ∧
      dsView stR = dsView st ∧ stR.m_selfKey = st.m_selfKey := by
  have h3 : (stopMining st).m_shards_ds = st.m_shards_ds := by cases st; rfl
  have h4 : (stopMining st).m_publicKeyToshardIdMap_ds = st.m_publicKeyToshardIdMap_ds := by
    cases st; rfl
  have h5 : (stopMining st).m_mapNodeReputation_ds = st.m_mapNodeReputation_ds := by
    cases st; rfl
  have h6 : (stopMining st).m_selfKey = st.m_selfKey := by cases st; rfl
  have hshard' : (env.ProcessShardingStructure (stopMining st).m_shards_ds
      (stopMining st).m_publicKeyToshardIdMap_ds (stopMining st).m_mapNodeReputation_ds).1
      = true := by rw [h3, h4, h5]; exact hshard
  obtain ⟨hb, hmode, hid, hself⟩ := becomeDSMember_accepted env (stopMining st)
    ((committeeKeys st.m_DSCommittee).indexOf st.m_selfKey) hshard'
  have hview := dsView_becomeDSMember env (stopMining st)
    ((committeeKeys st.m_DSCommittee).indexOf st.m_selfKey)
  rw [dsView_stopMining] at hview
  have hlead : (becomeDSMember env (stopMining st)
      ((committeeKeys st.m_DSCommittee).indexOf st.m_selfKey)).2.m_consensusLeaderID_ds
      = (stopMining st).m_consensusLeaderID_ds := by
    have := congrArg (fun v => v.2.1) (dsView_becomeDSMember env (stopMining st)
      ((committeeKeys st.m_DSCommittee).indexOf st.m_selfKey))
    exact this
  refine ⟨(becomeDSMember env (stopMining st)
    ((committeeKeys st.m_DSCommittee).indexOf st.m_selfKey)).2, ?_, ?_, hid, hview, ?_⟩
  · rw [assignRole_member env st m hmem, ← hb]
  · rw [hmode, hlead, hid]
  · rw [hself, h6]

theorem assignAndPersist_of_role (env : Env) (st stR : NodeState) (m : VCDSBlocksMessage)
    (oldNumShards : Nat) (minerInfoDSComm : MinerInfoDSComm)
    (minerInfoShards : List MinerInfoShard) (ok : Bool)
    (hlookup : env.LOOKUP_NODE_MODE = false)
    (hrole : assignRole env st m = some (ok, stR)) :
    assignAndPersist env st m oldNumShards minerInfoDSComm minerInfoShards =
      if ok then some (persistCommittee env stR m minerInfoDSComm minerInfoShards)
      else some (false, stR) := by
  unfold assignAndPersist
  have hc : (!env.LOOKUP_NODE_MODE) = true := by rw [hlookup]; rfl
  rw [if_pos hc, hrole]
  cases ok <;> rfl

theorem assignAndPersist_true (env : Env) (st st' : NodeState) (m : VCDSBlocksMessage)
    (oldNumShards : Nat) (minerInfoDSComm : MinerInfoDSComm)
    (minerInfoShards : List MinerInfoShard)
    (hlookup : env.LOOKUP_NODE_MODE = false)
    (h : assignAndPersist env st m oldNumShards minerInfoDSComm minerInfoShards
      = some (true, st')) :
    ∃ stR, assignRole env st m = some (true, stR) ∧
      persistCommittee env stR m minerInfoDSComm minerInfoShards = (true, st') := by
  cases hrole : assignRole env st m with
  | none =>
    unfold assignAndPersist at h
    have hc : (!env.LOOKUP_NODE_MODE) = true := by rw [hlookup]; rfl
    rw [if_pos hc, hrole] at h
    cases h
  | some r =>
    obtain ⟨ok, stR⟩ := r
    rw [assignAndPersist_of_role env st stR m oldNumShards minerInfoDSComm minerInfoShards ok
      hlookup hrole] at h
    cases ok with
    | false =>
      rw [if_neg (by simp)] at h
      injection h with h
      injection h with h1 _
      cases h1
    | true =>
      rw [if_pos rfl] at h
      injection h with h
      exact ⟨stR, rfl, h⟩

/-- C11. On a node that is not a lookup node and whose key is in the composed
DS committee: (1) from the state the leader election left, once
`ProcessShardingStructure` has accepted the sharding structure, lines 620-828
return with the DS mode `PRIMARY_DS` exactly when the elected leader index
equals the node's own consensus index and `BACKUP_DS` exactly when it does
not, the leader index being the elected one; (2) the same holds of the state
after every call of `ProcessVCDSBlocksMessage` that returns true.  No other
mode results. -/
theorem C11_ds_mode_by_leader_index (env : Env) (hlookup : env.LOOKUP_NODE_MODE = false) :
    (∀ (st : NodeState) (m : VCDSBlocksMessage) (oldNumShards : Nat)
        (minerInfoDSComm : MinerInfoDSComm) (minerInfoShards : List MinerInfoShard),
      st.m_selfKey ∈ committeeKeys st.m_DSCommittee →
      (env.ProcessShardingStructure st.m_shards_ds st.m_publicKeyToshardIdMap_ds
        st.m_mapNodeReputation_ds).1 = true →
      ∃ b st', assignAndPersist env st m oldNumShards minerInfoDSComm minerInfoShards
          = some (b, st') ∧
        st'.m_consensusLeaderID_ds = st.m_consensusLeaderID_ds ∧
        (st'.m_mode_ds = Mode.PRIMARY_DS ↔
          st'.m_consensusLeaderID_ds = st'.m_consensusMyID_ds) ∧
        (st'.m_mode_ds = Mode.BACKUP_DS ↔
          st'.m_consensusLeaderID_ds ≠ st'.m_consensusMyID_ds)) ∧
    (∀ (st st' : NodeState) (message : zbytes) (cur_offset : Nat),
      ProcessVCDSBlocksMessage env st message cur_offset = some (true, st') →
      st'.m_selfKey ∈ committeeKeys st'.m_DSCommittee →
      (st'.m_mode_ds = Mode.PRIMARY_DS ↔
        st'.m_consensusLeaderID_ds = st'.m_consensusMyID_ds) ∧
      (st'.m_mode_ds = Mode.BACKUP_DS ↔
        st'.m_consensusLeaderID_ds ≠ st'.m_consensusMyID_ds)) := by
  have part1 : ∀ (st : NodeState) (m : VCDSBlocksMessage) (oldNumShards : Nat)
      (minerInfoDSComm : MinerInfoDSComm) (minerInfoShards : List MinerInfoShard),
      st.m_selfKey ∈ committeeKeys st.m_DSCommittee →
      (env.ProcessShardingStructure st.m_shards_ds st.m_publicKeyToshardIdMap_ds
        st.m_mapNodeReputation_ds).1 = true →
      ∃ b st', assignAndPersist env st m oldNumShards minerInfoDSComm minerInfoShards
          = some (b, st') ∧
        st'.m_consensusLeaderID_ds = st.m_consensusLeaderID_ds ∧
        (st'.m_mode_ds = Mode.PRIMARY_DS ↔
          st'.m_consensusLeaderID_ds = st'.m_consensusMyID_ds) ∧
        (st'.m_mode_ds = Mode.BACKUP_DS ↔
          st'.m_consensusLeaderID_ds ≠ st'.m_consensusMyID_ds) := by
    intro st m oldNumShards minerInfoDSComm minerInfoShards hmem hshard
    obtain ⟨stR, hrole, hmode, _, hview, _⟩ := assignRole_member_accepted env st m hmem hshard
    have hmv := memberView_persistCommittee env stR m minerInfoDSComm minerInfoShards
    have hdv := dsView_persistCommittee env stR m minerInfoDSComm minerInfoShards
    have hmyid : (persistCommittee env stR m minerInfoDSComm minerInfoShards).2.m_consensusMyID_ds
        = stR.m_consensusMyID_ds := congrArg (fun v => v.2.1) hmv
    have hmd : (persistCommittee env stR m minerInfoDSComm minerInfoShards).2.m_mode_ds
        = stR.m_mode_ds := congrArg (fun v => v.2.2) hmv
    have hld : (persistCommittee env stR m minerInfoDSComm minerInfoShards).2.m_consensusLeaderID_ds
        = stR.m_consensusLeaderID_ds := congrArg (fun v => v.2.1) hdv
    have hldR : stR.m_consensusLeaderID_ds = st.m_consensusLeaderID_ds :=
      congrArg (fun v => v.2.1) hview
    refine ⟨(persistCommittee env stR m minerInfoDSComm minerInfoShards).1,
      (persistCommittee env stR m minerInfoDSComm minerInfoShards).2, ?_, ?_, ?_⟩
    · rw [assignAndPersist_of_role env st stR m oldNumShards minerInfoDSComm minerInfoShards
        true hlookup hrole, if_pos rfl]
    · rw [hld, hldR]
    · rw [hmd, hld, hmyid]
      exact mode_iff_of_eq _ _ _ hmode
  refine ⟨part1, ?_⟩
  intro st st' message cur_offset hrun hmem'
  obtain ⟨m, stVC, _, _, _, _, _, happly⟩ :=
    ProcessVCDSBlocksMessage_true env st st' message cur_offset hrun
  obtain ⟨stE, info, shardsInfo, _, hrest⟩ := applyDSBlock_some env stVC st' m _ happly
  obtain ⟨stR, hrole, hpersist⟩ :=
    assignAndPersist_true env stE st' m _ info shardsInfo hlookup hrest
  have hmv := memberView_persistCommittee env stR m info shardsInfo
  have hdv := dsView_assignAndPersist env stE st' m _ info shardsInfo true hrest
  rw [hpersist] at hmv
  have hcomm : st'.m_DSCommittee = stE.m_DSCommittee := congrArg (fun v => v.1) hdv
  by_cases hmemE : stE.m_selfKey ∈ committeeKeys stE.m_DSCommittee
  · cases hsh : (env.ProcessShardingStructure stE.m_shards_ds stE.m_publicKeyToshardIdMap_ds
        stE.m_mapNodeReputation_ds).1 with
    | false =>
      exfalso
      have h3 : (stopMining stE).m_shards_ds = stE.m_shards_ds := by cases stE; rfl
      have h4 : (stopMining stE).m_publicKeyToshardIdMap_ds = stE.m_publicKeyToshardIdMap_ds := by
        cases stE; rfl
      have h5 : (stopMining stE).m_mapNodeReputation_ds = stE.m_mapNodeReputation_ds := by
        cases stE; rfl
      have hrej := becomeDSMember_rejected env (stopMining stE)
        ((committeeKeys stE.m_DSCommittee).indexOf stE.m_selfKey)
        (by rw [h3, h4, h5]; exact hsh)
      rw [assignRole_member env stE m hmemE] at hrole
      injection hrole with hrole
      rw [hrole] at hrej
      cases hrej
    | true =>
      obtain ⟨b, st'', heq, _, hp, hb⟩ := part1 stE m st.m_shards_ds.length info shardsInfo
        hmemE hsh
      rw [hrest] at heq
      injection heq with heq
      injection heq with _ heq
      subst heq
      exact ⟨hp, hb⟩
  · exfalso
    rw [assignRole_not_member env stE m hmemE] at hrole
    have hv := memberView_becomeShardNode env (stopMining stE) stR m true hrole
    rw [memberView_stopMining] at hv
    have hself : st'.m_selfKey = stE.m_selfKey := by
      have h1 : st'.m_selfKey = stR.m_selfKey := congrArg (fun v => v.1) hmv
      have h2 : stR.m_selfKey = stE.m_selfKey := congrArg (fun v => v.1) hv
      rw [h1, h2]
    rw [hself, hcomm] at hmem'
    exact hmemE hmem'

/-- The sample node with key 12 becomes DS leader: its index 2 in the composed
committee is the elected leader index. -/
theorem C11_ds_mode_by_leader_index_witness :
    sampleEnv.LOOKUP_NODE_MODE = false ∧
    ∃ st', ProcessVCDSBlocksMessage sampleEnv sampleStateMember
        [1, 5, 2000, 10, 458, 52, 0, 1, 1, 1, 0] 0 = some (true, st') ∧
      st'.m_consensusLeaderID_ds = 2 ∧ st'.m_consensusMyID_ds = 2 ∧
      (st'.m_mode_ds = Mode.PRIMARY_DS ↔
        st'.m_consensusLeaderID_ds = st'.m_consensusMyID_ds) := by
  refine ⟨rfl, ?_⟩
  have hrun : ∃ st', ProcessVCDSBlocksMessage sampleEnv sampleStateMember
      [1, 5, 2000, 10, 458, 52, 0, 1, 1, 1, 0] 0 = some (true, st') ∧
      st'.m_consensusLeaderID_ds = 2 ∧ st'.m_consensusMyID_ds = 2 ∧
      st'.m_selfKey ∈ committeeKeys st'.m_DSCommittee :=
    ⟨_, rfl, rfl, rfl, by decide⟩
  obtain ⟨st', hst', hl, hm, hmem⟩ := hrun
  exact ⟨st', hst', hl, hm,
    ((C11_ds_mode_by_leader_index sampleEnv rfl).2 sampleStateMember st' _ 0 hst' hmem).1⟩

theorem becomeDSMember_myID (env : Env) (st : NodeState) (dist : Nat) :
    (becomeDSMember env st dist).2.m_consensusMyID_ds = dist % 2 ^ 16 := by
  cases hsh : (env.ProcessShardingStructure st.m_shards_ds st.m_publicKeyToshardIdMap_ds
      st.m_mapNodeReputation_ds).1 with
  | true => exact (becomeDSMember_accepted env st dist hsh).2.2.1
  | false =>
    rcases hps : env.ProcessShardingStructure st.m_shards_ds st.m_publicKeyToshardIdMap_ds
        st.m_mapNodeReputation_ds with ⟨ok, idMap, repMap⟩
    rw [hps] at hsh
    dsimp only at hsh
    subst hsh
    have hb : becomeDSMember env st dist =
        (false, { st with
          m_consensusMyID_ds := dist % 2 ^ 16
          m_publicKeyToshardIdMap_ds := idMap
          m_mapNodeReputation_ds := repMap }) := by
      unfold becomeDSMember
      dsimp only
      rw [hps]
    rw [hb]

/-- C12. On a node that is not a lookup node (`assignRole` is the branch of
such a node) and for a composed DS committee of fewer than 2^16 members: if
the node's key occurs in the committee, the DS-member path is taken with the
position of the first occurrence of the key, and that position is the
consensus index recorded; if it does not occur, the shard-node path is taken
and the DS consensus index stays as it was. -/
theorem C12_role_lookup_by_membership (env : Env) (st : NodeState) (m : VCDSBlocksMessage)
    (hlen : st.m_DSCommittee.length < 2 ^ 16) :
    (st.m_selfKey ∈ committeeKeys st.m_DSCommittee →
      assignRole env st m =
        some (becomeDSMember env (stopMining st)
          ((committeeKeys st.m_DSCommittee).indexOf st.m_selfKey)) ∧
      (becomeDSMember env (stopMining st)
          ((committeeKeys st.m_DSCommittee).indexOf st.m_selfKey)).2.m_consensusMyID_ds
        = (committeeKeys st.m_DSCommittee).indexOf st.m_selfKey) ∧
    (st.m_selfKey ∉ committeeKeys st.m_DSCommittee →
      assignRole env st m = becomeShardNode env (stopMining st) m ∧
      ∀ b st', assignRole env st m = some (b, st') →
        st'.m_consensusMyID_ds = st.m_consensusMyID_ds) := by
  constructor
  · intro hmem
    refine ⟨assignRole_member env st m hmem, ?_⟩
    rw [becomeDSMember_myID]
    apply Nat.mod_eq_of_lt
    have hlt : (committeeKeys st.m_DSCommittee).indexOf st.m_selfKey
        < (committeeKeys st.m_DSCommittee).length := List.indexOf_lt_length.mpr hmem
    have hl : (committeeKeys st.m_DSCommittee).length = st.m_DSCommittee.length := by
      unfold committeeKeys; exact List.length_map _ _
    omega
  · intro hmem
    refine ⟨assignRole_not_member env st m hmem, ?_⟩
    intro b st' hrole
    rw [assignRole_not_member env st m hmem] at hrole
    have hv := memberView_becomeShardNode env (stopMining st) st' m b hrole
    rw [memberView_stopMining] at hv
    exact congrArg (fun v => v.2.1) hv

/-- In the committee 21, 11, 12, 13 the sample node with key 12 takes the
DS-member path with index 2; the sample node with key 98 takes the shard
path and keeps its DS consensus index. -/
theorem C12_role_lookup_by_membership_witness :
    ({ sampleStateMember with m_DSCommittee := [(21, 201), (11, 101), (12, 102), (13, 103)] }
      : NodeState).m_DSCommittee.length < 2 ^ 16 ∧
    (becomeDSMember sampleEnv
      (stopMining { sampleStateMember with
        m_DSCommittee := [(21, 201), (11, 101), (12, 102), (13, 103)] })
      ((committeeKeys [(21, 201), (11, 101), (12, 102), (13, 103)]).indexOf 12)).2.m_consensusMyID_ds
      = 2 :=
  ⟨by decide,
    ((C12_role_lookup_by_membership sampleEnv
      { sampleStateMember with m_DSCommittee := [(21, 201), (11, 101), (12, 102), (13, 103)] }
      { shardId := 0, dsblock := sampleTip, vcBlocks := [], shardingStructureVersion := 1,
        t_shards := sampleShards } (by decide)).1 (by decide)).2⟩

/-- The member list `LoadShardingStructure` builds from a shard: the keys in
shard order, the peer zeroed at entries carrying the node's own key. -/
theorem shardLoop_foldl (selfKey : PubKey) (shard : Shard) :
    ∀ acc : ShardLoop,
      (shard.foldl (shardLoopStep selfKey) acc).index = acc.index + shard.length ∧
      (shard.foldl (shardLoopStep selfKey) acc).members =
        acc.members ++
          shard.map (fun node => (node.pubKey, if selfKey == node.pubKey then 0 else node.peer)) ∧
      (shard.foldl (shardLoopStep selfKey) acc).foundMe =
        (acc.foundMe || decide (selfKey ∈ shardKeys shard)) ∧
      (selfKey ∉ shardKeys shard →
        (shard.foldl (shardLoopStep selfKey) acc).consensusMyID = acc.consensusMyID) ∧
      ((shardKeys shard).Nodup → selfKey ∈ shardKeys shard →
        (shard.foldl (shardLoopStep selfKey) acc).consensusMyID =
          acc.index + (shardKeys shard).indexOf selfKey) := by
  induction shard with
  | nil =>
    intro acc
    simp [shardKeys]
  | cons node rest ih =>
    intro acc
    rw [List.foldl_cons]
    obtain ⟨hi, hm, hf, hnot, hin⟩ := ih (shardLoopStep selfKey acc node)
    have hkeys : shardKeys (node :: rest) = node.pubKey :: shardKeys rest := rfl
    by_cases hk : selfKey = node.pubKey
    · have hstep : shardLoopStep selfKey acc node =
          { index := acc.index + 1, foundMe := true,
            members := acc.members ++ [(node.pubKey, 0)], consensusMyID := acc.index } := by
        unfold shardLoopStep
        rw [if_pos (by simp [hk])]
      rw [hstep] at hi hm hf hnot hin ⊢
      dsimp only at hi hm hf hnot hin
      refine ⟨?_, ?_, ?_, ?_, ?_⟩
      · rw [hi, List.length_cons]; omega
      · rw [hm, List.map_cons, List.append_assoc]
        simp [hk]
      · rw [hf, hkeys]
        simp [hk]
      · intro hnm
        exfalso
        apply hnm
        rw [hkeys, hk]
        exact List.mem_cons_self _ _
      · intro hnd _
        rw [hkeys] at hnd
        have hnr : selfKey ∉ shardKeys rest := by
          rw [hk]
          exact (List.nodup_cons.mp hnd).1
        rw [hnot hnr, hkeys, List.indexOf_cons_eq _ hk.symm]
        rfl
    · have hstep : shardLoopStep selfKey acc node =
          { acc with index := acc.index + 1,
                     members := acc.members ++ [(node.pubKey, node.peer)] } := by
        unfold shardLoopStep
        rw [if_neg (by simp [hk])]
      rw [hstep] at hi hm hf hnot hin ⊢
      dsimp only at hi hm hf hnot hin
      refine ⟨?_, ?_, ?_, ?_, ?_⟩
      · rw [hi, List.length_cons]; omega
      · rw [hm, List.map_cons, List.append_assoc]
        simp [hk]
      · rw [hf, hkeys]
        simp [hk]
      · intro hnm
        apply hnot
        intro hmem
        apply hnm
        rw [hkeys]
        exact List.mem_cons_of_mem _ hmem
      · intro hnd hmem
        rw [hkeys] at hnd hmem
        have hmr : selfKey ∈ shardKeys rest := by
          rcases List.mem_cons.mp hmem with h | h
          · exact absurd h hk
          · exact h
        rw [hin (List.nodup_cons.mp hnd).2 hmr, hkeys,
          List.indexOf_cons_ne _ (fun h => hk h.symm)]
        omega

/-- What `LoadShardingStructure` leaves on a node that is not a lookup node
and whose shard id names the shard `shard`. -/
theorem LoadShardingStructure_shard (env : Env) (st : NodeState) (callByRetrieve : Bool)
    (shard : Shard) (hlookup : env.LOOKUP_NODE_MODE = false)
    (hshard : st.m_shards_ds.get? st.m_myshardId = some shard) :
    (LoadShardingStructure env st callByRetrieve).1 =
      (decide (st.m_selfKey ∈ shardKeys shard) || callByRetrieve) ∧
    (LoadShardingStructure env st callByRetrieve).2.m_selfKey = st.m_selfKey ∧
    (LoadShardingStructure env st callByRetrieve).2.m_myShardMembers =
      shard.map (fun node =>
        (node.pubKey, if st.m_selfKey == node.pubKey then 0 else node.peer)) ∧
    ((shardKeys shard).Nodup → st.m_selfKey ∈ shardKeys shard →
      (LoadShardingStructure env st callByRetrieve).2.m_consensusMyID =
        (shardKeys shard).indexOf st.m_selfKey) := by
  have hlt : st.m_myshardId < st.m_shards_ds.length := by
    rcases Nat.lt_or_ge st.m_myshardId st.m_shards_ds.length with h | h
    · exact h
    · rw [List.get?_eq_none.mpr h] at hshard
      cases hshard
  have hget : st.m_shards_ds.getD st.m_myshardId [] = shard := by
    rw [List.getD_eq_getElem?_getD, ← List.get?_eq_getElem?, hshard]
    rfl
  obtain ⟨_, hm, hf, _, hin⟩ := shardLoop_foldl st.m_selfKey shard
    { index := 0, foundMe := false, members := [], consensusMyID := st.m_consensusMyID }
  dsimp only at hm hf hin
  unfold LoadShardingStructure
  rw [if_neg (by rw [hlookup]; simp)]
  dsimp only
  rw [if_neg (by omega), hget]
  by_cases hc : (!(shard.foldl (shardLoopStep st.m_selfKey)
      { index := 0, foundMe := false, members := [],
        consensusMyID := st.m_consensusMyID }).foundMe && !callByRetrieve) = true
  · rw [if_pos hc]
    rw [hf] at hc
    refine ⟨?_, rfl, ?_, ?_⟩
    · show false = _
      revert hc
      cases decide (st.m_selfKey ∈ shardKeys shard) <;> cases callByRetrieve <;> simp
    · exact hm
    · intro hnd hmem
      have hidx := hin hnd hmem
      rw [Nat.zero_add] at hidx
      exact hidx
  · rw [if_neg hc]
    rw [hf] at hc
    refine ⟨?_, rfl, ?_, ?_⟩
    · show true = _
      revert hc
      cases decide (st.m_selfKey ∈ shardKeys shard) <;> cases callByRetrieve <;> simp
    · exact hm
    · intro hnd hmem
      have hidx := hin hnd hmem
      rw [Nat.zero_add] at hidx
      exact hidx

/-- What a returning `StartFirstTxEpoch` leaves on a node that is not a lookup
node: the leader index it computed is a valid index of the member list, and
the leader flag compares the node's key with the key at that index. -/
theorem StartFirstTxEpoch_some (env : Env) (st st' : NodeState) (fbWaitState : Bool)
    (hlookup : env.LOOKUP_NODE_MODE = false)
    (h : StartFirstTxEpoch env st fbWaitState = some st') :
    ∃ leader,
      shardLeaderID env (startFirstTxEpochReset st) (shardLeaderSeed env (startFirstTxEpochReset st))
        = some st'.m_consensusLeaderID ∧
      st.m_myShardMembers.get? st'.m_consensusLeaderID = some leader ∧
      st'.m_isPrimary = (st.m_selfKey == leader.1) ∧
      st'.m_myShardMembers = st.m_myShardMembers ∧
      st'.m_consensusMyID = st.m_consensusMyID ∧
      st'.m_selfKey = st.m_selfKey := by
  have hreset := shardView_startFirstTxEpochReset st
  unfold shardView at hreset
  simp only [Prod.mk.injEq] at hreset
  obtain ⟨hr1, hr2, hr3, _, _⟩ := hreset
  unfold StartFirstTxEpoch at h
  rw [if_neg (by rw [hlookup]; simp)] at h
  dsimp only at h
  generalize hst1 : startFirstTxEpochReset st = st1 at h hr1 hr2 hr3
  cases hl : shardLeaderID env st1 (shardLeaderSeed env st1) with
  | none => rw [hl] at h; cases h
  | some leaderID =>
    rw [hl] at h
    dsimp only at h
    cases hc : umod (GetBlockCount st1.m_txBlockChain) env.NUM_FINAL_BLOCK_PER_POW with
    | none => rw [hc] at h; cases h
    | some consensusID =>
      rw [hc] at h
      dsimp only at h
      cases hg : st1.m_myShardMembers.get? leaderID with
      | none => rw [hg] at h; cases h
      | some leader =>
        rw [hg] at h
        dsimp only at h
        injection h with h
        have hk := shardView_startFirstTxEpochKickoff env
          { st1 with m_consensusLeaderID := leaderID, m_consensusID := consensusID,
                     m_isPrimary := (st1.m_selfKey == leader.1) } fbWaitState
        rw [h] at hk
        unfold shardView at hk
        simp only [Prod.mk.injEq] at hk
        obtain ⟨hk1, hk2, hk3, hk4, hk5⟩ := hk
        refine ⟨leader, ?_, ?_, ?_, ?_, ?_, ?_⟩
        · rw [hk4]
        · rw [hk4, ← hr2]; exact hg
        · rw [hk5, hr1]
        · rw [hk2, hr2]
        · rw [hk3, hr3]
        · rw [hk1, hr1]

theorem key_at_index_iff (keys : List PubKey) (selfKey key : PubKey) (i : Nat)
    (hnodup : keys.Nodup) (hmem : selfKey ∈ keys) (hget : keys.get? i = some key) :
    selfKey = key ↔ i = keys.indexOf selfKey := by
  have hi : i < keys.length := by
    rcases Nat.lt_or_ge i keys.length with h | h
    · exact h
    · rw [List.get?_eq_none.mpr h] at hget
      cases hget
  have hkey : keys[i] = key := by
    rw [List.get?_eq_getElem?, List.getElem?_eq_getElem hi] at hget
    injection hget
  constructor
  · intro h
    rw [h, ← hkey]
    exact (List.indexOf_getElem hnodup i hi).symm
  · intro h
    have hlt : keys.indexOf selfKey < keys.length := List.indexOf_lt_length.mpr hmem
    have hself : keys[keys.indexOf selfKey] = selfKey := List.getElem_indexOf hlt
    rw [← hkey, ← hself]
    congr 1
    exact h.symm

/-- On a node that is not a lookup node, whose shard has pairwise distinct keys
and holds the node's own key: `LoadShardingStructure` succeeds, and a result
of `StartFirstTxEpoch` on the state it left has `m_isPrimary` true exactly
when `m_consensusLeaderID` equals `m_consensusMyID`. -/
theorem shard_leader_flag_of_run (env : Env) (st st2 : NodeState) (callByRetrieve fbWaitState : Bool)
    (shard : Shard) (hlookup : env.LOOKUP_NODE_MODE = false)
    (hshard : st.m_shards_ds.get? st.m_myshardId = some shard)
    (hnodup : (shardKeys shard).Nodup)
    (hmem : st.m_selfKey ∈ shardKeys shard)
    (hstart : StartFirstTxEpoch env (LoadShardingStructure env st callByRetrieve).2 fbWaitState
      = some st2) :
    (LoadShardingStructure env st callByRetrieve).1 = true ∧
    (st2.m_isPrimary = true ↔ st2.m_consensusLeaderID = st2.m_consensusMyID) ∧
    (st2.m_isPrimary = false ↔ st2.m_consensusLeaderID ≠ st2.m_consensusMyID) := by
  obtain ⟨hok, hself, hmembers, hmyid⟩ :=
    LoadShardingStructure_shard env st callByRetrieve shard hlookup hshard
  obtain ⟨leader, _, hget, hprim, _, hmy2, _⟩ :=
    StartFirstTxEpoch_some env _ st2 fbWaitState hlookup hstart
  have hkeys : ((LoadShardingStructure env st callByRetrieve).2.m_myShardMembers).map Prod.fst
      = shardKeys shard := by
    rw [hmembers, List.map_map]
    rfl
  have hgetk : (shardKeys shard).get? st2.m_consensusLeaderID = some leader.1 := by
    rw [← hkeys, List.get?_eq_getElem?, List.getElem?_map, ← List.get?_eq_getElem?, hget]
    rfl
  have hiff := key_at_index_iff (shardKeys shard) st.m_selfKey leader.1 st2.m_consensusLeaderID
    hnodup hmem hgetk
  have hmyid2 : st2.m_consensusMyID = (shardKeys shard).indexOf st.m_selfKey := by
    rw [hmy2, hmyid hnodup hmem]
  have hp : st2.m_isPrimary = true ↔ st2.m_consensusLeaderID = st2.m_consensusMyID := by
    rw [hprim, hself, hmyid2, beq_iff_eq]
    exact hiff
  refine ⟨?_, hp, ?_⟩
  · rw [hok]
    simp [hmem]
  · constructor
    · intro hf heq
      rw [hp.mpr heq] at hf
      cases hf
    · intro hne
      cases hb : st2.m_isPrimary with
      | false => rfl
      | true => exact absurd (hp.mp hb) hne

/-- C14, as stated, fails.  The sample node receives a message with one
valid view-change block and a wrong committee hash, and the same message with
the right committee hash and a wrong CS2: both calls return false, and both
leave the committee rotated by the view change, not the committee on entry. -/
theorem C14_rejection_keeps_view_changes :
    sampleState.m_DSCommittee = [(11, 101), (12, 102), (13, 103), (14, 104)] ∧
    (ProcessVCDSBlocksMessage sampleEnv sampleState
        [1, 5, 2000, 10, 999, 52, 1, 1, 1, 1, 1, 0] 0).map
      (fun r => (r.1, r.2.m_DSCommittee))
      = some (false, [(12, 102), (13, 103), (14, 104), (11, 101)]) ∧
    (ProcessVCDSBlocksMessage sampleEnv sampleState
        [1, 5, 2000, 10, 494, 0, 1, 1, 1, 1, 1, 0] 0).map
      (fun r => (r.1, r.2.m_DSCommittee))
      = some (false, [(12, 102), (13, 103), (14, 104), (11, 101)]) := by
  decide

/-- C14, amended.  When a message that passed the validation prefix and the
freshness check is rejected because a view-change block failed, because the
committee hash did not match or because the cosignature did not verify, the
call returns false with the state the loop over the view-change blocks left:
the view-change blocks accepted before the rejection have taken effect.  When
the message carries no view-change block, that state is the state on entry. -/
theorem C14_rejection_state (env : Env) (st : NodeState) (message : zbytes) (cur_offset : Nat)
    (m : VCDSBlocksMessage)
    (hval : validateMessage env st message cur_offset = some m)
    (hfresh : env.CheckWhetherBlockIsLatest st m.dsblock.header.blockNum
      m.dsblock.header.epochNum = true)
    (hfail : (processVCBlocks env st m.vcBlocks 1).1 = false ∨
      env.GetDSCommitteeHash (processVCBlocks env st m.vcBlocks 1).2.m_DSCommittee
        ≠ some m.dsblock.header.committeeHash ∨
      VerifyDSBlockCoSignature env (processVCBlocks env st m.vcBlocks 1).2.m_DSCommittee
        m.dsblock = false) :
    ProcessVCDSBlocksMessage env st message cur_offset
      = some (false, (processVCBlocks env st m.vcBlocks 1).2) ∧
    (m.vcBlocks = [] → ProcessVCDSBlocksMessage env st message cur_offset = some (false, st)) := by
  have hrun : ProcessVCDSBlocksMessage env st message cur_offset
      = some (false, (processVCBlocks env st m.vcBlocks 1).2) := by
    unfold ProcessVCDSBlocksMessage
    dsimp only
    rw [hval]
    dsimp only
    rw [if_neg (by rw [hfresh]; simp)]
    rcases hvc : processVCBlocks env st m.vcBlocks 1 with ⟨ok, stVC⟩
    rw [hvc] at hfail
    dsimp only at hfail
    cases ok with
    | false => rfl
    | true =>
      dsimp only
      cases hch : env.GetDSCommitteeHash stVC.m_DSCommittee with
      | none => rfl
      | some committeeHash =>
        dsimp only
        by_cases hne : (committeeHash != m.dsblock.header.committeeHash) = true
        · rw [if_pos hne]
        rw [if_neg hne]
        have heq : committeeHash = m.dsblock.header.committeeHash := by simpa using hne
        rcases hfail with h | h | h
        · cases h
        · rw [hch, heq] at h
          exact absurd rfl h
        · rw [if_pos (by rw [h]; rfl)]
  refine ⟨hrun, ?_⟩
  intro hnil
  rw [hrun, hnil]
  rfl

/-- The sample message with one view-change block and a wrong committee hash
is rejected with the state the view-change loop left. -/
theorem C14_rejection_state_witness :
    ∃ m, validateMessage sampleEnv sampleState [1, 5, 2000, 10, 999, 52, 1, 1, 1, 1, 1, 0] 0
        = some m ∧
      ProcessVCDSBlocksMessage sampleEnv sampleState [1, 5, 2000, 10, 999, 52, 1, 1, 1, 1, 1, 0] 0
        = some (false, (processVCBlocks sampleEnv sampleState m.vcBlocks 1).2) := by
  have hval : ∃ m, validateMessage sampleEnv sampleState
      [1, 5, 2000, 10, 999, 52, 1, 1, 1, 1, 1, 0] 0 = some m ∧
      sampleEnv.CheckWhetherBlockIsLatest sampleState m.dsblock.header.blockNum
        m.dsblock.header.epochNum = true ∧
      sampleEnv.GetDSCommitteeHash (processVCBlocks sampleEnv sampleState m.vcBlocks 1).2.m_DSCommittee
        ≠ some m.dsblock.header.committeeHash := ⟨_, rfl, rfl, by decide⟩
  obtain ⟨m, hm, hfresh, hhash⟩ := hval
  exact ⟨m, hm,
    (C14_rejection_state sampleEnv sampleState _ 0 m hm hfresh (Or.inr (Or.inl hhash))).1⟩

/-- C15. A message whose sharding-structure version differs from
`SHARDINGSTRUCTURE_VERSION` makes the call return false in the validation
prefix with the node state on entry: DS chain, DS committee, shard structure,
own shard id, proposed gas price, sync type, role and the trace of
collaborator calls (so of storage writes) are all unchanged. -/
theorem C15_version_mismatch_changes_nothing (env : Env) (st : NodeState) (message : zbytes)
    (cur_offset : Nat) (m : VCDSBlocksMessage)
    (hdec : env.GetNodeVCDSBlocksMessage message cur_offset = some m)
    (hver : m.shardingStructureVersion ≠ env.SHARDINGSTRUCTURE_VERSION) :
    ProcessVCDSBlocksMessage env st message cur_offset = some (false, st) ∧
    ∀ st', ProcessVCDSBlocksMessage env st message cur_offset = some (false, st') →
      st'.m_dsBlockChain = st.m_dsBlockChain ∧ st'.m_DSCommittee = st.m_DSCommittee ∧
      st'.m_shards_ds = st.m_shards_ds ∧ st'.m_myshardId = st.m_myshardId ∧
      st'.m_proposedGasPrice = st.m_proposedGasPrice ∧
      st'.syncType_lookup = st.syncType_lookup ∧ st'.m_mode_ds = st.m_mode_ds ∧
      st'.m_isPrimary = st.m_isPrimary ∧ st'.events = st.events := by
  have hval : validateMessage env st message cur_offset = none := by
    unfold validateMessage
    by_cases h1 : (!env.LOOKUP_NODE_MODE && !env.CheckStateProcessDSBlock st) = true
    · rw [if_pos h1]
    rw [if_neg h1, hdec]
    dsimp only
    rw [if_pos (by simpa using hver)]
  have hrun : ProcessVCDSBlocksMessage env st message cur_offset = some (false, st) := by
    unfold ProcessVCDSBlocksMessage
    rw [hval]
  refine ⟨hrun, ?_⟩
  intro st' hst'
  rw [hrun] at hst'
  injection hst' with hst'
  injection hst' with _ hst'
  subst hst'
  exact ⟨rfl, rfl, rfl, rfl, rfl, rfl, rfl, rfl, rfl⟩

/-- With the expected version set to 2, the sample node rejects the sample
message (version 1) and is left as it was. -/
theorem C15_version_mismatch_changes_nothing_witness :
    ProcessVCDSBlocksMessage { sampleEnv with SHARDINGSTRUCTURE_VERSION := 2 } sampleState
      [1, 5, 2000, 10, 458, 52, 0, 1, 1, 1, 0] 0 = some (false, sampleState) := by
  have hdec : ∃ m, ({ sampleEnv with SHARDINGSTRUCTURE_VERSION := 2 } : Env).GetNodeVCDSBlocksMessage
      [1, 5, 2000, 10, 458, 52, 0, 1, 1, 1, 0] 0 = some m ∧
      m.shardingStructureVersion = 1 := ⟨_, rfl, rfl⟩
  obtain ⟨m, hm, hv⟩ := hdec
  exact (C15_version_mismatch_changes_nothing { sampleEnv with SHARDINGSTRUCTURE_VERSION := 2 }
    sampleState _ 0 m hm (by rw [hv]; decide)).1

/-- C16, the code at the failing inputs.  With a storage that refuses the DS
block, and with one that refuses the latest-active-DS-block metadata, the
sample node still returns true: the block is in the in-memory chain, the
committee is recomposed, a leader index is elected and persisted, and the
shard role is assigned; no block link is added, and in the first case the
latest-active-DS-block number stays 0. -/
theorem C16_store_failure_not_fatal :
    (samplePutDSBlockFailsEnv.PutDSBlock 1 [1, 1005] = false) ∧
    (ProcessVCDSBlocksMessage samplePutDSBlockFailsEnv sampleState
        [1, 5, 2000, 10, 458, 52, 0, 1, 1, 1, 0] 0).map
      (fun r => (r.1, r.2.m_DSCommittee, r.2.m_dsBlockChain.length,
        r.2.m_latestActiveDSBlockNum_ds, r.2.m_blocklinkchain, r.2.m_consensusLeaderID,
        r.2.events.getLast?))
      = some (true, [(21, 201), (11, 101), (12, 102), (13, 103)], 2, 0, [], 1,
          some (Event.PutDSCommittee [(21, 201), (11, 101), (12, 102), (13, 103)] 2)) ∧
    (samplePutMetadataFailsEnv.PutMetadataLatestActiveDSBlockNum 1 = false) ∧
    (ProcessVCDSBlocksMessage samplePutMetadataFailsEnv sampleState
        [1, 5, 2000, 10, 458, 52, 0, 1, 1, 1, 0] 0).map
      (fun r => (r.1, r.2.m_DSCommittee, r.2.m_dsBlockChain.length,
        r.2.m_latestActiveDSBlockNum_ds, r.2.m_blocklinkchain, r.2.m_consensusLeaderID,
        r.2.events.getLast?))
      = some (true, [(21, 201), (11, 101), (12, 102), (13, 103)], 2, 1, [], 1,
          some (Event.PutDSCommittee [(21, 201), (11, 101), (12, 102), (13, 103)] 2)) ∧
    sampleState.m_DSCommittee = [(11, 101), (12, 102), (13, 103), (14, 104)] :=
  ⟨rfl, rfl, rfl, rfl, rfl⟩

/-- C17, as stated, fails for a winner set larger than the capacity.  With
capacity 2, the four-member sample committee and three PoW winners, the
composition modelled from the spec keeps the three winners and has size 3,
not min(2, 4 + 3) = 2; and no committee of size 2 holds the three winners. -/
theorem C17_more_winners_than_capacity :
    UpdateDSCommitteeComposition (withSpecComposition sampleEnv 2) sampleState sampleCommittee
      sampleThreeWinnersBlock true = [(21, 201), (22, 202), (23, 203)] ∧
    min 2 (sampleCommittee.length + sampleThreeWinnersBlock.header.dsPoWWinners.length) = 2 ∧
    ∀ dsComm : DequeOfNode, dsComm.length = 2 →
      ¬ ∀ w ∈ sampleThreeWinnersBlock.header.dsPoWWinners, w ∈ dsComm := by
  refine ⟨by decide, by decide, ?_⟩
  intro dsComm hlen hall
  match dsComm, hlen with
  | [a, b], _ =>
    have h1 := hall (21, 201) (by decide)
    have h2 := hall (22, 202) (by decide)
    have h3 := hall (23, 203) (by decide)
    simp only [List.mem_cons, List.mem_singleton, List.not_mem_nil, or_false] at h1 h2 h3
    rcases h1 with h1 | h1 <;> rcases h2 with h2 | h2 <;> rcases h3 with h3 | h3 <;>
      first
      | exact absurd (h1.trans h2.symm) (by decide)
      | exact absurd (h1.trans h3.symm) (by decide)
      | exact absurd (h2.trans h3.symm) (by decide)

theorem specCompose_length (capacity : Nat) (dsComm : DequeOfNode)
    (winners : List (PubKey × Peer)) (hW : winners.length ≤ capacity) :
    (specCompose capacity dsComm winners).length = min capacity (dsComm.length + winners.length) := by
  unfold specCompose
  rw [List.length_append, List.length_drop]
  omega

/-- C17, amended.  With the composition core modelled from the spec (4.3) and
a winner set no larger than the capacity, the committee produced by
`UpdateDSCommitteeComposition` has size min(capacity, |C| + |W|) and contains
every winner, and the two overloads produce the same committee, whatever
`showLogs` and the miner info are. -/
theorem C17_spec_composition (env : Env) (capacity : Nat) (st : NodeState)
    (dsComm : DequeOfNode) (dsblock : DSBlock) (showLogs : Bool) (minerInfo : MinerInfoDSComm)
    (hW : dsblock.header.dsPoWWinners.length ≤ capacity) :
    (UpdateDSCommitteeComposition (withSpecComposition env capacity) st dsComm dsblock
      showLogs).length = min capacity (dsComm.length + dsblock.header.dsPoWWinners.length) ∧
    (∀ w ∈ dsblock.header.dsPoWWinners,
      w ∈ UpdateDSCommitteeComposition (withSpecComposition env capacity) st dsComm dsblock
        showLogs) ∧
    UpdateDSCommitteeComposition (withSpecComposition env capacity) st dsComm dsblock showLogs
      = (UpdateDSCommitteeCompositionMinerInfo (withSpecComposition env capacity) st dsComm
          dsblock minerInfo).1 := by
  have hc : UpdateDSCommitteeComposition (withSpecComposition env capacity) st dsComm dsblock
      showLogs = specCompose capacity dsComm dsblock.header.dsPoWWinners := rfl
  refine ⟨?_, ?_, rfl⟩
  · rw [hc]
    exact specCompose_length capacity dsComm _ hW
  · intro w hw
    rw [hc]
    unfold specCompose
    exact List.mem_append_right _ hw

/-- A ten-member committee, six winners and capacity 12: the composed
committee has 12 members and holds the six winners. -/
theorem C17_spec_composition_witness :
    (UpdateDSCommitteeComposition (withSpecComposition sampleEnv 12) sampleState
      ((List.range 10).map (fun i => (i, i)))
      { sampleTip with
        header := { sampleTip.header with
          dsPoWWinners := (List.range 6).map (fun i => (100 + i, i)) } }
      true).length = min 12 (10 + 6) ∧
    ∀ w ∈ (List.range 6).map (fun i => (100 + i, i)),
      w ∈ UpdateDSCommitteeComposition (withSpecComposition sampleEnv 12) sampleState
        ((List.range 10).map (fun i => (i, i)))
        { sampleTip with
          header := { sampleTip.header with
            dsPoWWinners := (List.range 6).map (fun i => (100 + i, i)) } }
        true :=
  ⟨(C17_spec_composition sampleEnv 12 sampleState ((List.range 10).map (fun i => (i, i)))
      { sampleTip with
        header := { sampleTip.header with
          dsPoWWinners := (List.range 6).map (fun i => (100 + i, i)) } }
      true { m_dsNodes := [], m_dsNodesEjected := [] } (by decide)).1,
   (C17_spec_composition sampleEnv 12 sampleState ((List.range 10).map (fun i => (i, i)))
      { sampleTip with
        header := { sampleTip.header with
          dsPoWWinners := (List.range 6).map (fun i => (100 + i, i)) } }
      true { m_dsNodes := [], m_dsNodesEjected := [] } (by decide)).2.1⟩

theorem UpdateGov_cases (env : Env) (st : NodeState) :
    (st.m_govProposalInfo.isGovProposalActive = false →
      (UpdateGovProposalRemainingVoteInfo env st).m_govProposalInfo = st.m_govProposalInfo) ∧
    (st.m_govProposalInfo.isGovProposalActive = true →
      st.m_govProposalInfo.startDSEpoch ≤
        (GetLastBlock st.m_dsBlockChain env.dummyDSBlock).header.blockNum →
      (GetLastBlock st.m_dsBlockChain env.dummyDSBlock).header.blockNum ≤
        st.m_govProposalInfo.endDSEpoch →
      1 < st.m_govProposalInfo.remainingVoteCount →
      (UpdateGovProposalRemainingVoteInfo env st).m_govProposalInfo =
        { st.m_govProposalInfo with
          remainingVoteCount := st.m_govProposalInfo.remainingVoteCount - 1 }) ∧
    (st.m_govProposalInfo.isGovProposalActive = true →
      ¬ (st.m_govProposalInfo.startDSEpoch ≤
          (GetLastBlock st.m_dsBlockChain env.dummyDSBlock).header.blockNum ∧
        (GetLastBlock st.m_dsBlockChain env.dummyDSBlock).header.blockNum ≤
          st.m_govProposalInfo.endDSEpoch ∧
        1 < st.m_govProposalInfo.remainingVoteCount) →
      (UpdateGovProposalRemainingVoteInfo env st).m_govProposalInfo =
        env.GovProposalInfoReset st.m_govProposalInfo) := by
  refine ⟨?_, ?_, ?_⟩
  · intro hact
    unfold UpdateGovProposalRemainingVoteInfo
    rw [if_neg (by rw [hact]; simp)]
  · intro hact h1 h2 h3
    unfold UpdateGovProposalRemainingVoteInfo
    rw [if_pos hact]
    dsimp only
    rw [if_pos (by simp [h1, h2, h3])]
  · intro hact hnot
    unfold UpdateGovProposalRemainingVoteInfo
    rw [if_pos hact]
    dsimp only
    rw [if_neg (by
      intro hc
      simp only [ge_iff_le, gt_iff_lt, Bool.and_eq_true, decide_eq_true_eq] at hc
      exact hnot ⟨hc.1.1, hc.1.2, hc.2⟩)]

theorem becomeDSMember_true_eq (env : Env) (st st' : NodeState) (dist : Nat)
    (h : becomeDSMember env st dist = (true, st')) :
    ∃ idMap repMap,
      st' = emit (UpdateGovProposalRemainingVoteInfo env
        { st with
          m_consensusMyID_ds := dist % 2 ^ 16
          m_publicKeyToshardIdMap_ds := idMap
          m_mapNodeReputation_ds := repMap
          m_mode_ds :=
            if st.m_consensusLeaderID_ds == dist % 2 ^ 16 then Mode.PRIMARY_DS
            else Mode.BACKUP_DS }) Event.DSStartFirstTxEpoch := by
  rcases hps : env.ProcessShardingStructure st.m_shards_ds st.m_publicKeyToshardIdMap_ds
      st.m_mapNodeReputation_ds with ⟨ok, idMap, repMap⟩
  unfold becomeDSMember at h
  dsimp only at h
  rw [hps] at h
  cases ok with
  | false =>
    dsimp only at h
    injection h with h1 _
    cases h1
  | true =>
    dsimp only at h
    injection h with _ h2
    exact ⟨idMap, repMap, h2.symm⟩

/-- C18: the sample node with key 12 becomes DS leader (`PRIMARY_DS`) in a
call of `ProcessVCDSBlocksMessage` that returns true, while a proposal is
active with five votes remaining inside its window: after the call four votes
remain and the proposal is still active; the proposal info is not its reset
value, although the call site is commented "reset governance proposal and
vote if DS member". -/
theorem C18_leader_gov_info_not_reset :
    (ProcessVCDSBlocksMessage sampleEnv sampleStateMember
        [1, 5, 2000, 10, 458, 52, 0, 1, 1, 1, 0] 0).map
      (fun r => (r.1, r.2.m_mode_ds, r.2.m_govProposalInfo.isGovProposalActive,
        r.2.m_govProposalInfo.remainingVoteCount,
        decide (r.2.m_govProposalInfo
          = sampleEnv.GovProposalInfoReset sampleStateMember.m_govProposalInfo)))
      = some (true, Mode.PRIMARY_DS, true, 4, false) ∧
    sampleStateMember.m_govProposalInfo.remainingVoteCount = 5 :=
  ⟨rfl, rfl⟩

/-- For every node that becomes a DS member for the new epoch (lines 648-690,
leader or backup alike), the governance proposal info after the step is: unchanged when no proposal is active; the same with one vote
less when a proposal is active, the number of the DS chain tip lies in its
window and more than one vote remains; its reset value in every other active
case. -/
theorem gov_step_on_ds_member (env : Env) (st st' : NodeState) (dist : Nat)
    (h : becomeDSMember env st dist = (true, st')) :
    (st.m_govProposalInfo.isGovProposalActive = false →
      st'.m_govProposalInfo = st.m_govProposalInfo) ∧
    (st.m_govProposalInfo.isGovProposalActive = true →
      st.m_govProposalInfo.startDSEpoch ≤
        (GetLastBlock st.m_dsBlockChain env.dummyDSBlock).header.blockNum →
      (GetLastBlock st.m_dsBlockChain env.dummyDSBlock).header.blockNum ≤
        st.m_govProposalInfo.endDSEpoch →
      1 < st.m_govProposalInfo.remainingVoteCount →
      st'.m_govProposalInfo =
        { st.m_govProposalInfo with
          remainingVoteCount := st.m_govProposalInfo.remainingVoteCount - 1 }) ∧
    (st.m_govProposalInfo.isGovProposalActive = true →
      ¬ (st.m_govProposalInfo.startDSEpoch ≤
          (GetLastBlock st.m_dsBlockChain env.dummyDSBlock).header.blockNum ∧
        (GetLastBlock st.m_dsBlockChain env.dummyDSBlock).header.blockNum ≤
          st.m_govProposalInfo.endDSEpoch ∧
        1 < st.m_govProposalInfo.remainingVoteCount) →
      st'.m_govProposalInfo = env.GovProposalInfoReset st.m_govProposalInfo) ∧
    (st'.m_mode_ds = Mode.PRIMARY_DS ∨ st'.m_mode_ds = Mode.BACKUP_DS) := by
  obtain ⟨idMap, repMap, hst'⟩ := becomeDSMember_true_eq env st st' dist h
  have hcases := UpdateGov_cases env
    { st with
      m_consensusMyID_ds := dist % 2 ^ 16
      m_publicKeyToshardIdMap_ds := idMap
      m_mapNodeReputation_ds := repMap
      m_mode_ds :=
        if st.m_consensusLeaderID_ds == dist % 2 ^ 16 then Mode.PRIMARY_DS
        else Mode.BACKUP_DS }
  dsimp only at hcases
  have hgov : st'.m_govProposalInfo = (UpdateGovProposalRemainingVoteInfo env
      { st with
        m_consensusMyID_ds := dist % 2 ^ 16
        m_publicKeyToshardIdMap_ds := idMap
        m_mapNodeReputation_ds := repMap
        m_mode_ds :=
          if st.m_consensusLeaderID_ds == dist % 2 ^ 16 then Mode.PRIMARY_DS
          else Mode.BACKUP_DS }).m_govProposalInfo := by
    rw [hst']; rfl
  have hmode : st'.m_mode_ds =
      (if st.m_consensusLeaderID_ds == dist % 2 ^ 16 then Mode.PRIMARY_DS
        else Mode.BACKUP_DS) := by
    have hv := memberView_UpdateGov env
      { st with
        m_consensusMyID_ds := dist % 2 ^ 16
        m_publicKeyToshardIdMap_ds := idMap
        m_mapNodeReputation_ds := repMap
        m_mode_ds :=
          if st.m_consensusLeaderID_ds == dist % 2 ^ 16 then Mode.PRIMARY_DS
          else Mode.BACKUP_DS }
    rw [hst']
    exact congrArg (fun v => v.2.2) hv
  rw [hgov]
  refine ⟨hcases.1, hcases.2.1, hcases.2.2, ?_⟩
  rw [hmode]
  cases (st.m_consensusLeaderID_ds == dist % 2 ^ 16)
  · exact Or.inr rfl
  · exact Or.inl rfl

/-- The sample member at distance 2 of the composed committee, with five
votes remaining inside the window, is left with four. -/
theorem gov_step_on_ds_member_sample :
    ∃ st', becomeDSMember sampleEnv sampleStateMember 2 = (true, st') ∧
      st'.m_govProposalInfo =
        { sampleStateMember.m_govProposalInfo with remainingVoteCount := 5 - 1 } := by
  have hrun : ∃ st', becomeDSMember sampleEnv sampleStateMember 2 = (true, st') := ⟨_, rfl⟩
  obtain ⟨st', hst'⟩ := hrun
  exact ⟨st', hst',
    (gov_step_on_ds_member sampleEnv sampleStateMember st' 2 hst').2.1 rfl (by decide)
      (by decide) (by decide)⟩

/-- C19. After a call that returns true the DS leader index is `s mod m`,
with `s` zero when the epoch number is at most 1 and otherwise the 16-bit
value of the hash-for-random of the last DS block header, and `m` the size of
the composed DS committee when `GUARD_MODE` is off and the number of DS guards
when it is on.  Hence at epoch number at most 1 the index is 0, and with
`GUARD_MODE` on it is below the number of DS guards.  The election itself
(lines 603-618) sets exactly that index whenever its modulus is not zero. -/
theorem C19_exact_leader_arithmetic (env : Env) (st st' : NodeState) (message : zbytes)
    (cur_offset : Nat)
    (h : ProcessVCDSBlocksMessage env st message cur_offset = some (true, st')) :
    st'.m_consensusLeaderID_ds = dsLeaderSeed env st' % dsLeaderModulus env st' ∧
    dsLeaderSeed env st' =
      (if st'.m_currentEpochNum ≤ 1 then 0
      else env.charArrTo16Bits
          (env.GetHashForRandom (GetLastBlock st'.m_dsBlockChain env.dummyDSBlock).header)
          % 2 ^ 16) ∧
    dsLeaderSeed env st' < 2 ^ 16 ∧
    dsLeaderModulus env st' =
      (if env.GUARD_MODE then env.GetNumOfDSGuard else st'.m_DSCommittee.length) ∧
    (st'.m_currentEpochNum ≤ 1 → st'.m_consensusLeaderID_ds = 0) ∧
    (env.GUARD_MODE = true → st'.m_consensusLeaderID_ds < env.GetNumOfDSGuard) ∧
    (∀ s sE : NodeState, electDSLeader env s = some sE →
      sE.m_consensusLeaderID_ds = dsLeaderSeed env s % dsLeaderModulus env s) := by
  obtain ⟨hne, hmod⟩ := umod_some _ _ _ (leader_after_run env st st' message cur_offset h)
  have hseed : dsLeaderSeed env st' =
      (if st'.m_currentEpochNum ≤ 1 then 0
      else env.charArrTo16Bits
          (env.GetHashForRandom (GetLastBlock st'.m_dsBlockChain env.dummyDSBlock).header)
          % 2 ^ 16) := by
    unfold dsLeaderSeed
    by_cases he : st'.m_currentEpochNum > 1
    · rw [if_pos he, if_neg (by omega)]
    · rw [if_neg he, if_pos (by omega)]
  have hm : dsLeaderModulus env st' =
      (if env.GUARD_MODE then env.GetNumOfDSGuard else st'.m_DSCommittee.length) := by
    unfold dsLeaderModulus
    cases env.GUARD_MODE <;> rfl
  have hlt : dsLeaderSeed env st' < 2 ^ 16 := by
    rw [hseed]
    split
    · exact Nat.two_pow_pos 16
    · exact Nat.mod_lt _ (Nat.two_pow_pos 16)
  refine ⟨hmod, hseed, hlt, hm, ?_, ?_, ?_⟩
  · intro he
    rw [hmod, hseed, if_pos he, Nat.zero_mod]
  · intro hg
    rw [hmod]
    have hmg : dsLeaderModulus env st' = env.GetNumOfDSGuard := by rw [hm, hg]; rfl
    rw [← hmg]
    exact Nat.mod_lt _ (Nat.pos_of_ne_zero hne)
  · intro s sE hel
    unfold electDSLeader at hel
    split at hel
    · cases hel
    · rename_i leaderID hu
      injection hel with hel
      subst hel
      exact (umod_some _ _ _ hu).2

/-- The sample node in guard mode (three guards, seed 10) elects index 1,
below 3; the sample node at epoch 1 elects index 0. -/
theorem C19_exact_leader_arithmetic_witness :
    (∃ st', ProcessVCDSBlocksMessage sampleGuardEnv sampleState
        [1, 5, 2000, 10, 458, 52, 0, 1, 1, 1, 0] 0 = some (true, st') ∧
      st'.m_consensusLeaderID_ds = 1 ∧
      st'.m_consensusLeaderID_ds < sampleGuardEnv.GetNumOfDSGuard) ∧
    (∃ st', ProcessVCDSBlocksMessage sampleEnv sampleStateEpochOne
        [1, 1, 2000, 10, 458, 48, 0, 1, 1, 1, 0] 0 = some (true, st') ∧
      st'.m_consensusLeaderID_ds = 0) := by
  have hrun1 : ∃ st', ProcessVCDSBlocksMessage sampleGuardEnv sampleState
      [1, 5, 2000, 10, 458, 52, 0, 1, 1, 1, 0] 0 = some (true, st') ∧
      st'.m_consensusLeaderID_ds = 1 := ⟨_, rfl, rfl⟩
  have hrun2 : ∃ st', ProcessVCDSBlocksMessage sampleEnv sampleStateEpochOne
      [1, 1, 2000, 10, 458, 48, 0, 1, 1, 1, 0] 0 = some (true, st') ∧
      st'.m_currentEpochNum ≤ 1 := ⟨_, rfl, by decide⟩
  obtain ⟨st1, h1, hl1⟩ := hrun1
  obtain ⟨st2, h2, he2⟩ := hrun2
  exact ⟨⟨st1, h1, hl1,
      (C19_exact_leader_arithmetic sampleGuardEnv sampleState st1 _ 0 h1).2.2.2.2.2.1 rfl⟩,
    ⟨st2, h2, (C19_exact_leader_arithmetic sampleEnv sampleStateEpochOne st2 _ 0 h2).2.2.2.2.1
      he2⟩⟩

/-- When the node's key occurs in the shard, the member loop leaves the index
of its last occurrence in `consensusMyID`. -/
theorem shardLoop_last (selfKey : PubKey) (shard : Shard) :
    ∀ acc : ShardLoop, selfKey ∈ shardKeys shard →
      ∃ k, (shard.foldl (shardLoopStep selfKey) acc).consensusMyID = acc.index + k ∧
        (shardKeys shard).get? k = some selfKey ∧
        ∀ j, k < j → (shardKeys shard).get? j ≠ some selfKey := by
  induction shard with
  | nil =>
    intro acc hmem
    cases hmem
  | cons node rest ih =>
    intro acc hmem
    rw [List.foldl_cons]
    have hkeys : shardKeys (node :: rest) = node.pubKey :: shardKeys rest := rfl
    by_cases hr : selfKey ∈ shardKeys rest
    · obtain ⟨k, hk, hget, hlast⟩ := ih (shardLoopStep selfKey acc node) hr
      have hidx : (shardLoopStep selfKey acc node).index = acc.index + 1 := by
        unfold shardLoopStep
        by_cases hs : (selfKey == node.pubKey) = true
        · rw [if_pos hs]
        · rw [if_neg hs]
      refine ⟨k + 1, ?_, ?_, ?_⟩
      · rw [hk, hidx]; omega
      · rw [hkeys, List.get?_cons_succ]; exact hget
      · intro j hj
        obtain ⟨j', rfl⟩ : ∃ j', j = j' + 1 := ⟨j - 1, by omega⟩
        rw [hkeys, List.get?_cons_succ]
        exact hlast j' (by omega)
    · have hk : selfKey = node.pubKey := by
        rw [hkeys] at hmem
        rcases List.mem_cons.mp hmem with h | h
        · exact h
        · exact absurd h hr
      obtain ⟨_, _, _, hnot, _⟩ := shardLoop_foldl selfKey rest (shardLoopStep selfKey acc node)
      have hstep : (shardLoopStep selfKey acc node).consensusMyID = acc.index := by
        unfold shardLoopStep
        rw [if_pos (by simp [hk])]
      refine ⟨0, ?_, ?_, ?_⟩
      · rw [hnot hr, hstep]; rfl
      · rw [hkeys, hk]; rfl
      · intro j hj
        obtain ⟨j', rfl⟩ : ∃ j', j = j' + 1 := ⟨j - 1, by omega⟩
        rw [hkeys, List.get?_cons_succ]
        intro hget
        exact hr (List.get?_mem hget)

/-- C21: on a node that is not a lookup node, `LoadShardingStructure` returns
false and keeps the member list and the own consensus index when the own shard
id is not below the number of shards; otherwise the rebuilt member list has the
length of the node's shard, carries the shard's keys in order and the shard's
addresses except at entries with the node's own key, where the address is the
default Peer; the own consensus index is a position of the node's key in the
shard (the last one, and the only one when keys are distinct) when the key
occurs and is untouched when it does not; and the result is true exactly when
the key was found or `callByRetrieve` is set. -/
theorem C21_load_sharding_structure (env : Env) (st : NodeState) (callByRetrieve : Bool)
    (hlookup : env.LOOKUP_NODE_MODE = false) :
    (st.m_shards_ds.length ≤ st.m_myshardId →
      (LoadShardingStructure env st callByRetrieve).1 = false ∧
      (LoadShardingStructure env st callByRetrieve).2.m_myShardMembers = st.m_myShardMembers ∧
      (LoadShardingStructure env st callByRetrieve).2.m_consensusMyID = st.m_consensusMyID) ∧
    (∀ shard, st.m_shards_ds.get? st.m_myshardId = some shard →
      (LoadShardingStructure env st callByRetrieve).2.m_myShardMembers.length = shard.length ∧
      (∀ i node, shard.get? i = some node →
        (LoadShardingStructure env st callByRetrieve).2.m_myShardMembers.get? i =
          some (node.pubKey, if node.pubKey = st.m_selfKey then 0 else node.peer)) ∧
      (st.m_selfKey ∈ shardKeys shard →
        (shardKeys shard).get? (LoadShardingStructure env st callByRetrieve).2.m_consensusMyID =
          some st.m_selfKey ∧
        (∀ j, (LoadShardingStructure env st callByRetrieve).2.m_consensusMyID < j →
          (shardKeys shard).get? j ≠ some st.m_selfKey) ∧
        ((shardKeys shard).Nodup →
          (LoadShardingStructure env st callByRetrieve).2.m_consensusMyID =
            (shardKeys shard).indexOf st.m_selfKey)) ∧
      (st.m_selfKey ∉ shardKeys shard →
        (LoadShardingStructure env st callByRetrieve).2.m_consensusMyID = st.m_consensusMyID) ∧
      ((LoadShardingStructure env st callByRetrieve).1 = true ↔
        (st.m_selfKey ∈ shardKeys shard ∨ callByRetrieve = true))) := by
  refine ⟨?_, ?_⟩
  · intro hge
    unfold LoadShardingStructure
    rw [if_neg (by rw [hlookup]; simp)]
    dsimp only
    rw [if_pos (by omega)]
    exact ⟨rfl, rfl, rfl⟩
  · intro shard hshard
    obtain ⟨hres, _, hmem, hnd⟩ := LoadShardingStructure_shard env st callByRetrieve shard
      hlookup hshard
    have hlt : st.m_myshardId < st.m_shards_ds.length := by
      rcases Nat.lt_or_ge st.m_myshardId st.m_shards_ds.length with h | h
      · exact h
      · rw [List.get?_eq_none.mpr h] at hshard
        cases hshard
    have hget : st.m_shards_ds.getD st.m_myshardId [] = shard := by
      rw [List.getD_eq_getElem?_getD, ← List.get?_eq_getElem?, hshard]
      rfl
    have hid : (LoadShardingStructure env st callByRetrieve).2.m_consensusMyID =
        (shard.foldl (shardLoopStep st.m_selfKey)
          { index := 0, foundMe := false, members := [],
            consensusMyID := st.m_consensusMyID }).consensusMyID := by
      unfold LoadShardingStructure
      rw [if_neg (by rw [hlookup]; simp)]
      dsimp only
      rw [if_neg (by omega), hget]
      by_cases hc : (!(shard.foldl (shardLoopStep st.m_selfKey)
          { index := 0, foundMe := false, members := [],
            consensusMyID := st.m_consensusMyID }).foundMe && !callByRetrieve) = true
      · rw [if_pos hc]; rfl
      · rw [if_neg hc]
    refine ⟨?_, ?_, ?_, ?_, ?_⟩
    · rw [hmem, List.length_map]
    · intro i node hnode
      rw [hmem, List.get?_eq_getElem?, List.getElem?_map, ← List.get?_eq_getElem?, hnode]
      by_cases hk : node.pubKey = st.m_selfKey
      · simp [hk]
      · have hk2 : ¬ st.m_selfKey = node.pubKey := fun h => hk h.symm
        simp [hk, hk2]
    · intro hin
      obtain ⟨k, hk, hgetk, hlast⟩ := shardLoop_last st.m_selfKey shard
        { index := 0, foundMe := false, members := [],
          consensusMyID := st.m_consensusMyID } hin
      have hk0 : (LoadShardingStructure env st callByRetrieve).2.m_consensusMyID = k := by
        rw [hid, hk]; exact Nat.zero_add k
      rw [hk0]
      refine ⟨hgetk, hlast, ?_⟩
      intro hnodup
      rw [← hk0]
      exact hnd hnodup hin
    · intro hnot
      rw [hid]
      exact (shardLoop_foldl st.m_selfKey shard _).2.2.2.1 hnot
    · rw [hres]
      by_cases hin : st.m_selfKey ∈ shardKeys shard <;> cases callByRetrieve <;> simp [hin]

/-- Witness for C21 on a shard node whose key sits at position 1 of shard 0. -/
theorem C21_load_sharding_structure_witness :
    sampleEnv.LOOKUP_NODE_MODE = false ∧
    (LoadShardingStructure sampleEnv { sampleState with m_shards_ds := sampleShards, m_selfKey := 99 } false).1
      = true ∧
    (LoadShardingStructure sampleEnv
      { sampleState with m_shards_ds := sampleShards, m_selfKey := 99 } false).2.m_consensusMyID = 1 :=
  ⟨rfl,
   ((C21_load_sharding_structure sampleEnv { sampleState with m_shards_ds := sampleShards, m_selfKey := 99 }
      false rfl).2 _ rfl).2.2.2.2.mpr (Or.inl (by decide)),
   by decide⟩

/-- C22: `StoreDSBlockToDisk` changes nothing when `AddBlock` reports the block
as already present (no randomness update, no storage write, same latest active
DS block number, no block link); and when the block is new and both storage
writes succeed, the latest active DS block number is the block's number and
exactly one block link of type DS with the block's number and hash is appended,
at the 64-bit index `GetLatestIndex() + 1`. -/
theorem C22_store_ds_block_to_disk (env : Env) (st : NodeState) (dsblock : DSBlock) :
    (env.AddBlock st.m_dsBlockChain dsblock = none →
      StoreDSBlockToDisk env st dsblock = st) ∧
    (∀ chain, env.AddBlock st.m_dsBlockChain dsblock = some chain →
      env.PutDSBlock dsblock.header.blockNum
        (writeAt [] 0 (env.SerializeDSBlock dsblock)) = true →
      env.PutMetadataLatestActiveDSBlockNum dsblock.header.blockNum = true →
      (StoreDSBlockToDisk env st dsblock).m_dsBlockChain = chain ∧
      (StoreDSBlockToDisk env st dsblock).m_latestActiveDSBlockNum_ds =
        dsblock.header.blockNum ∧
      (StoreDSBlockToDisk env st dsblock).m_blocklinkchain =
        st.m_blocklinkchain ++
          [{ index := (env.GetLatestIndex st.m_blocklinkchain + 1) % 2 ^ 64,
             dsindex := dsblock.header.blockNum,
             blocktype := BlockType.DS, blockhash := dsblock.blockHash }] ∧
      (env.GetLatestIndex st.m_blocklinkchain + 1 < 2 ^ 64 →
        (env.GetLatestIndex st.m_blocklinkchain + 1) % 2 ^ 64 =
          env.GetLatestIndex st.m_blocklinkchain + 1) ∧
      (StoreDSBlockToDisk env st dsblock).events =
        st.events ++
          [Event.UpdateDSBlockRand,
           Event.PutDSBlock dsblock.header.blockNum
             (writeAt [] 0 (env.SerializeDSBlock dsblock)),
           Event.PutMetadataLatestActiveDSBlockNum dsblock.header.blockNum]) := by
  refine ⟨?_, ?_⟩
  · intro hadd
    unfold StoreDSBlockToDisk
    rw [hadd]
  · intro chain hadd hput hmeta
    have hrun : StoreDSBlockToDisk env st dsblock =
        { (emit (emit (emit { st with m_dsBlockChain := chain } Event.UpdateDSBlockRand)
            (Event.PutDSBlock dsblock.header.blockNum
              (writeAt [] 0 (env.SerializeDSBlock dsblock))))
            (Event.PutMetadataLatestActiveDSBlockNum dsblock.header.blockNum)) with
          m_latestActiveDSBlockNum_ds := dsblock.header.blockNum,
          m_blocklinkchain := st.m_blocklinkchain ++
            [{ index := (env.GetLatestIndex st.m_blocklinkchain + 1) % 2 ^ 64,
               dsindex := dsblock.header.blockNum,
               blocktype := BlockType.DS, blockhash := dsblock.blockHash }] } := by
      unfold StoreDSBlockToDisk
      rw [hadd]
      dsimp only
      rw [if_neg (by rw [hput]; simp)]
      unfold emit
      dsimp only
      rw [if_neg (by rw [hmeta]; simp)]
    rw [hrun]
    refine ⟨rfl, rfl, rfl, fun h => Nat.mod_eq_of_lt h, ?_⟩
    unfold emit
    dsimp only
    simp

/-- Witness for C22: the sample tip is already in the sample chain, a block
numbered 1 is new and gets the link index 1. -/
theorem C22_store_ds_block_to_disk_witness :
    StoreDSBlockToDisk sampleEnv sampleState sampleTip = sampleState ∧
    (StoreDSBlockToDisk sampleEnv sampleState
      { sampleTip with header := { sampleTip.header with blockNum := 1 } }).m_blocklinkchain =
      sampleState.m_blocklinkchain ++
        [{ index := 1, dsindex := 1, blocktype := BlockType.DS,
           blockhash := sampleTip.blockHash }] :=
  ⟨(C22_store_ds_block_to_disk sampleEnv sampleState sampleTip).1 (by decide),
   ((C22_store_ds_block_to_disk sampleEnv sampleState
      { sampleTip with header := { sampleTip.header with blockNum := 1 } }).2
      _ rfl rfl rfl).2.2.1⟩

/-- C30: `UpdateGovProposalRemainingVoteInfo` is a three-way step: with no
active proposal the state is unchanged; with an active proposal, the current DS
block number inside [startDSEpoch, endDSEpoch] and remainingVoteCount above 1,
remainingVoteCount drops by exactly one, stays at least 1, and nothing else
changes; in every other active case the proposal state is reset. -/
theorem C30_gov_vote_countdown (env : Env) (st : NodeState) :
    (st.m_govProposalInfo.isGovProposalActive = false →
      UpdateGovProposalRemainingVoteInfo env st = st) ∧
    (st.m_govProposalInfo.isGovProposalActive = true →
      st.m_govProposalInfo.startDSEpoch ≤
        (GetLastBlock st.m_dsBlockChain env.dummyDSBlock).header.blockNum →
      (GetLastBlock st.m_dsBlockChain env.dummyDSBlock).header.blockNum ≤
        st.m_govProposalInfo.endDSEpoch →
      1 < st.m_govProposalInfo.remainingVoteCount →
      UpdateGovProposalRemainingVoteInfo env st =
        { st with m_govProposalInfo := { st.m_govProposalInfo with
            remainingVoteCount := st.m_govProposalInfo.remainingVoteCount - 1 } } ∧
      (UpdateGovProposalRemainingVoteInfo env st).m_govProposalInfo.remainingVoteCount + 1 =
        st.m_govProposalInfo.remainingVoteCount ∧
      1 ≤ (UpdateGovProposalRemainingVoteInfo env st).m_govProposalInfo.remainingVoteCount) ∧
    (st.m_govProposalInfo.isGovProposalActive = true →
      ¬ (st.m_govProposalInfo.startDSEpoch ≤
          (GetLastBlock st.m_dsBlockChain env.dummyDSBlock).header.blockNum ∧
        (GetLastBlock st.m_dsBlockChain env.dummyDSBlock).header.blockNum ≤
          st.m_govProposalInfo.endDSEpoch ∧
        1 < st.m_govProposalInfo.remainingVoteCount) →
      UpdateGovProposalRemainingVoteInfo env st =
        { st with m_govProposalInfo := env.GovProposalInfoReset st.m_govProposalInfo }) := by
  refine ⟨?_, ?_, ?_⟩
  · intro hact
    unfold UpdateGovProposalRemainingVoteInfo
    rw [if_neg (by rw [hact]; simp)]
  · intro hact h1 h2 h3
    have hrun : UpdateGovProposalRemainingVoteInfo env st =
        { st with m_govProposalInfo := { st.m_govProposalInfo with
            remainingVoteCount := st.m_govProposalInfo.remainingVoteCount - 1 } } := by
      unfold UpdateGovProposalRemainingVoteInfo
      rw [if_pos hact]
      dsimp only
      rw [if_pos (by simp [h1, h2, h3])]
    rw [hrun]
    refine ⟨rfl, ?_, ?_⟩
    · show st.m_govProposalInfo.remainingVoteCount - 1 + 1 = _
      omega
    · show 1 ≤ st.m_govProposalInfo.remainingVoteCount - 1
      omega
  · intro hact hnot
    unfold UpdateGovProposalRemainingVoteInfo
    rw [if_pos hact]
    dsimp only
    rw [if_neg (by
      intro hc
      apply hnot
      simp only [Bool.and_eq_true, decide_eq_true_eq, ge_iff_le, gt_iff_lt] at hc
      exact ⟨hc.1.1, hc.1.2, hc.2⟩)]

/-- Witness for C30: on the sample DS member (window 0 to 10, five votes
remaining, DS block number 0) the count goes from 5 to 4. -/
theorem C30_gov_vote_countdown_witness :
    (UpdateGovProposalRemainingVoteInfo sampleEnv
      sampleStateMember).m_govProposalInfo.remainingVoteCount + 1 = 5 ∧
    UpdateGovProposalRemainingVoteInfo sampleEnv sampleState = sampleState :=
  ⟨((C30_gov_vote_countdown sampleEnv sampleStateMember).2.1 rfl (by decide) (by decide)
      (by decide)).2.1,
   (C30_gov_vote_countdown sampleEnv sampleState).1 rfl⟩

/-! ### The shard leader index of `StartFirstTxEpoch` -/

/-- The reset at the head of `StartFirstTxEpoch` leaves what the shard leader
election reads. -/
theorem shardLeader_reset (env : Env) (st : NodeState) :
    shardLeaderSeed env (startFirstTxEpochReset st) = shardLeaderSeed env st ∧
    (∀ seed, shardLeaderID env (startFirstTxEpochReset st) seed = shardLeaderID env st seed) ∧
    (startFirstTxEpochReset st).m_myShardMembers = st.m_myShardMembers := by
  cases st
  exact ⟨rfl, fun _ => rfl, rfl⟩

/-- On a node that is not a lookup node `StartFirstTxEpoch` reads the member
list at the index the election gives, unchecked: with the index inside the
list (and a non-zero `NUM_FINAL_BLOCK_PER_POW`) the call returns with that
index as `m_consensusLeaderID`; with the index outside there is no result. -/
theorem StartFirstTxEpoch_of_index (env : Env) (st : NodeState) (fbWaitState : Bool) (i : Nat)
    (hlookup : env.LOOKUP_NODE_MODE = false)
    (hid : shardLeaderID env st (shardLeaderSeed env st) = some i) :
    (i < st.m_myShardMembers.length → env.NUM_FINAL_BLOCK_PER_POW ≠ 0 →
      ∃ st', StartFirstTxEpoch env st fbWaitState = some st' ∧ st'.m_consensusLeaderID = i) ∧
    (st.m_myShardMembers.length ≤ i → StartFirstTxEpoch env st fbWaitState = none) := by
  obtain ⟨hseed, hlid, hmem⟩ := shardLeader_reset env st
  have hid1 : shardLeaderID env (startFirstTxEpochReset st)
      (shardLeaderSeed env (startFirstTxEpochReset st)) = some i := by
    rw [hseed, hlid]; exact hid
  refine ⟨?_, ?_⟩
  · intro hlt hpow
    have hrun : ∃ st', StartFirstTxEpoch env st fbWaitState = some st' := by
      unfold StartFirstTxEpoch
      rw [if_neg (by rw [hlookup]; simp)]
      dsimp only
      rw [hid1]
      dsimp only
      have hu : umod (GetBlockCount (startFirstTxEpochReset st).m_txBlockChain)
          env.NUM_FINAL_BLOCK_PER_POW =
          some (GetBlockCount (startFirstTxEpochReset st).m_txBlockChain %
            env.NUM_FINAL_BLOCK_PER_POW) := by
        unfold umod
        rw [if_neg hpow]
      rw [hu]
      dsimp only
      rw [List.get?_eq_get (by rw [hmem]; exact hlt)]
      exact ⟨_, rfl⟩
    obtain ⟨st', hst'⟩ := hrun
    obtain ⟨_, hused, _⟩ := StartFirstTxEpoch_some env st st' fbWaitState hlookup hst'
    rw [hid1] at hused
    injection hused with hused
    exact ⟨st', hst', hused.symm⟩
  · intro hge
    unfold StartFirstTxEpoch
    rw [if_neg (by rw [hlookup]; simp)]
    dsimp only
    rw [hid1]
    dsimp only
    cases umod (GetBlockCount (startFirstTxEpochReset st).m_txBlockChain)
        env.NUM_FINAL_BLOCK_PER_POW with
    | none => rfl
    | some c =>
      dsimp only
      rw [List.get?_eq_none.mpr (by rw [hmem]; exact hge)]

/-- C13, as stated, fails.  The sample shard [98, 99] has distinct keys and
holds the node's key 98.  On a lookup node `LoadShardingStructure` and
`StartFirstTxEpoch` return at once: the node stays unmarked (`m_isPrimary`
false) although `m_consensusLeaderID` and `m_consensusMyID` are both 0.  On a
node that is not a lookup node, in DS backup mode with `GUARD_MODE` on and five
DS guards, the leader index 9 mod 5 = 4 is outside the two-member list and
`StartFirstTxEpoch` has no result; with `NUM_FINAL_BLOCK_PER_POW` zero it has
none either. -/
theorem C13_lookup_node_flag_unchanged :
    (shardKeys [{ pubKey := 98, peer := 908, rep := 0 },
      { pubKey := 99, peer := 909, rep := 0 }]).Nodup ∧
    sampleState.m_selfKey ∈ shardKeys [{ pubKey := 98, peer := 908, rep := 0 },
      { pubKey := 99, peer := 909, rep := 0 }] ∧
    (StartFirstTxEpoch { sampleEnv with LOOKUP_NODE_MODE := true }
        (LoadShardingStructure { sampleEnv with LOOKUP_NODE_MODE := true }
          { sampleState with m_shards_ds := sampleShards } false).2 false).map
      (fun s => (s.m_isPrimary, s.m_consensusLeaderID, s.m_consensusMyID))
      = some (false, 0, 0) ∧
    StartFirstTxEpoch sampleFiveGuardsEnv
        (LoadShardingStructure sampleFiveGuardsEnv
          { sampleStateFormerBackup with m_shards_ds := sampleShards } false).2 false
      = none ∧
    StartFirstTxEpoch { sampleEnv with NUM_FINAL_BLOCK_PER_POW := 0 }
        (LoadShardingStructure { sampleEnv with NUM_FINAL_BLOCK_PER_POW := 0 }
          { sampleState with m_shards_ds := sampleShards } false).2 false
      = none :=
  ⟨by decide, by decide, rfl, rfl, rfl⟩

/-- C13, amended.  On a lookup node `LoadShardingStructure` and
`StartFirstTxEpoch` return at once and change nothing.  On a node that is not
a lookup node, for a shard with pairwise distinct keys that holds the node's
own key, `LoadShardingStructure` succeeds; and when `NUM_FINAL_BLOCK_PER_POW`
is not zero and the shard leader index elected on the state it left is a valid
index of the shard, `StartFirstTxEpoch` returns with that index as
`m_consensusLeaderID` and the position of the own key as `m_consensusMyID`,
and `m_isPrimary` is true exactly when the two are equal, false otherwise. -/
theorem C13_shard_leader_flag_non_lookup (env : Env) (st : NodeState)
    (callByRetrieve fbWaitState : Bool) :
    (env.LOOKUP_NODE_MODE = true →
      LoadShardingStructure env st callByRetrieve = (true, st) ∧
      StartFirstTxEpoch env st fbWaitState = some st) ∧
    (env.LOOKUP_NODE_MODE = false → ∀ (shard : Shard) (leaderID : Nat),
      st.m_shards_ds.get? st.m_myshardId = some shard →
      (shardKeys shard).Nodup → st.m_selfKey ∈ shardKeys shard →
      env.NUM_FINAL_BLOCK_PER_POW ≠ 0 →
      shardLeaderID env (LoadShardingStructure env st callByRetrieve).2
        (shardLeaderSeed env (LoadShardingStructure env st callByRetrieve).2) = some leaderID →
      leaderID < shard.length →
      (LoadShardingStructure env st callByRetrieve).1 = true ∧
      ∃ st2, StartFirstTxEpoch env (LoadShardingStructure env st callByRetrieve).2 fbWaitState
          = some st2 ∧
        st2.m_consensusLeaderID = leaderID ∧
        st2.m_consensusMyID = (shardKeys shard).indexOf st.m_selfKey ∧
        (st2.m_isPrimary = true ↔ st2.m_consensusLeaderID = st2.m_consensusMyID) ∧
        (st2.m_isPrimary = false ↔ st2.m_consensusLeaderID ≠ st2.m_consensusMyID)) := by
  refine ⟨?_, ?_⟩
  · intro hlookup
    refine ⟨?_, ?_⟩
    · unfold LoadShardingStructure
      rw [if_pos hlookup]
    · unfold StartFirstTxEpoch
      rw [if_pos hlookup]
  · intro hlookup shard leaderID hshard hnodup hmem hpow hleader hvalid
    obtain ⟨_, _, hmembers, hmyid⟩ :=
      LoadShardingStructure_shard env st callByRetrieve shard hlookup hshard
    have hlen : (LoadShardingStructure env st callByRetrieve).2.m_myShardMembers.length =
        shard.length := by
      rw [hmembers, List.length_map]
    obtain ⟨st2, hst2, hlid⟩ :=
      (StartFirstTxEpoch_of_index env _ fbWaitState leaderID hlookup hleader).1
        (by rw [hlen]; exact hvalid) hpow
    obtain ⟨hok, hp, hnp⟩ := shard_leader_flag_of_run env st st2 callByRetrieve fbWaitState
      shard hlookup hshard hnodup hmem hst2
    obtain ⟨_, _, _, _, _, hmy2, _⟩ :=
      StartFirstTxEpoch_some env _ st2 fbWaitState hlookup hst2
    exact ⟨hok, st2, hst2, hlid, by rw [hmy2]; exact hmyid hnodup hmem, hp, hnp⟩

/-- Witness for C13: the sample node (key 98, first of the two members of
shard 0) is marked backup when member 1 is elected shard leader. -/
theorem C13_shard_leader_flag_non_lookup_witness :
    ∃ st2, StartFirstTxEpoch sampleEnv
        (LoadShardingStructure sampleEnv { sampleState with m_shards_ds := sampleShards }
          false).2 false = some st2 ∧
      st2.m_consensusLeaderID = 1 ∧ st2.m_consensusMyID = 0 ∧ st2.m_isPrimary = false := by
  obtain ⟨_, st2, hst2, hl, hm, _, hnp⟩ :=
    (C13_shard_leader_flag_non_lookup sampleEnv { sampleState with m_shards_ds := sampleShards }
      false false).2 rfl
      [{ pubKey := 98, peer := 908, rep := 0 }, { pubKey := 99, peer := 909, rep := 0 }] 1
      rfl (by decide) (by decide) (by decide) rfl (by decide)
  have hm0 : st2.m_consensusMyID = 0 := by rw [hm]; decide
  exact ⟨st2, hst2, hl, hm0, hnp.mpr (by rw [hl, hm0]; decide)⟩

end Node

namespace AccountStoreBase

/-! ### The base account store -/

theorem pair_bool_ne {α : Type} {x y : Bool} {a b : α} (hxy : x ≠ y) (h : (x, a) = (y, b)) :
    False := hxy (congrArg Prod.fst h)

theorem pair_snd {α : Type} {x y : Bool} {a b : α} (h : (x, a) = (y, b)) : a = b :=
  congrArg Prod.snd h

theorem putAccount_same (s : AccountMap) (a : Address) (acc : Account) (h : s a = some acc) :
    putAccount s a acc = s := by
  funext x
  unfold putAccount
  by_cases hx : x = a
  · rw [if_pos hx, hx, h]
  · rw [if_neg hx]

theorem putAccount_at (s : AccountMap) (a : Address) (acc : Account) :
    putAccount s a acc a = some acc := by
  unfold putAccount
  rw [if_pos rfl]

theorem putAccount_other (s : AccountMap) (a x : Address) (acc : Account) (h : x ≠ a) :
    putAccount s a acc x = s x := by
  unfold putAccount
  rw [if_neg h]

theorem putAccount_put (s : AccountMap) (a : Address) (acc acc2 : Account) :
    putAccount (putAccount s a acc) a acc2 = putAccount s a acc2 := by
  funext x
  unfold putAccount
  by_cases hx : x = a
  · rw [if_pos hx, if_pos hx]
  · rw [if_neg hx, if_neg hx, if_neg hx]

theorem sampleAccountEnv_checked : CheckedMath sampleAccountEnv :=
  ⟨fun _ _ => rfl, fun _ _ => rfl⟩

theorem sampleDecreaseBalance_fail (s : AccountMap) (a : Address) (d : Nat) (s1 : AccountMap)
    (h : sampleDecreaseBalance s a d = (false, s1)) : s1 = s := by
  unfold sampleDecreaseBalance at h
  split at h
  · exact (pair_bool_ne (by decide) h).elim
  · split at h
    · exact (pair_snd h).symm
    · split at h
      · exact (pair_snd h).symm
      · exact (pair_bool_ne (by decide) h).elim

theorem sampleDecreaseBalance_ok (s : AccountMap) (a : Address) (d : Nat) (s1 : AccountMap)
    (acc : Account) (hs : s a = some acc) (h : sampleDecreaseBalance s a d = (true, s1)) :
    d ≤ acc.balance ∧ s1 = putAccount s a { acc with balance := acc.balance - d } := by
  unfold sampleDecreaseBalance at h
  split at h
  · next hd =>
    subst hd
    refine ⟨Nat.zero_le _, ?_⟩
    cases pair_snd h
    exact (putAccount_same s a _ hs).symm
  · rw [hs] at h
    dsimp only at h
    split at h
    · exact (pair_bool_ne (by decide) h).elim
    · next hlt =>
      exact ⟨Nat.le_of_not_lt hlt, (congrArg Prod.snd h).symm⟩

theorem sampleIncreaseBalance_ok (s : AccountMap) (a : Address) (d : Nat) (s1 : AccountMap)
    (acc : Account) (hs : s a = some acc) (h : sampleIncreaseBalance s a d = (true, s1)) :
    s1 = putAccount s a { acc with balance := acc.balance + d } := by
  unfold sampleIncreaseBalance at h
  split at h
  · next hd =>
    subst hd
    cases pair_snd h
    exact (putAccount_same s a _ hs).symm
  · rw [hs] at h
    dsimp only at h
    split at h
    · exact (pair_snd h).symm
    · exact (pair_bool_ne (by decide) h).elim

theorem sampleIncreaseBalance_new (s : AccountMap) (a : Address) (d : Nat) (s1 : AccountMap)
    (hs : s a = none) (h : sampleIncreaseBalance s a d = (true, s1)) :
    (∀ x, x ≠ a → s1 x = s x) ∧ balanceOf s1 a = d ∧ nonceOf s1 a = 0 := by
  unfold sampleIncreaseBalance at h
  split at h
  · next hd =>
    subst hd
    cases pair_snd h
    refine ⟨fun _ _ => rfl, ?_, ?_⟩
    · show balanceOf s a = 0
      unfold balanceOf
      rw [hs]
    · show nonceOf s a = 0
      unfold nonceOf
      rw [hs]
  · rw [hs] at h
    dsimp only at h
    unfold AddAccount IsAccountExist GetAccount at h
    rw [hs] at h
    rw [if_pos (by rfl)] at h
    cases pair_snd h
    refine ⟨fun x hx => putAccount_other s a x _ hx, ?_, ?_⟩
    · show balanceOf (putAccount s a _) a = d
      unfold balanceOf
      rw [putAccount_at]
    · show nonceOf (putAccount s a _) a = 0
      unfold nonceOf
      rw [putAccount_at]

theorem sampleAccountEnv_contract : BalanceContract sampleAccountEnv where
  decrease_fail := sampleDecreaseBalance_fail
  decrease_ok := sampleDecreaseBalance_ok
  increase_ok := sampleIncreaseBalance_ok
  increase_new := sampleIncreaseBalance_new
  transfer_fail := by
    intro s f t d s1 h
    change sampleTransferBalance s f t d = (false, s1) at h
    unfold sampleTransferBalance at h
    split at h
    · exact (pair_snd h).symm
    · split at h
      · exact (pair_snd h).symm
      · exact (pair_bool_ne (by decide) h).elim
  transfer_ok := by
    intro s f t d s2 h
    change sampleTransferBalance s f t d = (true, s2) at h
    unfold sampleTransferBalance at h
    split at h
    · exact (pair_bool_ne (by decide) h).elim
    · next s1 hdec =>
      split at h
      · exact (pair_bool_ne (by decide) h).elim
      · next s3 hinc =>
        refine ⟨s1, hdec, ?_⟩
        cases pair_snd h
        exact hinc
  nonce_ok := by
    intro s a acc hs
    change sampleIncreaseNonce s a = _
    unfold sampleIncreaseNonce
    rw [hs]

end AccountStoreBase

namespace AccountStoreBase

/-- C24: under checked 128-bit `SafeMath`, on every transaction that reaches the
call to `CalculateGasRefund` in `UpdateBaseAccounts` (gas limit not below
`NORMAL_TRAN_GAS`, gas deposit `gasLimit * gasPrice` computed without overflow),
`NORMAL_TRAN_GAS * gasPrice` is below 2^128 and at most the gas deposit, and the
call returns true with `gasRefund = (gasLimit - NORMAL_TRAN_GAS) * gasPrice`; it
never returns false. -/
theorem C24_gas_refund_never_fails (env : AccountEnv) (hmath : CheckedMath env)
    (transaction : Transaction) (gasDeposit : Nat)
    (hlimit : ¬ transaction.gasLimit < env.NORMAL_TRAN_GAS)
    (hdeposit : env.SafeMath_mul transaction.gasLimit transaction.gasPrice = some gasDeposit) :
    env.NORMAL_TRAN_GAS * transaction.gasPrice < 2 ^ 128 ∧
    env.NORMAL_TRAN_GAS * transaction.gasPrice ≤ gasDeposit ∧
    CalculateGasRefund env gasDeposit env.NORMAL_TRAN_GAS transaction.gasPrice =
      some ((transaction.gasLimit - env.NORMAL_TRAN_GAS) * transaction.gasPrice) ∧
    CalculateGasRefund env gasDeposit env.NORMAL_TRAN_GAS transaction.gasPrice ≠ none := by
  have hle : env.NORMAL_TRAN_GAS * transaction.gasPrice ≤
      transaction.gasLimit * transaction.gasPrice :=
    Nat.mul_le_mul_right _ (Nat.le_of_not_lt hlimit)
  rw [hmath.mul_eq] at hdeposit
  by_cases hov : transaction.gasLimit * transaction.gasPrice < 2 ^ 128
  · rw [if_pos hov] at hdeposit
    injection hdeposit with hdep
    have hfee : env.NORMAL_TRAN_GAS * transaction.gasPrice < 2 ^ 128 :=
      Nat.lt_of_le_of_lt hle hov
    have hrun : CalculateGasRefund env gasDeposit env.NORMAL_TRAN_GAS transaction.gasPrice =
        some ((transaction.gasLimit - env.NORMAL_TRAN_GAS) * transaction.gasPrice) := by
      unfold CalculateGasRefund
      rw [hmath.mul_eq, if_pos hfee]
      dsimp only
      rw [hmath.sub_eq, if_pos (by rw [← hdep]; exact hle)]
      dsimp only
      rw [← hdep, Nat.sub_mul]
    refine ⟨hfee, by rw [← hdep]; exact hle, hrun, ?_⟩
    rw [hrun]
    exact fun h => Option.noConfusion h
  · rw [if_neg hov] at hdeposit
    cases hdeposit

/-- Witness for C24: gas limit 60 at gas price 2 leaves the refund 20. -/
theorem C24_gas_refund_never_fails_witness :
    CalculateGasRefund sampleAccountEnv 120 sampleAccountEnv.NORMAL_TRAN_GAS 2 = some 20 :=
  (C24_gas_refund_never_fails sampleAccountEnv sampleAccountEnv_checked sampleTransfer 120
    (by decide) rfl).2.2.1

end AccountStoreBase

namespace AccountStoreBase

/-- What a successful `TransferBalance` leaves, under the helper contract. -/
theorem transfer_effect (env : AccountEnv) (hops : BalanceContract env) (s s2 : AccountMap)
    (f t : Address) (d : Nat) (a : Account) (hf : s f = some a)
    (h : env.TransferBalance s f t d = (true, s2)) :
    d ≤ a.balance ∧ (∃ a2, s2 f = some a2) ∧
    (f ≠ t →
      s2 f = some { a with balance := a.balance - d } ∧
      balanceOf s2 t = balanceOf s t + d ∧ nonceOf s2 t = nonceOf s t ∧
      ∀ x, x ≠ f → x ≠ t → s2 x = s x) := by
  obtain ⟨s1, hdec, hinc⟩ := hops.transfer_ok s f t d s2 h
  obtain ⟨hle, hs1⟩ := hops.decrease_ok s f d s1 a hf hdec
  have hs1f : s1 f = some { a with balance := a.balance - d } := by
    rw [hs1]; exact putAccount_at _ _ _
  by_cases hft : f = t
  · subst hft
    have hs2 := hops.increase_ok s1 f d s2 _ hs1f hinc
    refine ⟨hle, ⟨_, by rw [hs2]; exact putAccount_at _ _ _⟩, fun hne => absurd rfl hne⟩
  · have hs1t : s1 t = s t := by
      rw [hs1]; exact putAccount_other _ _ _ _ (fun e => hft e.symm)
    cases hst : s t with
    | some at0 =>
      have hs2 := hops.increase_ok s1 t d s2 at0 (by rw [hs1t, hst]) hinc
      have hs2f : s2 f = some { a with balance := a.balance - d } := by
        rw [hs2, putAccount_other _ _ _ _ hft]; exact hs1f
      refine ⟨hle, ⟨_, hs2f⟩, fun _ => ⟨hs2f, ?_, ?_, ?_⟩⟩
      · unfold balanceOf
        rw [hs2, putAccount_at, hst]
      · unfold nonceOf
        rw [hs2, putAccount_at, hst]
      · intro x hxf hxt
        rw [hs2, putAccount_other _ _ _ _ hxt, hs1, putAccount_other _ _ _ _ hxf]
    | none =>
      obtain ⟨hoth, hbal, hnon⟩ := hops.increase_new s1 t d s2 (by rw [hs1t, hst]) hinc
      have hs2f : s2 f = some { a with balance := a.balance - d } := by
        rw [hoth f hft]; exact hs1f
      refine ⟨hle, ⟨_, hs2f⟩, fun _ => ⟨hs2f, ?_, ?_, ?_⟩⟩
      · rw [hbal]
        unfold balanceOf
        rw [hst]
        exact (Nat.zero_add d).symm
      · rw [hnon]
        unfold nonceOf
        rw [hst]
      · intro x hxf hxt
        rw [hoth x hxt, hs1, putAccount_other _ _ _ _ hxf]

/-- The refund computed on the path that reaches `CalculateGasRefund`. -/
theorem gasRefund_eq (env : AccountEnv) (hmath : CheckedMath env)
    (gasLimit gasPrice gasDeposit : Nat)
    (hlimit : ¬ gasLimit < env.NORMAL_TRAN_GAS)
    (hdeposit : env.SafeMath_mul gasLimit gasPrice = some gasDeposit) :
    env.NORMAL_TRAN_GAS * gasPrice ≤ gasDeposit ∧ gasDeposit < 2 ^ 128 ∧
    gasDeposit = gasLimit * gasPrice ∧
    CalculateGasRefund env gasDeposit env.NORMAL_TRAN_GAS gasPrice =
      some (gasDeposit - env.NORMAL_TRAN_GAS * gasPrice) := by
  have hle : env.NORMAL_TRAN_GAS * gasPrice ≤ gasLimit * gasPrice :=
    Nat.mul_le_mul_right _ (Nat.le_of_not_lt hlimit)
  rw [hmath.mul_eq] at hdeposit
  by_cases hov : gasLimit * gasPrice < 2 ^ 128
  · rw [if_pos hov] at hdeposit
    injection hdeposit with hdep
    subst hdep
    refine ⟨hle, hov, rfl, ?_⟩
    unfold CalculateGasRefund
    rw [hmath.mul_eq, if_pos (Nat.lt_of_le_of_lt hle hov)]
    dsimp only
    rw [hmath.sub_eq, if_pos hle]
  · rw [if_neg hov] at hdeposit
    cases hdeposit

end AccountStoreBase

namespace AccountStoreBase

/-- C26: under checked `SafeMath` and the helper contract, a call of
`UpdateBaseAccounts` that returns false leaves every account as it was before
the call (after a failed transfer the gas deposit is back), and `error_code` is
one of INVALID_FROM_ACCOUNT, INSUFFICIENT_GAS_LIMIT, INSUFFICIENT_BALANCE and
MATH_ERROR: INVALID_FROM_ACCOUNT exactly when the sender account is missing,
INSUFFICIENT_GAS_LIMIT exactly when the sender exists and the gas limit is below
`NORMAL_TRAN_GAS`. -/
theorem C26_failure_atomicity (env : AccountEnv) (hmath : CheckedMath env)
    (hops : BalanceContract env) (store : AccountMap) (transaction : Transaction)
    (receipt : TransactionReceipt) (r : UpdateResult)
    (hrun : UpdateBaseAccounts env store transaction receipt = some r)
    (hfalse : r.ret = false) :
    r.store = store ∧
    (r.error_code = TxnStatus.INVALID_FROM_ACCOUNT ∨
      r.error_code = TxnStatus.INSUFFICIENT_GAS_LIMIT ∨
      r.error_code = TxnStatus.INSUFFICIENT_BALANCE ∨
      r.error_code = TxnStatus.MATH_ERROR) ∧
    (r.error_code = TxnStatus.INVALID_FROM_ACCOUNT ↔
      store (env.GetAddressFromPublicKey transaction.senderPubKey) = none) ∧
    (r.error_code = TxnStatus.INSUFFICIENT_GAS_LIMIT ↔
      (store (env.GetAddressFromPublicKey transaction.senderPubKey) ≠ none ∧
        transaction.gasLimit < env.NORMAL_TRAN_GAS)) := by
  unfold UpdateBaseAccounts GetAccount at hrun
  dsimp only at hrun
  split at hrun
  · next hnone =>
    injection hrun with hr
    subst hr
    exact ⟨rfl, Or.inl rfl, ⟨fun _ => hnone, fun _ => rfl⟩,
      ⟨fun h => (by cases h), fun h => absurd hnone h.1⟩⟩
  · next acc hacc =>
    have hsome : store (env.GetAddressFromPublicKey transaction.senderPubKey) ≠ none := by
      rw [hacc]; exact fun h => by cases h
    split at hrun
    · next hgas =>
      injection hrun with hr
      subst hr
      exact ⟨rfl, Or.inr (Or.inl rfl), ⟨fun h => (by cases h), fun h => absurd h hsome⟩,
        ⟨fun _ => ⟨hsome, hgas⟩, fun _ => rfl⟩⟩
    · next hgas =>
      split at hrun
      · injection hrun with hr
        subst hr
        exact ⟨rfl, Or.inr (Or.inr (Or.inr rfl)),
          ⟨fun h => (by cases h), fun h => absurd h hsome⟩,
          ⟨fun h => (by cases h), fun h => absurd h.2 hgas⟩⟩
      · next dep hdep =>
        obtain ⟨hfee, _, _, hrefund⟩ := gasRefund_eq env hmath _ _ dep hgas hdep
        split at hrun
        · injection hrun with hr
          subst hr
          exact ⟨rfl, Or.inr (Or.inr (Or.inl rfl)),
            ⟨fun h => (by cases h), fun h => absurd h hsome⟩,
            ⟨fun h => (by cases h), fun h => absurd h.2 hgas⟩⟩
        · split at hrun
          · next s1 hdec =>
            injection hrun with hr
            subst hr
            exact ⟨hops.decrease_fail _ _ _ _ hdec, Or.inr (Or.inr (Or.inr rfl)),
              ⟨fun h => (by cases h), fun h => absurd h hsome⟩,
              ⟨fun h => (by cases h), fun h => absurd h.2 hgas⟩⟩
          · next s1 hdec =>
            obtain ⟨hle, hs1⟩ := hops.decrease_ok _ _ _ _ acc hacc hdec
            have hs1f : s1 (env.GetAddressFromPublicKey transaction.senderPubKey) =
                some { acc with balance := acc.balance - dep } := by
              rw [hs1]; exact putAccount_at _ _ _
            split at hrun
            · next s2 htr =>
              have hs2 := hops.transfer_fail _ _ _ _ _ htr
              subst hs2
              split at hrun
              · cases hrun
              · next s3 hinc =>
                injection hrun with hr
                subst hr
                have hs3 := hops.increase_ok _ _ _ _ _ hs1f hinc
                refine ⟨?_, Or.inr (Or.inr (Or.inr rfl)),
                  ⟨fun h => (by cases h), fun h => absurd h hsome⟩,
                  ⟨fun h => (by cases h), fun h => absurd h.2 hgas⟩⟩
                show s3 = store
                rw [hs3, hs1, putAccount_put]
                apply putAccount_same
                rw [hacc]
                show some acc = some { balance := acc.balance - dep + dep, nonce := acc.nonce }
                rw [Nat.sub_add_cancel hle]
            · next s2 htr =>
              obtain ⟨_, ⟨a2, hs2f⟩, _⟩ := transfer_effect env hops _ _ _ _ _ _ hs1f htr
              split at hrun
              · next hnone =>
                rw [hrefund] at hnone
                cases hnone
              · next refund href =>
                split at hrun
                · cases hrun
                · next s3 hinc =>
                  have hs3 := hops.increase_ok _ _ _ _ _ hs2f hinc
                  have hs3f : s3 (env.GetAddressFromPublicKey transaction.senderPubKey) =
                      some { a2 with balance := a2.balance + refund } := by
                    rw [hs3]; exact putAccount_at _ _ _
                  have hnonce := hops.nonce_ok _ _ _ hs3f
                  split at hrun
                  · next s4 hno =>
                    rw [hnonce] at hno
                    exact (pair_bool_ne (by decide) hno).elim
                  · injection hrun with hr
                    subst hr
                    cases hfalse

end AccountStoreBase

namespace AccountStoreBase

/-- Witness for C26: the sample transfer whose amount plus deposit passes 2^128
fails, and the sample accounts are as before. -/
theorem C26_failure_atomicity_witness :
    ∃ r, UpdateBaseAccounts sampleAccountEnv sampleAccounts sampleWrappingTransfer
        sampleReceipt = some r ∧ r.ret = false ∧ r.store = sampleAccounts :=
  ⟨_, rfl, rfl,
    (C26_failure_atomicity sampleAccountEnv sampleAccountEnv_checked sampleAccountEnv_contract
      sampleAccounts sampleWrappingTransfer sampleReceipt _ rfl rfl).1⟩

end AccountStoreBase

namespace AccountStoreBase

/-- The one path on which `UpdateBaseAccounts` returns true. -/
theorem UpdateBaseAccounts_true (env : AccountEnv) (store : AccountMap)
    (transaction : Transaction) (receipt : TransactionReceipt) (r : UpdateResult)
    (hrun : UpdateBaseAccounts env store transaction receipt = some r)
    (htrue : r.ret = true) :
    ∃ acc dep s1 s2 refund s3 s4,
      store (env.GetAddressFromPublicKey transaction.senderPubKey) = some acc ∧
      ¬ transaction.gasLimit < env.NORMAL_TRAN_GAS ∧
      env.SafeMath_mul transaction.gasLimit transaction.gasPrice = some dep ∧
      ¬ acc.balance < (transaction.amount + dep) % 2 ^ 128 ∧
      env.DecreaseBalance store (env.GetAddressFromPublicKey transaction.senderPubKey) dep =
        (true, s1) ∧
      env.TransferBalance s1 (env.GetAddressFromPublicKey transaction.senderPubKey)
        transaction.toAddr transaction.amount = (true, s2) ∧
      CalculateGasRefund env dep env.NORMAL_TRAN_GAS transaction.gasPrice = some refund ∧
      env.IncreaseBalance s2 (env.GetAddressFromPublicKey transaction.senderPubKey) refund =
        (true, s3) ∧
      env.IncreaseNonce s3 (env.GetAddressFromPublicKey transaction.senderPubKey) =
        (true, s4) ∧
      r.store = s4 ∧
      r.receipt = { receipt with result := true, cumGas := env.NORMAL_TRAN_GAS,
                                 updated := true } ∧
      r.error_code = TxnStatus.NOT_PRESENT := by
  unfold UpdateBaseAccounts GetAccount at hrun
  dsimp only at hrun
  split at hrun
  · injection hrun with hr; subst hr; cases htrue
  · next acc hacc =>
    split at hrun
    · injection hrun with hr; subst hr; cases htrue
    · next hgas =>
      split at hrun
      · injection hrun with hr; subst hr; cases htrue
      · next dep hdep =>
        split at hrun
        · injection hrun with hr; subst hr; cases htrue
        · next hbal =>
          split at hrun
          · injection hrun with hr; subst hr; cases htrue
          · next s1 hdec =>
            split at hrun
            · split at hrun
              · cases hrun
              · injection hrun with hr; subst hr; cases htrue
            · next s2 htr =>
              split at hrun
              · injection hrun with hr; subst hr; cases htrue
              · next refund href =>
                split at hrun
                · cases hrun
                · next s3 hinc =>
                  split at hrun
                  · injection hrun with hr; subst hr; cases htrue
                  · next s4 hno =>
                    injection hrun with hr
                    subst hr
                    exact ⟨acc, dep, s1, s2, refund, s3, s4, hacc, hgas, hdep, hbal, hdec, htr,
                      href, hinc, hno, rfl, rfl, rfl⟩

/-- C23: under checked `SafeMath` and the helper contract, a call of
`UpdateBaseAccounts` with sender different from recipient that returns true had
an existing sender and a gas limit of at least `NORMAL_TRAN_GAS`; the sender's
balance went down by exactly `amount + NORMAL_TRAN_GAS * gasPrice`, the
recipient's balance up by exactly `amount`, the sender's nonce up by exactly 1,
every other account is unchanged, the receipt is marked successful with
cumulative gas `NORMAL_TRAN_GAS`, and `error_code` is NOT_PRESENT. -/
theorem C23_success_postcondition (env : AccountEnv) (hmath : CheckedMath env)
    (hops : BalanceContract env) (store : AccountMap) (transaction : Transaction)
    (receipt : TransactionReceipt) (r : UpdateResult)
    (hne : env.GetAddressFromPublicKey transaction.senderPubKey ≠ transaction.toAddr)
    (hrun : UpdateBaseAccounts env store transaction receipt = some r)
    (htrue : r.ret = true) :
    ∃ sender, store (env.GetAddressFromPublicKey transaction.senderPubKey) = some sender ∧
      env.NORMAL_TRAN_GAS ≤ transaction.gasLimit ∧
      transaction.amount + env.NORMAL_TRAN_GAS * transaction.gasPrice ≤ sender.balance ∧
      r.store (env.GetAddressFromPublicKey transaction.senderPubKey) =
        some { balance := sender.balance -
                 (transaction.amount + env.NORMAL_TRAN_GAS * transaction.gasPrice),
               nonce := sender.nonce + 1 } ∧
      balanceOf r.store transaction.toAddr =
        balanceOf store transaction.toAddr + transaction.amount ∧
      nonceOf r.store transaction.toAddr = nonceOf store transaction.toAddr ∧
      (∀ x, x ≠ env.GetAddressFromPublicKey transaction.senderPubKey →
        x ≠ transaction.toAddr → r.store x = store x) ∧
      r.receipt.result = true ∧ r.receipt.cumGas = env.NORMAL_TRAN_GAS ∧
      r.error_code = TxnStatus.NOT_PRESENT := by
  obtain ⟨acc, dep, s1, s2, refund, s3, s4, hacc, hgas, hdep, _, hdec, htr, href, hinc, hno,
    hstore, hreceipt, hcode⟩ := UpdateBaseAccounts_true env store transaction receipt r hrun htrue
  obtain ⟨hfee, _, _, hrefund⟩ := gasRefund_eq env hmath _ _ dep hgas hdep
  rw [hrefund] at href
  injection href with href
  obtain ⟨hle, hs1⟩ := hops.decrease_ok _ _ _ _ acc hacc hdec
  have hs1f : s1 (env.GetAddressFromPublicKey transaction.senderPubKey) =
      some { acc with balance := acc.balance - dep } := by
    rw [hs1]; exact putAccount_at _ _ _
  obtain ⟨hle2, _, heff⟩ := transfer_effect env hops _ _ _ _ _ _ hs1f htr
  obtain ⟨hs2f, hbal, hnon, hoth⟩ := heff hne
  have hs3 := hops.increase_ok _ _ _ _ _ hs2f hinc
  have hs3f : s3 (env.GetAddressFromPublicKey transaction.senderPubKey) =
      some { balance := acc.balance - dep - transaction.amount + refund, nonce := acc.nonce } := by
    rw [hs3]; exact putAccount_at _ _ _
  have hs4 := hops.nonce_ok _ _ _ hs3f
  rw [hs4] at hno
  have hs4e := pair_snd hno
  have hto : transaction.toAddr ≠ env.GetAddressFromPublicKey transaction.senderPubKey :=
    fun e => hne e.symm
  have hle2n : transaction.amount ≤ acc.balance - dep := hle2
  refine ⟨acc, hacc, Nat.le_of_not_lt hgas, by omega, ?_, ?_, ?_, ?_, ?_, ?_, hcode⟩
  · rw [hstore, ← hs4e, putAccount_at]
    show some ({ balance := acc.balance - dep - transaction.amount + refund,
                 nonce := acc.nonce + 1 } : Account) = _
    congr 2
    omega
  · rw [hstore, ← hs4e]
    unfold balanceOf
    rw [putAccount_other _ _ _ _ hto, hs3, putAccount_other _ _ _ _ hto]
    have h1 := hbal
    unfold balanceOf at h1
    rw [h1, hs1, putAccount_other _ _ _ _ hto]
  · rw [hstore, ← hs4e]
    unfold nonceOf
    rw [putAccount_other _ _ _ _ hto, hs3, putAccount_other _ _ _ _ hto]
    have h1 := hnon
    unfold nonceOf at h1
    rw [h1, hs1, putAccount_other _ _ _ _ hto]
  · intro x hxf hxt
    rw [hstore, ← hs4e, putAccount_other _ _ _ _ hxf, hs3, putAccount_other _ _ _ _ hxf,
      hoth x hxf hxt, hs1, putAccount_other _ _ _ _ hxf]
  · rw [hreceipt]
  · rw [hreceipt]

/-- Witness for C23: the sample transfer of 100 at gas price 2 returns true and
takes 100 + 50 * 2 from address 1. -/
theorem C23_success_postcondition_witness :
    ∃ r, UpdateBaseAccounts sampleAccountEnv sampleAccounts sampleTransfer sampleReceipt =
        some r ∧ r.ret = true ∧ r.store 1 = some { balance := 800, nonce := 8 } ∧
      balanceOf r.store 2 = 105 :=
  ⟨_, rfl, rfl, by decide,
    (C23_success_postcondition sampleAccountEnv sampleAccountEnv_checked
      sampleAccountEnv_contract sampleAccounts sampleTransfer sampleReceipt _ (by decide)
      rfl rfl).choose_spec.2.2.2.2.1⟩

end AccountStoreBase

namespace AccountStoreBase

/-- Once the balance check of `UpdateBaseAccounts` has let a transaction
through, no helper can make the call report INSUFFICIENT_BALANCE. -/
theorem balance_check_passed (env : AccountEnv) (store : AccountMap)
    (transaction : Transaction) (receipt : TransactionReceipt) (r : UpdateResult)
    (sender : Account) (dep : Nat)
    (hsender : store (env.GetAddressFromPublicKey transaction.senderPubKey) = some sender)
    (hgas : ¬ transaction.gasLimit < env.NORMAL_TRAN_GAS)
    (hdep : env.SafeMath_mul transaction.gasLimit transaction.gasPrice = some dep)
    (hpass : ¬ sender.balance < (transaction.amount + dep) % 2 ^ 128)
    (hrun : UpdateBaseAccounts env store transaction receipt = some r) :
    r.error_code ≠ TxnStatus.INSUFFICIENT_BALANCE := by
  unfold UpdateBaseAccounts GetAccount at hrun
  dsimp only at hrun
  rw [hsender] at hrun
  dsimp only at hrun
  rw [if_neg hgas, hdep] at hrun
  dsimp only at hrun
  rw [if_neg hpass] at hrun
  split at hrun
  · injection hrun with hr; subst hr; exact fun h => by cases h
  · split at hrun
    · split at hrun
      · cases hrun
      · injection hrun with hr; subst hr; exact fun h => by cases h
    · split at hrun
      · injection hrun with hr; subst hr; exact fun h => by cases h
      · split at hrun
        · cases hrun
        · split at hrun
          · injection hrun with hr; subst hr; exact fun h => by cases h
          · injection hrun with hr; subst hr; exact fun h => by cases h

/-- Without a wrapping sum the balance check is exact: a sender whose balance
is below `amount + gasLimit * gasPrice < 2^128` gets INSUFFICIENT_BALANCE and
nothing changes. -/
theorem insufficient_balance_without_wrap (env : AccountEnv) (hmath : CheckedMath env)
    (store : AccountMap) (transaction : Transaction) (receipt : TransactionReceipt)
    (sender : Account)
    (hsender : store (env.GetAddressFromPublicKey transaction.senderPubKey) = some sender)
    (hgas : ¬ transaction.gasLimit < env.NORMAL_TRAN_GAS)
    (hsum : transaction.amount + transaction.gasLimit * transaction.gasPrice < 2 ^ 128)
    (hlow : sender.balance < transaction.amount + transaction.gasLimit * transaction.gasPrice) :
    UpdateBaseAccounts env store transaction receipt =
      some { ret := false, store := store, receipt := receipt,
             error_code := TxnStatus.INSUFFICIENT_BALANCE } := by
  have hdep : env.SafeMath_mul transaction.gasLimit transaction.gasPrice =
      some (transaction.gasLimit * transaction.gasPrice) := by
    rw [hmath.mul_eq, if_pos (by omega)]
  unfold UpdateBaseAccounts GetAccount
  dsimp only
  rw [hsender]
  dsimp only
  rw [if_neg hgas, hdep]
  dsimp only
  rw [if_pos (by rw [Nat.mod_eq_of_lt hsum]; exact hlow)]

/-- C25: on the sample accounts (address 1 holds 1000) the transfer of
2^128 - 1 with gas limit 50 at gas price 1 has the exact cost 2^128 + 49, above
the balance, and a gas deposit 50 computed without overflow; the 128-bit sum
wraps to 49, the balance check lets the transaction through, and the call
returns false with MATH_ERROR instead of INSUFFICIENT_BALANCE. -/
theorem C25_wrapped_sum_reports_math_error :
    sampleAccounts (sampleAccountEnv.GetAddressFromPublicKey
      sampleWrappingTransfer.senderPubKey) = some { balance := 1000, nonce := 7 } ∧
    sampleAccountEnv.NORMAL_TRAN_GAS ≤ sampleWrappingTransfer.gasLimit ∧
    sampleWrappingTransfer.gasLimit * sampleWrappingTransfer.gasPrice < 2 ^ 128 ∧
    1000 < sampleWrappingTransfer.amount +
      sampleWrappingTransfer.gasLimit * sampleWrappingTransfer.gasPrice ∧
    (sampleWrappingTransfer.amount +
      sampleWrappingTransfer.gasLimit * sampleWrappingTransfer.gasPrice) % 2 ^ 128 = 49 ∧
    (UpdateBaseAccounts sampleAccountEnv sampleAccounts sampleWrappingTransfer
      sampleReceipt).map UpdateResult.view =
      some (false, some { balance := 1000, nonce := 7 }, some { balance := 5, nonce := 0 },
        sampleReceipt, TxnStatus.MATH_ERROR) := by
  refine ⟨rfl, ?_, ?_, ?_, ?_, ?_⟩ <;> decide

end AccountStoreBase

namespace AccountStoreCpsInterface

open AccountStoreBase

/-- C27: whatever the atomic lookup finds, `GetNonceForAccountAtomic` returns 0
after `SetNonceForAccountAtomic(address, nonce)`; on the sample accounts the
nonce 42 written to address 1 is in the account and is not what the read
returns. -/
theorem C27_atomic_nonce_read_returns_zero :
    (∀ (GetAccountAtomic : AccountMap → Address → Option Account) (atomic : AccountMap)
        (address : Address) (nonce : Nat),
      GetNonceForAccountAtomic GetAccountAtomic
        (SetNonceForAccountAtomic GetAccountAtomic atomic address nonce) address = 0) ∧
    SetNonceForAccountAtomic sampleGetAccountAtomic sampleAccounts 1 42 1 =
      some { balance := 1000, nonce := 42 } ∧
    GetNonceForAccountAtomic sampleGetAccountAtomic
      (SetNonceForAccountAtomic sampleGetAccountAtomic sampleAccounts 1 42) 1 ≠ 42 :=
  ⟨fun _ _ _ _ => rfl, by decide, by decide⟩

end AccountStoreCpsInterface

namespace Eth

/-- From the tenth item on, the loop of `parseRawTxFields` changes no field. -/
theorem parse_beyond_ninth {Item : Type} (rlp : RLPOps Item) (rest : List Item) :
    ∀ (n : Nat) (ret : EthFields), 9 ≤ n → (rest.foldl (parseStep rlp) (n, ret)).2 = ret := by
  induction rest with
  | nil => intro n ret _; rfl
  | cons it rest ih =>
    intro n ret hn
    obtain ⟨m, rfl⟩ : ∃ m, n = m + 9 := ⟨n - 9, by omega⟩
    rw [List.foldl_cons]
    have hstep : parseStep rlp (m + 9, ret) it = (m + 9 + 1, ret) := rfl
    rw [hstep]
    exact ih _ ret (by omega)

/-- The fields after the first nine items, from any starting record. -/
theorem parse_nine {Item : Type} (rlp : RLPOps Item) (ret : EthFields)
    (i0 i1 i2 i3 i4 i5 i6 i7 i8 : Item) (rest : List Item) :
    ((i0 :: i1 :: i2 :: i3 :: i4 :: i5 :: i6 :: i7 :: i8 :: rest).foldl (parseStep rlp)
      (0, ret)).2 =
    { version := ret.version, nonce := rlp.toUint32 i0, toAddr := rlp.toBytes i3,
      amount := rlp.toUint128 i4, gasPrice := rlp.toUint128 i1, gasLimit := rlp.toUint64 i2,
      data := rlp.toBytes i5,
      signature := rlp.toBytes i8 ++ (rlp.toBytes i7 ++ ret.signature) } := by
  simp only [List.foldl_cons]
  exact parse_beyond_ninth rlp rest 9 _ (Nat.le_refl 9)

/-- C28: for an RLP list of at least nine items `parseRawTxFields` sets version
65538, takes nonce, gasPrice, gasLimit, toAddr, amount and data from items 0 to
5, ignores item 6 and every item beyond the ninth, and leaves as signature the
bytes of item 8 (S) followed by the bytes of item 7 (R); on the sample list with
R = [1, 2] and S = [3, 4] the signature is [3, 4, 1, 2]. -/
theorem C28_signature_is_s_then_r {Item : Type} (rlp : RLPOps Item) (ret0 : EthFields)
    (message : String) (i0 i1 i2 i3 i4 i5 i6 i7 i8 : Item) (rest : List Item) :
    parseRawTxFields
      { rlp with items := fun _ => i0 :: i1 :: i2 :: i3 :: i4 :: i5 :: i6 :: i7 :: i8 :: rest }
      ret0 message =
      { version := 65538, nonce := rlp.toUint32 i0, toAddr := rlp.toBytes i3,
        amount := rlp.toUint128 i4, gasPrice := rlp.toUint128 i1,
        gasLimit := rlp.toUint64 i2, data := rlp.toBytes i5,
        signature := rlp.toBytes i8 ++ (rlp.toBytes i7 ++ ret0.signature) } ∧
    (parseRawTxFields (sampleRLP sampleRawTx) sampleDefaultFields message).signature =
      [3, 4, 1, 2] ∧
    (parseRawTxFields (sampleRLP sampleRawTx) sampleDefaultFields message).signature ≠
      [1, 2, 3, 4] := by
  refine ⟨?_, ?_, ?_⟩
  · unfold parseRawTxFields
    exact parse_nine _ _ i0 i1 i2 i3 i4 i5 i6 i7 i8 rest
  · rfl
  · show ([3, 4, 1, 2] : zbytes) ≠ [1, 2, 3, 4]
    decide

end Eth

namespace ScillaIPCServer

/-- What `fetchBlockchainInfo` does on the four query names it knows. -/
theorem fetchBlockchainInfo_known (env : IPCEnv) (query_args value : String) :
    fetchBlockchainInfo env ("BLOCKNUMBER") query_args value =
      (true, toString env.getCurBlockNum) ∧
    fetchBlockchainInfo env ("CHAINID") query_args value = (true, toString env.CHAIN_ID) ∧
    (env.stoull query_args = none →
      fetchBlockchainInfo env ("TIMESTAMP") query_args value = (false, value) ∧
      fetchBlockchainInfo env ("BLOCKHASH") query_args value = (false, value)) ∧
    (∀ blockNum, env.stoull query_args = some blockNum → env.GetTxBlock blockNum = none →
      fetchBlockchainInfo env ("TIMESTAMP") query_args value = (false, value) ∧
      fetchBlockchainInfo env ("BLOCKHASH") query_args value = (false, value)) ∧
    (∀ blockNum txBlock, env.stoull query_args = some blockNum →
      env.GetTxBlock blockNum = some txBlock →
      fetchBlockchainInfo env ("TIMESTAMP") query_args value =
        (true, toString txBlock.timestamp) ∧
      fetchBlockchainInfo env ("BLOCKHASH") query_args value =
        (true, env.hex txBlock.blockHash)) := by
  refine ⟨?_, ?_, ?_, ?_, ?_⟩
  · unfold fetchBlockchainInfo
    rw [if_pos rfl]
  · unfold fetchBlockchainInfo
    rw [if_neg (by decide), if_neg (by decide), if_pos rfl]
  · intro h
    unfold fetchBlockchainInfo
    rw [if_neg (by decide), if_pos (by decide), if_neg (by decide), if_pos (by decide), h]
    exact ⟨rfl, rfl⟩
  · intro blockNum h1 h2
    unfold fetchBlockchainInfo
    rw [if_neg (by decide), if_pos (by decide), if_neg (by decide), if_pos (by decide), h1]
    dsimp only
    rw [h2]
    exact ⟨rfl, rfl⟩
  · intro blockNum txBlock h1 h2
    unfold fetchBlockchainInfo
    rw [if_neg (by decide), if_pos (by decide), if_neg (by decide), if_pos (by decide), h1]
    dsimp only
    rw [h2]
    dsimp only
    rw [if_pos rfl, if_neg (by decide)]
    exact ⟨rfl, rfl⟩

/-- On every query name other than the four known ones `fetchBlockchainInfo`
returns true and leaves `value` as it was. -/
theorem fetchBlockchainInfo_unknown (env : IPCEnv) (query_name query_args value : String)
    (h1 : query_name ≠ "BLOCKNUMBER") (h2 : query_name ≠ "TIMESTAMP")
    (h3 : query_name ≠ "BLOCKHASH") (h4 : query_name ≠ "CHAINID") :
    fetchBlockchainInfo env query_name query_args value = (true, value) := by
  unfold fetchBlockchainInfo
  rw [if_neg h1, if_neg (fun h => h.elim h2 h3), if_neg h4]

/-- C29: on the query name GASPRICE, which is none of BLOCKNUMBER, TIMESTAMP,
BLOCKHASH and CHAINID, `fetchBlockchainInfo` returns true, for every server,
argument and old content of `value`, and leaves `value` as it was. -/
theorem C29_unknown_query_name_returns_true (env : IPCEnv) (query_args value : String) :
    fetchBlockchainInfo env ("GASPRICE") query_args value = (true, value) :=
  fetchBlockchainInfo_unknown env _ query_args value (by decide) (by decide) (by decide)
    (by decide)

end ScillaIPCServer

end Zilliqa
